import Mathlib

/-!
# Region-addressed block-storage driver (`05_Exercise/blck_driver.c`)

A shallow embedding of the character-device driver: the device structure, the
write-request parser, the key check, the chunked read and write paths and the
control requests, followed by theorems about them.

Conventions of the embedding.

* A byte is a `Nat`; a buffer `char buf[N]` is a map from index to byte of
  which only the indices below `N` are storage.
* A user payload and every C string is a `List Nat`; a `char *` into a
  NUL-terminated kernel buffer is the list of bytes from the pointer to the end
  of the buffer (terminator included), and `NULL` is `none`.
* `int`, `loff_t` and `ssize_t` values are `Int`; error returns are the
  negated errno constants of the kernel.
* A mutex is a `Bool` (held or free) and a semaphore is its count. A call that
  would sleep for ever on a held mutex or an empty semaphore has the outcome
  `Outcome.blocked`; undefined behaviour of the C program (a `NULL`
  dereference, an access in front of the region array) is `Outcome.undefined`.
* Allocation failures, failing user copies and signals are inputs, collected
  in `Env` (for the export, in `BackupEnv`).
* Two writers at once are a step relation on the shared device: `writer_step`
  is one step of the locking part of `block_dev_write`, `pair_run` runs two
  writers under a schedule.
* The file operations of the logger device of `02_exercise/shared_log_device.c`
  are embedded the same way, on the globals of that module (`logger_device`).
-/

/-! ## Constants -/

def REGION_SIZE : Nat := 512
def TOTAL_REGIONS : Nat := 8
def TOTAL_SIZE : Nat := REGION_SIZE * TOTAL_REGIONS
def MAX_KEYS : Nat := 10

def EPERM : Int := 1
def EINTR : Int := 4
def ENOMEM : Int := 12
def EACCES : Int := 13
def EFAULT : Int := 14
def ENODEV : Int := 19
def EINVAL : Int := 22
def ENOTTY : Int := 25
def ERANGE : Int := 34
def ERESTARTSYS : Int := 512

/-! ## Data structures -/

/-- One region: `struct vblock_region`. -/
structure vblock_region where
  data : Nat → Nat
  locked : Int
  lock_key : Int
  region_mutex : Bool
  read_sem : Nat

/-- The device: `struct vblock_device` (the registration fields `dev_no`,
`cdev`, `class`, `device` play no part in the request paths). -/
structure vblock_device where
  regions : Nat → vblock_region
  mirror_buffer : Option (Nat → Nat)
  mirror_enable : Int
  user_keys : Nat → Int
  key_count : Int

/-- The answer of the get-info request: `struct device_info`. -/
structure device_info where
  lock_bitmap : Nat
  mirror_enabled : Int
  total_regions : Int
  region_size : Int
  valid_keys : Nat → Int
  key_count : Int

/-- What the caller's surroundings decide: whether the two allocations fail,
whether the copies across the user boundary fail, and whether a signal arrives
while the caller sleeps in `down_interruptible`. -/
structure Env where
  write_alloc_fails : Bool
  parse_alloc_fails : Bool
  copy_from_user_fails : Bool
  copy_to_user_fails : Nat → Bool
  signal : Bool

/-- The surroundings in which nothing fails and no signal arrives. -/
def Env.quiet : Env :=
  { write_alloc_fails := false, parse_alloc_fails := false,
    copy_from_user_fails := false, copy_to_user_fails := fun _ => false,
    signal := false }

/-- How a call ends. -/
inductive Outcome (α : Type) where
  | ret (a : α)
  | blocked
  | undefined
  | diverged

/-! ## Kernel library routines used by the driver -/

/-- The bytes of a string literal. -/
def bytes (s : String) : List Nat := s.toList.map Char.toNat

/-- The copy `memcpy(dst + off, src + src_off, n)` on a buffer seen as a map. -/
def memcpy (dst : Nat → Nat) (off : Nat) (src : List Nat) (src_off n : Nat) : Nat → Nat :=
  fun j => if off ≤ j ∧ j < off + n then src.getD (src_off + (j - off)) 0 else dst j

/-- The fill `memset(dst + off, 0, n)`. -/
def memset_zero (dst : Nat → Nat) (off n : Nat) : Nat → Nat :=
  fun j => if off ≤ j ∧ j < off + n then 0 else dst j

/-- The C string that starts at a pointer: the bytes in front of the first NUL. -/
def cstr (p : List Nat) : List Nat := p.takeWhile (fun c => c != 0)

/-- The length `strlen(p)` of the C string at `p`. -/
def strlen (p : List Nat) : Nat := (cstr p).length

/-- The scan of `strsep(&ptr, ":")` over the string at `ptr`: the token in
front of the first `:` and the pointer behind it, or `NULL` when the string
holds no `:`. -/
def strsep_scan : List Nat → List Nat × Option (List Nat)
  | [] => ([], none)
  | c :: cs =>
    if c = 0 then ([], none)
    else if c = 58 then ([], some cs)
    else ((c :: (strsep_scan cs).1), (strsep_scan cs).2)

/-- The call `strsep(&ptr, ":")`: the returned token (`NULL` when `ptr` is `NULL`)
and the new value of `ptr`. -/
def strsep (ptr : Option (List Nat)) : Option (List Nat) × Option (List Nat) :=
  match ptr with
  | none => (none, none)
  | some p => (some (strsep_scan p).1, (strsep_scan p).2)

def isdigit (c : Nat) : Bool := 48 ≤ c && c ≤ 57

/-- The kernel's `_parse_integer` in base 10: the value of the leading digits (kept exact,
the overflow check is made by the caller), their number, and what follows. -/
def parse_integer : List Nat → Nat → Nat → Nat × Nat × List Nat
  | [], acc, n => (acc, n, [])
  | c :: cs, acc, n =>
    if isdigit c then parse_integer cs (acc * 10 + (c - 48)) (n + 1)
    else (acc, n, c :: cs)

/-- The kernel's `_kstrtoull(s, 10, &res)`: digits, one optional trailing newline, end of
string; fails on overflow of 64 bits, on no digit and on trailing bytes. -/
def kstrtoull_digits (s : List Nat) : Option Nat :=
  let r := parse_integer s 0 0
  if 2 ^ 64 ≤ r.1 then none
  else if r.2.1 = 0 then none
  else
    let rest := match r.2.2 with
      | 10 :: t => t
      | t => t
    if rest = [] then some r.1 else none

/-- The kernel's `kstrtoull(s, 10, &res)`: an optional leading `+`. -/
def kstrtoull (s : List Nat) : Option Nat :=
  match s with
  | 43 :: t => kstrtoull_digits t
  | _ => kstrtoull_digits s

/-- The kernel's `kstrtoll(s, 10, &res)`; `none` stands for a non-zero return, in which
case `*res` is not written. -/
def kstrtoll (s : List Nat) : Option Int :=
  match s with
  | 45 :: t =>
    match kstrtoull_digits t with
    | none => none
    | some tmp => if 2 ^ 63 < tmp then none else some (-(tmp : Int))
  | _ =>
    match kstrtoull s with
    | none => none
    | some tmp => if 2 ^ 63 ≤ tmp then none else some (tmp : Int)

/-- The kernel's `kstrtoint(s, 10, &res)`: `kstrtoll` and the value must fit an `int`. -/
def kstrtoint (s : List Nat) : Option Int :=
  match kstrtoll s with
  | none => none
  | some tmp => if -(2 ^ 31) ≤ tmp ∧ tmp < 2 ^ 31 then some tmp else none

/-! ## Locking primitives on the regions of a device -/

def set_region (dev : vblock_device) (i : Nat) (r : vblock_region) : vblock_device :=
  { dev with regions := fun j => if j = i then r else dev.regions j }

/-- The call `mutex_lock(&dev->regions[i].region_mutex)`; `none` when the mutex is
held, in which case the caller sleeps. -/
def mutex_lock (dev : vblock_device) (i : Nat) : Option vblock_device :=
  if (dev.regions i).region_mutex then none
  else some (set_region dev i { dev.regions i with region_mutex := true })

/-- The call `mutex_unlock(&dev->regions[i].region_mutex)`: the mutex is free
afterwards (releasing a mutex that is not held leaves it free). -/
def mutex_unlock (dev : vblock_device) (i : Nat) : vblock_device :=
  set_region dev i { dev.regions i with region_mutex := false }

/-- The count taken by `down_interruptible(&dev->regions[i].read_sem)` when a
slot is available; `none` when the count is zero. -/
def down (dev : vblock_device) (i : Nat) : Option vblock_device :=
  if (dev.regions i).read_sem = 0 then none
  else some (set_region dev i { dev.regions i with read_sem := (dev.regions i).read_sem - 1 })

/-- The call `up(&dev->regions[i].read_sem)`. -/
def up (dev : vblock_device) (i : Nat) : vblock_device :=
  set_region dev i { dev.regions i with read_sem := (dev.regions i).read_sem + 1 }

/-- The mirror step `if (dev->mirror_enable && dev->mirror_buffer) ...`: the
mirror buffer is rewritten by `f` when mirroring is on and the buffer exists. -/
def mirror_update (dev : vblock_device) (f : (Nat → Nat) → (Nat → Nat)) : vblock_device :=
  match dev.mirror_buffer with
  | some m => if dev.mirror_enable ≠ 0 then { dev with mirror_buffer := some (f m) } else dev
  | none => dev

/-! ## Helper functions of the driver -/

/-- The result of `parse_write_data`: the return value and the final values
of `*offset` and `*key`. -/
structure ParseResult where
  ret : Int
  offset : Int
  key : Int

/-- The function `parse_write_data(buffer, count, offset, key)`; `buffer` holds at least
`count` bytes, `offset` and `key` are the values of `*offset` and `*key` at
entry. -/
def parse_write_data (env : Env) (buffer : List Nat) (count : Nat) (offset key : Int) :
    ParseResult :=
  if env.parse_alloc_fails then ⟨-ENOMEM, offset, key⟩
  else
    let kernel_buf := buffer.take count ++ [0]
    let s1 := strsep (some kernel_buf)
    match kstrtoint (s1.1.getD []) with
    | some k =>
      let s2 := strsep s1.2
      match s2.1 with
      | none => ⟨-EINVAL, offset, k⟩
      | some token =>
        match kstrtoll token with
        | none => ⟨-EINVAL, offset, k⟩
        | some o => ⟨1, o, k⟩
    | none =>
      -- the string at `kernel_buf` now ends where the first token ends
      match kstrtoll (s1.1.getD []) with
      | none => ⟨-EINVAL, offset, key⟩
      | some o => ⟨0, o, 0⟩

/-- The loop of `is_valid_key` from index `i` on, with `n` indices left. -/
def is_valid_key_loop (dev : vblock_device) (key : Int) : Nat → Nat → Bool
  | 0, _ => false
  | n + 1, i => if dev.user_keys i = key then true else is_valid_key_loop dev key n (i + 1)

/-- The function `is_valid_key(dev, key)`: the indices `0 .. key_count - 1` are scanned. -/
def is_valid_key (dev : vblock_device) (key : Int) : Bool :=
  is_valid_key_loop dev key dev.key_count.toNat 0

/-! ## Construction -/

/-- The device built by `block_dev_init` from the module parameters
`mirror_enable`, `user_keys` and `key_count`, on the path where every
allocation and registration succeeds. -/
def block_dev_init (mirror_enable : Int) (user_keys : Nat → Int) (key_count : Int) :
    vblock_device :=
  { regions := fun _ =>
      { data := fun _ => 0, locked := 0, lock_key := 0, region_mutex := false, read_sem := 1 }
    mirror_buffer := if mirror_enable ≠ 0 then some (fun _ => 0) else none
    mirror_enable := mirror_enable
    user_keys := fun i => if (i : Int) < min key_count (MAX_KEYS : Int) then user_keys i else 0
    key_count := min key_count (MAX_KEYS : Int) }

/-! ## Logical read -/

/-- The variables of the chunk loop of `block_dev_read`; `out` is what has
been copied to the user buffer so far. -/
structure ReadLoop where
  dev : vblock_device
  region_num : Nat
  region_offset : Nat
  to_read : Nat
  ret : Nat
  out : List Nat

/-- One pass of the body of the read loop; the first component is the error
with which the function returns from inside the loop, if it does. -/
def read_chunk (env : Env) (s : ReadLoop) : Outcome (Option Int × ReadLoop) :=
  let chunk := min (REGION_SIZE - s.region_offset) s.to_read
  match down s.dev s.region_num with
  | none => if env.signal then .ret (some (-ERESTARTSYS), s) else .blocked
  | some dev1 =>
    if env.copy_to_user_fails s.ret then
      .ret (some (-EFAULT), { s with dev := up dev1 s.region_num })
    else
      .ret (none,
        { dev := up dev1 s.region_num
          region_num := s.region_num + 1
          region_offset := 0
          to_read := s.to_read - chunk
          ret := s.ret + chunk
          out := s.out ++ (List.range chunk).map
            (fun k => (dev1.regions s.region_num).data (s.region_offset + k)) })

/-- The chunk loop of `block_dev_read`, run for at most `fuel` passes. -/
def read_loop (env : Env) : Nat → ReadLoop → Outcome (Option Int × ReadLoop)
  | 0, s => if 0 < s.to_read ∧ s.region_num < TOTAL_REGIONS then .diverged else .ret (none, s)
  | fuel + 1, s =>
    if 0 < s.to_read ∧ s.region_num < TOTAL_REGIONS then
      match read_chunk env s with
      | .ret (none, s1) => read_loop env fuel s1
      | r => r
    else .ret (none, s)

/-- What `block_dev_read` leaves behind: the return value, the bytes copied
to the user buffer, the cursor and the device. -/
structure ReadResult where
  ret : Int
  out : List Nat
  lofft : Int
  dev : vblock_device

/-- The function `block_dev_read(filep, buffer, count, lofft)`. -/
def block_dev_read (dev : vblock_device) (env : Env) (count : Nat) (lofft : Int) :
    Outcome ReadResult :=
  if (TOTAL_SIZE : Int) ≤ lofft then .ret ⟨0, [], lofft, dev⟩
  else if lofft < 0 then
    -- a negative cursor addresses bytes in front of the region array
    if count = 0 then .ret ⟨0, [], lofft, dev⟩ else .undefined
  else
    let region_num := lofft.toNat / REGION_SIZE
    let region_offset := lofft.toNat % REGION_SIZE
    let to_read := min count (TOTAL_SIZE - lofft.toNat)
    match read_loop env TOTAL_REGIONS ⟨dev, region_num, region_offset, to_read, 0, []⟩ with
    | .ret (some e, s) => .ret ⟨e, s.out, lofft, s.dev⟩
    | .ret (none, s) => .ret ⟨s.ret, s.out, if 0 < s.ret then lofft + s.ret else lofft, s.dev⟩
    | .blocked => .blocked
    | .undefined => .undefined
    | .diverged => .diverged

/-! ## Logical write -/

/-- The variables of the chunk loop of `block_dev_write`. -/
structure WriteLoop where
  dev : vblock_device
  region_num : Nat
  region_offset : Nat
  data_len : Nat
  ret : Nat

/-- One pass of the body of the write loop: the chunk is copied into the
region and, when mirroring is on, into the mirror at the same device offset. -/
def write_chunk (data_ptr : List Nat) (s : WriteLoop) : WriteLoop :=
  let chunk := min (REGION_SIZE - s.region_offset) s.data_len
  let reg := s.dev.regions s.region_num
  let dev1 := set_region s.dev s.region_num
    { reg with data := memcpy reg.data s.region_offset data_ptr s.ret chunk }
  let dev2 := mirror_update dev1
    (fun m => memcpy m (s.region_num * REGION_SIZE + s.region_offset) data_ptr s.ret chunk)
  { dev := dev2
    region_num := s.region_num + 1
    region_offset := 0
    data_len := s.data_len - chunk
    ret := s.ret + chunk }

/-- The chunk loop of `block_dev_write`, run for at most `fuel` passes;
`none` when the passes do not suffice. -/
def write_loop (data_ptr : List Nat) : Nat → WriteLoop → Option WriteLoop
  | 0, s => if 0 < s.data_len ∧ s.region_num < TOTAL_REGIONS then none else some s
  | fuel + 1, s =>
    if 0 < s.data_len ∧ s.region_num < TOTAL_REGIONS then
      write_loop data_ptr fuel (write_chunk data_ptr s)
    else some s

/-- What `block_dev_write` leaves behind: the return value, the device and
the cursor `*lofft`. -/
structure WriteResult where
  ret : Int
  dev : vblock_device
  lofft : Int

/-- The data pointer of `block_dev_write`: behind the second `:` of the kernel
copy when a key was parsed (`NULL` when there is no second `:`), the empty
string otherwise. -/
def write_data_ptr (key_status : Int) (kernel_buf : List Nat) : Option (List Nat) :=
  if key_status = 1 then (strsep (strsep (some kernel_buf)).2).2 else some [0]

/-- The part of `block_dev_write` from `data_len = strlen(data_ptr)` on: `p`
is what `parse_write_data` returned (its `offset` is the new `*lofft`) and
`data_ptr` the data pointer. -/
def write_commit (dev : vblock_device) (env : Env) (p : ParseResult) (data_ptr : List Nat) :
    Outcome WriteResult :=
  let data_len := strlen data_ptr
  if p.offset < 0 ∨ (TOTAL_SIZE : Int) ≤ p.offset then .ret ⟨-EINVAL, dev, p.offset⟩
  else
    let region_num := p.offset.toNat / REGION_SIZE
    let region_offset := p.offset.toNat % REGION_SIZE
    if TOTAL_REGIONS ≤ region_num then .ret ⟨-EINVAL, dev, p.offset⟩
    else if (dev.regions region_num).locked ≠ 0 ∧ p.ret ≠ 1 then
      .ret ⟨-EACCES, dev, p.offset⟩
    else if (dev.regions region_num).locked ≠ 0 ∧ is_valid_key dev p.key = false then
      .ret ⟨-EACCES, dev, p.offset⟩
    else if (dev.regions region_num).locked ≠ 0 ∧
        p.key ≠ (dev.regions region_num).lock_key then
      .ret ⟨-EPERM, dev, p.offset⟩
    else
      match mutex_lock dev region_num with
      | none => .blocked
      | some dev1 =>
        match down dev1 region_num with
        | none =>
          if env.signal then .ret ⟨-ERESTARTSYS, mutex_unlock dev1 region_num, p.offset⟩
          else .blocked
        | some dev2 =>
          match write_loop data_ptr TOTAL_REGIONS
              ⟨dev2, region_num, region_offset, data_len, 0⟩ with
          | none => .diverged
          | some s =>
            -- the gate and the mutex of `regions[region_num - 1]` are released
            if s.region_num = 0 then .undefined
            else
              .ret ⟨s.ret, mutex_unlock (up s.dev (s.region_num - 1)) (s.region_num - 1),
                if 0 < s.ret then p.offset + s.ret else p.offset⟩

/-- The function `block_dev_write(filep, buffer, count, lofft)`; `buffer` is the payload
of `count` bytes. -/
def block_dev_write (dev : vblock_device) (env : Env) (buffer : List Nat) (lofft : Int) :
    Outcome WriteResult :=
  let count := buffer.length
  if env.write_alloc_fails then .ret ⟨-ENOMEM, dev, lofft⟩
  else if env.copy_from_user_fails then .ret ⟨-EFAULT, dev, lofft⟩
  else
    let kernel_buf := buffer ++ [0]
    let p := parse_write_data env kernel_buf count lofft 0
    if p.ret < 0 then .ret ⟨p.ret, dev, p.offset⟩
    else
      match write_data_ptr p.ret kernel_buf with
      | none => .undefined -- strlen(NULL)
      | some data_ptr => write_commit dev env p data_ptr

/-! ## Control requests -/

/-- The request codes of `block_dev_ioctl`; `other` is any code that is none
of the five. -/
inductive Cmd where
  | VBLOCK_LOCK_REGION
  | VBLOCK_UNLOCK_REGION
  | VBLOCK_READ_REGION
  | VBLOCK_GET_INFO
  | VBLOCK_ERASE_REGION
  | other

/-- What `block_dev_ioctl` leaves behind: the return value, the device, and
what was copied to the user argument (a `struct region_data` as region number
and data bytes, or a `struct device_info`). -/
structure IoctlResult where
  ret : Int
  dev : vblock_device
  reg_data : Option (Int × List Nat)
  info : Option device_info

/-- The loop that builds the lock bitmap: bit `i` for every locked region
`i` among the first `n`. -/
def lock_bitmap_loop (dev : vblock_device) : Nat → Nat
  | 0 => 0
  | n + 1 =>
    if (dev.regions n).locked ≠ 0 then lock_bitmap_loop dev n ||| (1 <<< n)
    else lock_bitmap_loop dev n

/-- The function `block_dev_ioctl(file, cmd, args)`; `arg` is the `int` region number the
user argument points to (the `region_num` field for the raw region read). -/
def block_dev_ioctl (dev : vblock_device) (env : Env) (cmd : Cmd) (arg : Int) :
    Outcome IoctlResult :=
  match cmd with
  | .VBLOCK_LOCK_REGION =>
    if env.copy_from_user_fails then .ret ⟨-EFAULT, dev, none, none⟩
    else if arg < 0 ∨ (TOTAL_REGIONS : Int) ≤ arg then .ret ⟨-EINVAL, dev, none, none⟩
    else
      let region_num := arg.toNat
      match mutex_lock dev region_num with
      | none => .blocked
      | some dev1 =>
        let dev2 :=
          if (dev1.regions region_num).locked = 0 then
            set_region dev1 region_num
              { dev1.regions region_num with locked := 1, lock_key := arg + 1000 }
          else dev1
        .ret ⟨0, mutex_unlock dev2 region_num, none, none⟩
  | .VBLOCK_UNLOCK_REGION =>
    if env.copy_from_user_fails then .ret ⟨-EFAULT, dev, none, none⟩
    else if arg < 0 ∨ (TOTAL_REGIONS : Int) ≤ arg then .ret ⟨-EINVAL, dev, none, none⟩
    else
      let region_num := arg.toNat
      match mutex_lock dev region_num with
      | none => .blocked
      | some dev1 =>
        let dev2 :=
          if (dev1.regions region_num).locked ≠ 0 then
            set_region dev1 region_num
              { dev1.regions region_num with locked := 0, lock_key := 0 }
          else dev1
        .ret ⟨0, mutex_unlock dev2 region_num, none, none⟩
  | .VBLOCK_READ_REGION =>
    if env.copy_from_user_fails then .ret ⟨-EFAULT, dev, none, none⟩
    else if arg < 0 ∨ (TOTAL_REGIONS : Int) ≤ arg then .ret ⟨-EINVAL, dev, none, none⟩
    else
      let region_num := arg.toNat
      match down dev region_num with
      | none => if env.signal then .ret ⟨-ERESTARTSYS, dev, none, none⟩ else .blocked
      | some dev1 =>
        let data := (List.range REGION_SIZE).map (fun j => (dev1.regions region_num).data j)
        let dev2 := up dev1 region_num
        if env.copy_to_user_fails 0 then .ret ⟨-EFAULT, dev2, none, none⟩
        else .ret ⟨0, dev2, some (arg, data), none⟩
  | .VBLOCK_GET_INFO =>
    let info : device_info :=
      { lock_bitmap := lock_bitmap_loop dev TOTAL_REGIONS
        mirror_enabled := dev.mirror_enable
        total_regions := TOTAL_REGIONS
        region_size := REGION_SIZE
        valid_keys := fun i =>
          if (i : Int) < min dev.key_count (MAX_KEYS : Int) then dev.user_keys i else 0
        key_count := dev.key_count }
    if env.copy_to_user_fails 0 then .ret ⟨-EFAULT, dev, none, none⟩
    else .ret ⟨0, dev, none, some info⟩
  | .VBLOCK_ERASE_REGION =>
    if env.copy_from_user_fails then .ret ⟨-EFAULT, dev, none, none⟩
    else if arg < 0 ∨ (TOTAL_REGIONS : Int) ≤ arg then .ret ⟨-EINVAL, dev, none, none⟩
    else
      let region_num := arg.toNat
      match mutex_lock dev region_num with
      | none => .blocked
      | some dev1 =>
        if (dev1.regions region_num).locked ≠ 0 then
          .ret ⟨-EACCES, mutex_unlock dev1 region_num, none, none⟩
        else
          match down dev1 region_num with
          | none =>
            if env.signal then .ret ⟨-ERESTARTSYS, mutex_unlock dev1 region_num, none, none⟩
            else .blocked
          | some dev2 =>
            let dev3 := set_region dev2 region_num
              { dev2.regions region_num with
                data := memset_zero (dev2.regions region_num).data 0 REGION_SIZE }
            let dev4 := mirror_update dev3
              (fun m => memset_zero m (region_num * REGION_SIZE) REGION_SIZE)
            .ret ⟨0, mutex_unlock (up dev4 region_num) region_num, none, none⟩
  | .other => .ret ⟨-ENOTTY, dev, none, none⟩

/-! ## Reading the model -/

/-- The byte at device offset `x`: byte `x % REGION_SIZE` of region
`x / REGION_SIZE`, that is, byte `x` of the region buffers laid end to end. -/
def byte_at (dev : vblock_device) (x : Nat) : Nat :=
  (dev.regions (x / REGION_SIZE)).data (x % REGION_SIZE)

/-- The decimal digits of `n`, most significant first, written with at most
`fuel` digits. -/
def decimal_digits : Nat → Nat → List Nat
  | 0, _ => []
  | fuel + 1, n =>
    if n < 10 then [48 + n] else decimal_digits fuel (n / 10) ++ [48 + n % 10]

/-- The decimal rendering of `n` in ASCII, as a caller writes an offset or a
key into a payload. -/
def decimal (n : Nat) : List Nat := decimal_digits (n + 1) n

/-- The device a control request leaves behind (the device itself when the
request does not return). -/
def after_ioctl (dev : vblock_device) (env : Env) (cmd : Cmd) (arg : Int) : vblock_device :=
  match block_dev_ioctl dev env cmd arg with
  | .ret r => r.dev
  | _ => dev

/-- The device a write leaves behind (the device itself when the write does
not return). -/
def after_write (dev : vblock_device) (env : Env) (buffer : List Nat) (lofft : Int) :
    vblock_device :=
  match block_dev_write dev env buffer lofft with
  | .ret r => r.dev
  | _ => dev

/-- The device of the end-to-end scenario: no mirror, `allowed_keys = {1000}`. -/
def scenario_init : vblock_device :=
  block_dev_init 0 (fun i => if i = 0 then 1000 else 0) 1

/-- The scenario device after the lock request on region 0. -/
def scenario_locked : vblock_device :=
  after_ioctl scenario_init Env.quiet .VBLOCK_LOCK_REGION 0

/-- The same configuration with mirroring switched on. -/
def scenario_mirrored : vblock_device :=
  block_dev_init 1 (fun i => if i = 0 then 1000 else 0) 1

/-- The scenario device after the lock request on region 1. -/
def scenario_locked_one : vblock_device :=
  after_ioctl scenario_init Env.quiet .VBLOCK_LOCK_REGION 1

/-- The scenario device after the lock and then the unlock request on
region 0. -/
def scenario_unlocked : vblock_device :=
  after_ioctl scenario_locked Env.quiet .VBLOCK_UNLOCK_REGION 0

/-- A device with `allowed_keys = {1007}` whose last region is locked. -/
def scenario_locked_last : vblock_device :=
  after_ioctl (block_dev_init 0 (fun _ => 1007) 1) Env.quiet .VBLOCK_LOCK_REGION 7

/-- The value a write returns, when it returns. -/
def write_ret : Outcome WriteResult → Option Int
  | .ret w => some w.ret
  | _ => none

/-- The value a read returns, when it returns. -/
def read_ret : Outcome ReadResult → Option Int
  | .ret r => some r.ret
  | _ => none

/-- The bytes a read has copied to the user buffer, when it returns. -/
def read_out : Outcome ReadResult → Option (List Nat)
  | .ret r => some r.out
  | _ => none

/-! ## Relations between device states and runs of requests -/

/-- Two device states hold the same region bytes, lock flags, lock keys,
mirror and configuration; they may differ in the mutexes and gates only. -/
def same_content (a b : vblock_device) : Prop :=
  (∀ i, (a.regions i).data = (b.regions i).data ∧
    (a.regions i).locked = (b.regions i).locked ∧
    (a.regions i).lock_key = (b.regions i).lock_key) ∧
  a.mirror_buffer = b.mirror_buffer ∧ a.mirror_enable = b.mirror_enable ∧
  a.user_keys = b.user_keys ∧ a.key_count = b.key_count

/-- Two device states have the same lock flags, lock keys and configuration. -/
def same_locks (a b : vblock_device) : Prop :=
  (∀ i, (a.regions i).locked = (b.regions i).locked ∧
    (a.regions i).lock_key = (b.regions i).lock_key) ∧
  a.mirror_enable = b.mirror_enable ∧ a.user_keys = b.user_keys ∧ a.key_count = b.key_count

/-- The mirror buffer exists and is a byte-for-byte copy of the device. -/
def mirror_consistent (dev : vblock_device) : Prop :=
  ∃ m, dev.mirror_buffer = some m ∧ ∀ x, x < TOTAL_SIZE → m x = byte_at dev x

/-- The lock keys are the ones the driver assigns: `0` on an unlocked region
and `region + 1000` on a locked one. -/
def lock_keys_wf (dev : vblock_device) : Prop :=
  ∀ i, ((dev.regions i).locked = 0 → (dev.regions i).lock_key = 0) ∧
    ((dev.regions i).locked ≠ 0 → (dev.regions i).lock_key = (i : Int) + 1000)

/-- A request to the device: a logical read, a logical write, or a control
request. -/
inductive Request where
  | read (count : Nat) (lofft : Int)
  | write (buffer : List Nat) (lofft : Int)
  | ioctl (cmd : Cmd) (arg : Int)

/-- The device a request leaves behind; `none` when the call does not return. -/
def apply_request (dev : vblock_device) (env : Env) : Request → Option vblock_device
  | .read count lofft =>
    match block_dev_read dev env count lofft with
    | .ret r => some r.dev
    | _ => none
  | .write buffer lofft =>
    match block_dev_write dev env buffer lofft with
    | .ret w => some w.dev
    | _ => none
  | .ioctl cmd arg =>
    match block_dev_ioctl dev env cmd arg with
    | .ret r => some r.dev
    | _ => none

/-- The device after a sequence of requests, each made in its own
surroundings; `none` when one of the calls does not return. -/
def run_requests : vblock_device → List (Env × Request) → Option vblock_device
  | dev, [] => some dev
  | dev, (env, req) :: rest =>
    match apply_request dev env req with
    | some dev1 => run_requests dev1 rest
    | none => none

/-- The decimal rendering of an integer, with a leading `-` when it is
negative. -/
def decimal_int (k : Int) : List Nat :=
  if k < 0 then 45 :: decimal k.natAbs else decimal k.toNat

/-- The data of a write: the `strlen` bytes at the data pointer (`none` when
the pointer is `NULL`). -/
def write_data (key_status : Int) (kernel_buf : List Nat) : Option (List Nat) :=
  (write_data_ptr key_status kernel_buf).map cstr

/-- The cursor `*lofft` a write leaves, when it returns. -/
def write_lofft : Outcome WriteResult → Option Int
  | .ret w => some w.lofft
  | _ => none

/-- A run on the mirrored scenario device: a write across the boundary of
regions 0 and 1, a lock of region 2, a write into region 3, an erase of
region 1, a read. -/
def scenario_requests : List (Env × Request) :=
  [(Env.quiet, .write (bytes "7:510:HELLO") 0),
   (Env.quiet, .ioctl .VBLOCK_LOCK_REGION 2),
   (Env.quiet, .write (bytes "7:1600:WORLD") 0),
   (Env.quiet, .ioctl .VBLOCK_ERASE_REGION 1),
   (Env.quiet, .read 5 512)]

/-- The device the run `scenario_requests` leaves. -/
def scenario_after_requests : vblock_device :=
  (run_requests scenario_mirrored scenario_requests).getD scenario_mirrored

/-- The first token of a payload: what the first `strsep` of
`parse_write_data` cuts off the NUL-terminated copy of the payload. -/
def first_token (buffer : List Nat) : List Nat :=
  (strsep (some (buffer ++ [0]))).1.getD []

/-- The second token of a payload: what the second `strsep` of
`parse_write_data` returns (`none` for `NULL`, when the payload holds no `:`). -/
def second_token (buffer : List Nat) : Option (List Nat) :=
  (strsep (strsep (some (buffer ++ [0]))).2).1

/-! ## The device as one byte stream, and the export -/

/-- The bytes of the buffer of region `i`, in order. -/
def region_bytes (dev : vblock_device) (i : Nat) : List Nat :=
  (List.range REGION_SIZE).map (dev.regions i).data

/-- The buffers of the regions `0 .. n - 1` laid end to end, in index order. -/
def concat_regions (dev : vblock_device) : Nat → List Nat
  | 0 => []
  | n + 1 => concat_regions dev n ++ region_bytes dev n

/-- The concatenation of all region buffers. -/
def device_bytes (dev : vblock_device) : List Nat := concat_regions dev TOTAL_REGIONS

/-- The flat splice of the specification: the stream `l` with the bytes from
offset `o` on replaced by the bytes `d`. -/
def splice (l : List Nat) (o : Nat) (d : List Nat) : List Nat :=
  l.take o ++ d ++ l.drop (o + d.length)

/-- The value a control request returns, when it returns. -/
def ioctl_ret : Outcome IoctlResult → Option Int
  | .ret r => some r.ret
  | _ => none

/-- What the surroundings of `vblock_backup_to_file` decide: whether the
allocation of the staging buffer fails, what the fresh buffer holds, whether a
signal arrives while the caller sleeps on a gate, the error of `filp_open` if
it fails, and what `kernel_write` returns. -/
structure BackupEnv where
  alloc_fails : Bool
  fresh : Nat → Nat
  signal : Bool
  open_error : Option Int
  write_ret : Int

/-- The surroundings in which the export succeeds and every byte is written. -/
def BackupEnv.quiet : BackupEnv :=
  { alloc_fails := false, fresh := fun _ => 170, signal := false, open_error := none,
    write_ret := 4096 }

/-- What `vblock_backup_to_file` leaves behind: the return value, the device
(`none` when there is none) and the `TOTAL_SIZE` bytes of the staging buffer
handed to `kernel_write` (`none` when the file is not written). -/
structure BackupResult where
  ret : Int
  dev : Option vblock_device
  staged : Option (List Nat)

/-- The copy loop of `vblock_backup_to_file` from index `i` on, with `n`
regions left; the first component is the error with which the function
returns from inside the loop, if it does. -/
def backup_loop (benv : BackupEnv) :
    Nat → Nat → vblock_device → (Nat → Nat) → Outcome (Option Int × vblock_device × (Nat → Nat))
  | 0, _, dev, buffer => .ret (none, dev, buffer)
  | n + 1, i, dev, buffer =>
    match down dev i with
    | none => if benv.signal then .ret (some (-ERESTARTSYS), dev, buffer) else .blocked
    | some dev1 =>
      backup_loop benv n (i + 1) (up dev1 i)
        (memcpy buffer (i * REGION_SIZE) (region_bytes dev1 i) 0 REGION_SIZE)

/-- The function `vblock_backup_to_file(path)`; `vblock_dev` is the global
device pointer, `none` for `NULL`. -/
def vblock_backup_to_file (vblock_dev : Option vblock_device) (benv : BackupEnv) :
    Outcome BackupResult :=
  match vblock_dev with
  | none => .ret ⟨-ENODEV, none, none⟩
  | some dev =>
    if benv.alloc_fails then .ret ⟨-ENOMEM, some dev, none⟩
    else
      match backup_loop benv TOTAL_REGIONS 0 dev benv.fresh with
      | .ret (some e, dev1, _) => .ret ⟨e, some dev1, none⟩
      | .ret (none, dev1, buffer) =>
        match benv.open_error with
        | some e => .ret ⟨e, some dev1, none⟩
        | none => .ret ⟨benv.write_ret, some dev1, some ((List.range TOTAL_SIZE).map buffer)⟩
      | .blocked => .blocked
      | .undefined => .undefined
      | .diverged => .diverged

/-- The bytes handed to `kernel_write`, when the export gets that far. -/
def backup_staged : Outcome BackupResult → Option (List Nat)
  | .ret r => r.staged
  | _ => none

/-- Every region's mutex is free and every region's gate has its one slot. -/
def locks_free (dev : vblock_device) : Prop :=
  ∀ i, i < TOTAL_REGIONS →
    (dev.regions i).region_mutex = false ∧ (dev.regions i).read_sem = 1

/-- The export scenario as the specification gives it: lock region 0, write
`1000:0:HELLO`, write `0:HELLO`, unlock region 0, write `0:WORLD`. -/
def scenario_export : vblock_device :=
  after_write
    (after_ioctl
      (after_write (after_write scenario_locked Env.quiet (bytes "1000:0:HELLO") 0) Env.quiet
        (bytes "0:HELLO") 0)
      Env.quiet .VBLOCK_UNLOCK_REGION 0)
    Env.quiet (bytes "0:WORLD") 0

/-- The export scenario with the last write in the keyed form `0:0:WORLD`. -/
def scenario_export_keyed : vblock_device :=
  after_write
    (after_ioctl
      (after_write (after_write scenario_locked Env.quiet (bytes "1000:0:HELLO") 0) Env.quiet
        (bytes "0:HELLO") 0)
      Env.quiet .VBLOCK_UNLOCK_REGION 0)
    Env.quiet (bytes "0:0:WORLD") 0

/-! ## Two writers at once -/

/-- Where a writer stands in the part of `block_dev_write` that takes and
releases the locks: before `mutex_lock`, before `down_interruptible`, at the
test of the chunk loop, before `up`, before `mutex_unlock`, or returned. -/
inductive WriterPc where
  | at_mutex_lock
  | at_down
  | in_loop
  | at_up
  | at_mutex_unlock
  | returned

/-- A writer that has passed the checks of `block_dev_write`: its data
pointer and the local variables `region_num`, `region_offset`, `data_len` and
`ret`. -/
structure WriterThread where
  data_ptr : List Nat
  pc : WriterPc
  region_num : Nat
  region_offset : Nat
  data_len : Nat
  ret : Nat

/-- The writer of the string at `data_ptr` to offset `o`, about to take the
mutex of its region. -/
def writer_start (data_ptr : List Nat) (o : Nat) : WriterThread :=
  { data_ptr := data_ptr, pc := .at_mutex_lock, region_num := o / REGION_SIZE,
    region_offset := o % REGION_SIZE, data_len := strlen data_ptr, ret := 0 }

/-- One step of a writer on the shared device: `mutex_lock`, `down`, one pass
of the chunk loop (or leaving it), `up` on `regions[region_num - 1]`,
`mutex_unlock` on `regions[region_num - 1]`. The result is `none` when the
writer cannot move: it sleeps on a held mutex or on a gate without a slot, it
has returned, or the release addresses the region in front of the array. -/
def writer_step (dev : vblock_device) (t : WriterThread) : Option (vblock_device × WriterThread) :=
  match t.pc with
  | .at_mutex_lock =>
    match mutex_lock dev t.region_num with
    | none => none
    | some dev1 => some (dev1, { t with pc := .at_down })
  | .at_down =>
    match down dev t.region_num with
    | none => none
    | some dev1 => some (dev1, { t with pc := .in_loop })
  | .in_loop =>
    if 0 < t.data_len ∧ t.region_num < TOTAL_REGIONS then
      some ((write_chunk t.data_ptr
          ⟨dev, t.region_num, t.region_offset, t.data_len, t.ret⟩).dev,
        { t with
          region_num := t.region_num + 1
          region_offset := 0
          data_len := t.data_len - min (REGION_SIZE - t.region_offset) t.data_len
          ret := t.ret + min (REGION_SIZE - t.region_offset) t.data_len })
    else some (dev, { t with pc := .at_up })
  | .at_up =>
    if t.region_num = 0 then none
    else some (up dev (t.region_num - 1), { t with pc := .at_mutex_unlock })
  | .at_mutex_unlock =>
    some (mutex_unlock dev (t.region_num - 1), { t with pc := .returned })
  | .returned => none

/-- A writer running alone for `n` steps; `none` when it cannot make them. -/
def writer_iter : Nat → vblock_device → WriterThread → Option (vblock_device × WriterThread)
  | 0, dev, t => some (dev, t)
  | n + 1, dev, t =>
    match writer_step dev t with
    | none => none
    | some (dev1, t1) => writer_iter n dev1 t1

def has_returned (t : WriterThread) : Bool :=
  match t.pc with
  | .returned => true
  | _ => false

def at_mutex_lock (t : WriterThread) : Bool :=
  match t.pc with
  | .at_mutex_lock => true
  | _ => false

/-- The writer is between its `mutex_lock` and its `mutex_unlock`. -/
def in_critical_section (t : WriterThread) : Bool :=
  match t.pc with
  | .at_mutex_lock => false
  | .returned => false
  | _ => true

/-- Two writers on one device. -/
structure WriterPair where
  dev : vblock_device
  a : WriterThread
  b : WriterThread

/-- The scheduler lets the first (`true`) or the second (`false`) writer make
its next step; a writer that cannot move stays where it is. -/
def pair_step (s : WriterPair) (first : Bool) : WriterPair :=
  if first then
    match writer_step s.dev s.a with
    | none => s
    | some (dev1, a1) => { dev := dev1, a := a1, b := s.b }
  else
    match writer_step s.dev s.b with
    | none => s
    | some (dev1, b1) => { dev := dev1, a := s.a, b := b1 }

/-- The two writers under a schedule. -/
def pair_run : WriterPair → List Bool → WriterPair
  | s, [] => s
  | s, c :: rest => pair_run (pair_step s c) rest

/-- Two writers to region 0 of the fresh device: `HELLO` at offset 510, which
spans into region 1, and `X` at offset 0. -/
def scenario_writers : WriterPair :=
  { dev := scenario_init
    a := writer_start (bytes "HELLO" ++ [0]) 510
    b := writer_start (bytes "X" ++ [0]) 0 }

/-- The steps a writer whose data lies within one region has still to make. -/
def steps_left (t : WriterThread) : Nat :=
  match t.pc with
  | .at_mutex_lock => 6
  | .at_down => 5
  | .in_loop => if 0 < t.data_len then 4 else 3
  | .at_up => 2
  | .at_mutex_unlock => 1
  | .returned => 0

/-- What holds of a writer of `len` bytes to offset `ro` of region `r`, the
data ending within the region, at each of its positions; `m` and `c` are the
mutex and the gate count of region `r`. -/
def writer_inv (r ro len : Nat) (m : Bool) (c : Nat) (t : WriterThread) : Prop :=
  match t.pc with
  | .at_mutex_lock =>
    t.region_num = r ∧ t.region_offset = ro ∧ t.data_len = len ∧ t.ret = 0
  | .at_down =>
    t.region_num = r ∧ t.region_offset = ro ∧ t.data_len = len ∧ t.ret = 0 ∧ m = true ∧ c = 1
  | .in_loop =>
    m = true ∧ c = 0 ∧
      ((t.region_num = r ∧ t.region_offset = ro ∧ t.data_len = len ∧ t.ret = 0) ∨
        (t.region_num = r + 1 ∧ t.data_len = 0 ∧ t.ret = len))
  | .at_up => m = true ∧ c = 0 ∧ t.region_num = r + 1 ∧ t.ret = len
  | .at_mutex_unlock => m = true ∧ c = 1 ∧ t.region_num = r + 1 ∧ t.ret = len
  | .returned => t.ret = len

/-- The state of a writer to region `rx` and a writer to another region `ry`:
each is where `writer_inv` says, and the mutex and the gate of a region whose
writer is outside its critical section are free. -/
def pair_inv_apart (rx rox lenx ry roy leny : Nat) (dev : vblock_device)
    (x y : WriterThread) : Prop :=
  writer_inv rx rox lenx (dev.regions rx).region_mutex (dev.regions rx).read_sem x ∧
  (in_critical_section x = false →
    (dev.regions rx).region_mutex = false ∧ (dev.regions rx).read_sem = 1) ∧
  writer_inv ry roy leny (dev.regions ry).region_mutex (dev.regions ry).read_sem y ∧
  (in_critical_section y = false →
    (dev.regions ry).region_mutex = false ∧ (dev.regions ry).read_sem = 1)

/-- The state of two writers to the same region `r`: each is where
`writer_inv` says, at most one of them is inside its critical section, and
when none is the mutex and the gate of the region are free. -/
def pair_inv_same (r rox lenx roy leny : Nat) (dev : vblock_device)
    (x y : WriterThread) : Prop :=
  writer_inv r rox lenx (dev.regions r).region_mutex (dev.regions r).read_sem x ∧
  writer_inv r roy leny (dev.regions r).region_mutex (dev.regions r).read_sem y ∧
  ¬ (in_critical_section x = true ∧ in_critical_section y = true) ∧
  (in_critical_section x = false → in_critical_section y = false →
    (dev.regions r).region_mutex = false ∧ (dev.regions r).read_sem = 1)

/-! ## The chunks of the loops -/

/-- One pass of a chunk loop: the region it copies into or out of, the offset
inside the region, and the number of bytes. -/
structure Chunk where
  region_num : Nat
  region_offset : Nat
  chunk : Nat

/-- The passes of the chunk loop of `block_dev_write`, in order: the values of
`region_num`, `region_offset` and `chunk` in each pass `write_loop` makes. -/
def write_loop_chunks (data_ptr : List Nat) : Nat → WriteLoop → List Chunk
  | 0, _ => []
  | fuel + 1, s =>
    if 0 < s.data_len ∧ s.region_num < TOTAL_REGIONS then
      ⟨s.region_num, s.region_offset, min (REGION_SIZE - s.region_offset) s.data_len⟩ ::
        write_loop_chunks data_ptr fuel (write_chunk data_ptr s)
    else []

/-- The passes of the chunk loop of `block_dev_read`, in order; the loop is
left after the pass in which the gate cannot be taken or the copy fails. -/
def read_loop_chunks (env : Env) : Nat → ReadLoop → List Chunk
  | 0, _ => []
  | fuel + 1, s =>
    if 0 < s.to_read ∧ s.region_num < TOTAL_REGIONS then
      ⟨s.region_num, s.region_offset, min (REGION_SIZE - s.region_offset) s.to_read⟩ ::
        (match read_chunk env s with
          | .ret (none, s1) => read_loop_chunks env fuel s1
          | _ => [])
    else []

/-- The passes stay in bounds: every chunk holds at least one byte and ends
within its region, the region exists, the regions are consecutive from
`start` on, and there are at most `TOTAL_REGIONS` passes. -/
def chunks_in_bounds (start : Nat) (l : List Chunk) : Prop :=
  (∀ c ∈ l, 1 ≤ c.chunk ∧ c.region_offset + c.chunk ≤ REGION_SIZE ∧
    c.region_num < TOTAL_REGIONS) ∧
  l.map Chunk.region_num = List.range' start l.length ∧
  l.length ≤ TOTAL_REGIONS

/-- The number of bytes of the passes together. -/
def chunks_total (l : List Chunk) : Nat := (l.map Chunk.chunk).sum

/-! ## The logger device (`02_exercise/shared_log_device.c`) -/

/-- The globals of the logger module that its file operations use:
`logger_device_mutex` (held or free; the module starts with it free),
`kernel_buff_size` (an `unsigned int`), `kernel_buff` (`none` for `NULL`) and
`kernel_index` (an `int`). -/
structure logger_device where
  logger_device_mutex : Bool
  kernel_buff_size : Nat
  kernel_buff : Option (Nat → Nat)
  kernel_index : Int

/-- What a file operation of the logger leaves behind: the return value, the
globals, and the bytes copied to the user buffer. -/
structure LoggerResult where
  ret : Int
  dev : logger_device
  out : List Nat

/-- The conversion of an `int` to `unsigned int`. -/
def to_unsigned_int (x : Int) : Nat := (x % 2 ^ 32).toNat

/-- The conversion of an `int` to `size_t`. -/
def to_size_t (x : Int) : Nat := (x % 2 ^ 64).toNat

/-- The conversion of a `size_t` to `int`: the low 32 bits, read as signed. -/
def to_int (x : Nat) : Int :=
  if x % 2 ^ 32 < 2 ^ 31 then ((x % 2 ^ 32 : Nat) : Int) else ((x % 2 ^ 32 : Nat) : Int) - 2 ^ 32

/-- The globals after `logger_device_init` has succeeded with the module
parameter `kernel_buff_size = size > 0`; `fresh` is what the allocated buffer
holds. -/
def logger_device_init (size : Nat) (fresh : Nat → Nat) : logger_device :=
  { logger_device_mutex := false, kernel_buff_size := size, kernel_buff := some fresh,
    kernel_index := 0 }

/-- The function `logger_device_write(filp, buffer, count, lofft)`; `buffer` is the
payload of `count` bytes, `copy_fails` says whether `copy_from_user` fails. A
return inside the function leaves the mutex as it is at that point. -/
def logger_device_write (g : logger_device) (copy_fails : Bool) (buffer : List Nat) :
    Outcome LoggerResult :=
  if g.logger_device_mutex then .blocked
  else
    let g1 := { g with logger_device_mutex := true }
    match g1.kernel_buff with
    | none => .ret ⟨-ENOMEM, g1, []⟩
    | some buff =>
      if g1.kernel_buff_size = 0 then .ret ⟨-ENOMEM, g1, []⟩
      else if g1.kernel_buff_size ≤ to_unsigned_int g1.kernel_index then .ret ⟨-ENOMEM, g1, []⟩
      else
        let count :=
          if g1.kernel_buff_size < (buffer.length + to_size_t g1.kernel_index) % 2 ^ 64 then
            (g1.kernel_buff_size + 2 ^ 32 - to_unsigned_int g1.kernel_index) % 2 ^ 32
          else buffer.length
        if copy_fails then .ret ⟨-EFAULT, g1, []⟩
        else if g1.kernel_index < 0 then .undefined -- the copy starts in front of the buffer
        else
          .ret ⟨(count : Int),
            { g1 with
              kernel_buff := some (memcpy buff g1.kernel_index.toNat buffer 0 count)
              kernel_index := to_int (to_size_t g1.kernel_index + count)
              logger_device_mutex := false },
            []⟩

/-- The function `logger_device_read(filp, buffer, count, lofft)`; `copy_fails` says
whether `copy_to_user` fails. -/
def logger_device_read (g : logger_device) (copy_fails : Bool) (count : Nat) :
    Outcome LoggerResult :=
  if g.logger_device_mutex then .blocked
  else
    let g1 := { g with logger_device_mutex := true }
    match g1.kernel_buff with
    | none => .ret ⟨-ENOMEM, g1, []⟩
    | some buff =>
      if g1.kernel_buff_size = 0 then .ret ⟨-ENOMEM, g1, []⟩
      else
        let count1 :=
          if to_size_t g1.kernel_index < count then to_size_t g1.kernel_index else count
        if copy_fails then .ret ⟨-EFAULT, g1, []⟩
        else
          .ret ⟨(count1 : Int), { g1 with logger_device_mutex := false },
            (List.range count1).map buff⟩

/-- The request codes of `logger_device_ioctl`. -/
inductive LoggerCmd where
  | FETCH_KERNEL_SIZE
  | CLEAR_KERNEL_BUFFER
  | other

/-- The function `logger_device_ioctl(file, cmd, args)`; the size copied out by
`FETCH_KERNEL_SIZE` is given as the one element of `out`. -/
def logger_device_ioctl (g : logger_device) (cmd : LoggerCmd) (copy_fails : Bool) :
    Outcome LoggerResult :=
  match cmd with
  | .FETCH_KERNEL_SIZE =>
    if copy_fails then .ret ⟨-EFAULT, g, []⟩ else .ret ⟨0, g, [g.kernel_buff_size]⟩
  | .CLEAR_KERNEL_BUFFER =>
    if g.logger_device_mutex then .blocked
    else
      .ret ⟨0,
        { logger_device_mutex := false, kernel_buff_size := 0, kernel_buff := none,
          kernel_index := 0 },
        []⟩
  | .other => .ret ⟨0, g, []⟩

/-- The globals of a logger with a buffer of four bytes that is full. -/
def logger_full : logger_device :=
  { logger_device_mutex := false, kernel_buff_size := 4, kernel_buff := some (fun _ => 65),
    kernel_index := 4 }

/-- The globals a call of the logger leaves behind (the globals themselves
when the call does not return). -/
def after_logger (g : logger_device) : Outcome LoggerResult → logger_device
  | .ret r => r.dev
  | _ => g

/-- The value a call of the logger returns, when it returns. -/
def logger_ret : Outcome LoggerResult → Option Int
  | .ret r => some r.ret
  | _ => none

/-- The call sleeps on the mutex. -/
def logger_blocked : Outcome LoggerResult → Bool
  | .blocked => true
  | _ => false

/-! # Theorems -/

/-! ## Basic facts about the locking primitives -/

@[simp] theorem set_region_regions (dev : vblock_device) (i j : Nat) (r : vblock_region) :
    (set_region dev i r).regions j = if j = i then r else dev.regions j := rfl

@[simp] theorem set_region_mirror_buffer (dev : vblock_device) (i : Nat) (r : vblock_region) :
    (set_region dev i r).mirror_buffer = dev.mirror_buffer := rfl

@[simp] theorem set_region_mirror_enable (dev : vblock_device) (i : Nat) (r : vblock_region) :
    (set_region dev i r).mirror_enable = dev.mirror_enable := rfl

@[simp] theorem set_region_user_keys (dev : vblock_device) (i : Nat) (r : vblock_region) :
    (set_region dev i r).user_keys = dev.user_keys := rfl

@[simp] theorem set_region_key_count (dev : vblock_device) (i : Nat) (r : vblock_region) :
    (set_region dev i r).key_count = dev.key_count := rfl

@[simp] theorem mirror_update_regions (dev : vblock_device) (f : (Nat → Nat) → (Nat → Nat)) :
    (mirror_update dev f).regions = dev.regions := by
  unfold mirror_update
  split
  · split <;> rfl
  · rfl

@[simp] theorem mirror_update_mirror_enable (dev : vblock_device) (f : (Nat → Nat) → (Nat → Nat)) :
    (mirror_update dev f).mirror_enable = dev.mirror_enable := by
  unfold mirror_update
  split
  · split <;> rfl
  · rfl

@[simp] theorem mirror_update_user_keys (dev : vblock_device) (f : (Nat → Nat) → (Nat → Nat)) :
    (mirror_update dev f).user_keys = dev.user_keys := by
  unfold mirror_update
  split
  · split <;> rfl
  · rfl

@[simp] theorem mirror_update_key_count (dev : vblock_device) (f : (Nat → Nat) → (Nat → Nat)) :
    (mirror_update dev f).key_count = dev.key_count := by
  unfold mirror_update
  split
  · split <;> rfl
  · rfl

theorem mirror_update_mirror_buffer (dev : vblock_device) (f : (Nat → Nat) → (Nat → Nat)) :
    (mirror_update dev f).mirror_buffer =
      if dev.mirror_enable ≠ 0 then dev.mirror_buffer.map f else dev.mirror_buffer := by
  unfold mirror_update
  cases h : dev.mirror_buffer with
  | none => simp [h]
  | some m =>
    by_cases he : dev.mirror_enable = 0
    · simp [he, h]
    · simp [he]

theorem device_ext (a b : vblock_device) (h1 : ∀ i, a.regions i = b.regions i)
    (h2 : a.mirror_buffer = b.mirror_buffer) (h3 : a.mirror_enable = b.mirror_enable)
    (h4 : a.user_keys = b.user_keys) (h5 : a.key_count = b.key_count) : a = b := by
  cases a
  cases b
  simp only [vblock_device.mk.injEq]
  exact ⟨funext h1, h2, h3, h4, h5⟩

theorem mutex_lock_free (dev : vblock_device) (i : Nat)
    (h : (dev.regions i).region_mutex = false) :
    mutex_lock dev i = some (set_region dev i { dev.regions i with region_mutex := true }) := by
  simp [mutex_lock, h]

theorem down_available (dev : vblock_device) (i : Nat) (h : (dev.regions i).read_sem ≠ 0) :
    down dev i =
      some (set_region dev i { dev.regions i with read_sem := (dev.regions i).read_sem - 1 }) := by
  simp [down, h]

/-- Taking a free mutex and releasing it again restores the device. -/
theorem mutex_unlock_after_lock (dev : vblock_device) (i : Nat)
    (h : (dev.regions i).region_mutex = false) :
    mutex_unlock (set_region dev i { dev.regions i with region_mutex := true }) i = dev := by
  apply device_ext <;> simp [mutex_unlock]
  intro j
  split
  · rename_i hj
    subst hj
    rw [← h]
  · rfl

theorem region_index_in_range (r : Nat) (hr : r < TOTAL_REGIONS) :
    ¬ ((r : Int) < 0 ∨ (TOTAL_REGIONS : Int) ≤ (r : Int)) := by
  simp only [TOTAL_REGIONS] at *
  omega

theorem is_valid_key_loop_iff (dev : vblock_device) (key : Int) (n i : Nat) :
    is_valid_key_loop dev key n i = true ↔ ∃ j, i ≤ j ∧ j < i + n ∧ dev.user_keys j = key := by
  induction n generalizing i with
  | zero =>
    simp only [is_valid_key_loop]
    constructor
    · intro h
      cases h
    · rintro ⟨j, h1, h2, _⟩
      omega
  | succ n ih =>
    simp only [is_valid_key_loop]
    split
    · rename_i h
      simp only [true_iff]
      exact ⟨i, le_refl _, by omega, h⟩
    · rename_i h
      rw [ih]
      constructor
      · rintro ⟨j, h1, h2, h3⟩
        exact ⟨j, by omega, by omega, h3⟩
      · rintro ⟨j, h1, h2, h3⟩
        have : j ≠ i := by
          intro hji
          subst hji
          exact h h3
        exact ⟨j, by omega, by omega, h3⟩

/-- Claim C7: `is_valid_key(dev, key)` is true exactly when `key` is one of
the first `key_count` entries of `user_keys`; so it is false for every key
that is not among them, also for a key of the shape `region_index + 1000`. -/
theorem is_valid_key_iff_allowed (dev : vblock_device) (key : Int) :
    (is_valid_key dev key = true ↔ ∃ i : Nat, (i : Int) < dev.key_count ∧ dev.user_keys i = key) ∧
    (∀ region_index : Nat,
      (¬ ∃ i : Nat, (i : Int) < dev.key_count ∧ dev.user_keys i = (region_index : Int) + 1000) →
      is_valid_key dev ((region_index : Int) + 1000) = false) := by
  have main : ∀ k : Int, is_valid_key dev k = true ↔
      ∃ i : Nat, (i : Int) < dev.key_count ∧ dev.user_keys i = k := by
    intro k
    unfold is_valid_key
    rw [is_valid_key_loop_iff]
    constructor
    · rintro ⟨j, _, h2, h3⟩
      exact ⟨j, by omega, h3⟩
    · rintro ⟨j, h2, h3⟩
      exact ⟨j, by omega, by omega, h3⟩
  refine ⟨main key, ?_⟩
  intro region_index h
  cases hv : is_valid_key dev ((region_index : Int) + 1000) with
  | false => rfl
  | true => exact absurd ((main _).1 hv) h


/-- Claim C8: the erase request on an in-range region that is locked fails
with `-EACCES` and hands back the device exactly as it was: every region byte,
the mirror, every lock flag and every lock key (the argument is readable and
the region's mutex is free when the request arrives). -/
theorem erase_locked_region_denied (dev : vblock_device) (env : Env) (r : Nat)
    (hr : r < TOTAL_REGIONS) (hcopy : env.copy_from_user_fails = false)
    (hm : (dev.regions r).region_mutex = false) (hl : (dev.regions r).locked ≠ 0) :
    block_dev_ioctl dev env .VBLOCK_ERASE_REGION (r : Int) = .ret ⟨-EACCES, dev, none, none⟩ := by
  simp only [block_dev_ioctl, hcopy, Bool.false_eq_true, if_false, region_index_in_range r hr,
    Int.toNat_ofNat, mutex_lock_free dev r hm, mutex_unlock_after_lock dev r hm]
  simp [hl]

theorem erase_locked_region_denied_witness :
    block_dev_ioctl scenario_locked Env.quiet .VBLOCK_ERASE_REGION ((0 : Nat) : Int) =
      .ret ⟨-EACCES, scenario_locked, none, none⟩ :=
  erase_locked_region_denied scenario_locked Env.quiet 0 (by decide) rfl (by decide) (by decide)


/-- Claim C9: the erase request on an in-range region that is unlocked
returns 0, zeroes the `REGION_SIZE` bytes of that region and, when mirroring
is on, the mirror span of the region, and changes nothing else: no other
region, no other mirror byte, no lock flag, no lock key (the argument is
readable, the region's mutex is free and its gate has a slot). -/
theorem erase_unlocked_region_zeroes (dev : vblock_device) (env : Env) (r : Nat)
    (hr : r < TOTAL_REGIONS) (hcopy : env.copy_from_user_fails = false)
    (hm : (dev.regions r).region_mutex = false) (hs : 0 < (dev.regions r).read_sem)
    (hl : (dev.regions r).locked = 0) :
    ∃ dev', block_dev_ioctl dev env .VBLOCK_ERASE_REGION (r : Int) = .ret ⟨0, dev', none, none⟩ ∧
      (∀ j, j < REGION_SIZE → (dev'.regions r).data j = 0) ∧
      (∀ m, dev.mirror_buffer = some m → dev.mirror_enable ≠ 0 →
        ∃ m', dev'.mirror_buffer = some m' ∧
          ∀ x, m' x = if r * REGION_SIZE ≤ x ∧ x < (r + 1) * REGION_SIZE then 0 else m x) ∧
      (dev.mirror_enable = 0 ∨ dev.mirror_buffer = none → dev'.mirror_buffer = dev.mirror_buffer) ∧
      (∀ i, i ≠ r → dev'.regions i = dev.regions i) ∧
      (∀ i, (dev'.regions i).locked = (dev.regions i).locked ∧
        (dev'.regions i).lock_key = (dev.regions i).lock_key) ∧
      (dev'.regions r).region_mutex = false ∧
      (dev'.regions r).read_sem = (dev.regions r).read_sem ∧
      dev'.mirror_enable = dev.mirror_enable ∧ dev'.user_keys = dev.user_keys ∧
      dev'.key_count = dev.key_count := by
  have hs' : (dev.regions r).read_sem ≠ 0 := by omega
  have hsem : (dev.regions r).read_sem - 1 + 1 = (dev.regions r).read_sem := by omega
  simp only [block_dev_ioctl, hcopy, Bool.false_eq_true, if_false, region_index_in_range r hr,
    Int.toNat_ofNat, mutex_lock_free dev r hm]
  rw [down_available _ _ (by simpa using hs')]
  simp only [set_region_regions, if_true, hl, ne_eq, not_true_eq_false, if_false]
  refine ⟨_, rfl, ?_, ?_, ?_, ?_, ?_, ?_, ?_, ?_, ?_, ?_⟩
  · intro j hj
    simp [mutex_unlock, up, memset_zero, hj]
  · intro m hmb hme
    refine ⟨fun x => if r * REGION_SIZE ≤ x ∧ x < (r + 1) * REGION_SIZE then 0 else m x, ?_,
      fun _ => rfl⟩
    simp only [mutex_unlock, up, set_region_mirror_buffer, mirror_update_mirror_buffer,
      set_region_mirror_enable, hme, ne_eq, not_false_eq_true, if_true, hmb, Option.map_some',
      Option.some.injEq]
    funext x
    simp only [memset_zero, REGION_SIZE]
    split_ifs <;> first | rfl | omega
  · intro h
    simp only [mutex_unlock, up, set_region_mirror_buffer, mirror_update_mirror_buffer,
      set_region_mirror_enable]
    rcases h with h | h
    · simp [h]
    · simp [h]
  · intro i hi
    simp [mutex_unlock, up, hi]
  · intro i
    by_cases hi : i = r
    · subst hi
      simp [mutex_unlock, up, hl]
    · simp [mutex_unlock, up, hi]
  · simp [mutex_unlock, up]
  · simp [mutex_unlock, up, hsem]
  · simp [mutex_unlock, up]
  · simp [mutex_unlock, up]
  · simp [mutex_unlock, up]

theorem erase_unlocked_region_zeroes_witness :
    ∃ dev', block_dev_ioctl scenario_mirrored Env.quiet .VBLOCK_ERASE_REGION ((3 : Nat) : Int) =
        .ret ⟨0, dev', none, none⟩ ∧
      (∀ j, j < REGION_SIZE → (dev'.regions 3).data j = 0) ∧
      (∀ m, scenario_mirrored.mirror_buffer = some m → scenario_mirrored.mirror_enable ≠ 0 →
        ∃ m', dev'.mirror_buffer = some m' ∧
          ∀ x, m' x = if 3 * REGION_SIZE ≤ x ∧ x < (3 + 1) * REGION_SIZE then 0 else m x) ∧
      (scenario_mirrored.mirror_enable = 0 ∨ scenario_mirrored.mirror_buffer = none →
        dev'.mirror_buffer = scenario_mirrored.mirror_buffer) ∧
      (∀ i, i ≠ 3 → dev'.regions i = scenario_mirrored.regions i) ∧
      (∀ i, (dev'.regions i).locked = (scenario_mirrored.regions i).locked ∧
        (dev'.regions i).lock_key = (scenario_mirrored.regions i).lock_key) ∧
      (dev'.regions 3).region_mutex = false ∧
      (dev'.regions 3).read_sem = (scenario_mirrored.regions 3).read_sem ∧
      dev'.mirror_enable = scenario_mirrored.mirror_enable ∧
      dev'.user_keys = scenario_mirrored.user_keys ∧
      dev'.key_count = scenario_mirrored.key_count :=
  erase_unlocked_region_zeroes scenario_mirrored Env.quiet 3 (by decide) rfl rfl (by decide)
    (by decide)


/-- The lock request on a region that is already locked hands the device
back as it is. -/
theorem lock_request_on_locked (dev : vblock_device) (env : Env) (r : Nat)
    (hr : r < TOTAL_REGIONS) (hcopy : env.copy_from_user_fails = false)
    (hm : (dev.regions r).region_mutex = false) (hl : (dev.regions r).locked ≠ 0) :
    block_dev_ioctl dev env .VBLOCK_LOCK_REGION (r : Int) = .ret ⟨0, dev, none, none⟩ := by
  simp only [block_dev_ioctl, hcopy, Bool.false_eq_true, if_false, region_index_in_range r hr,
    Int.toNat_ofNat, mutex_lock_free dev r hm]
  simp [hl, mutex_unlock_after_lock dev r hm]

/-- The lock request on an unlocked region sets the flag and the key of that
region and nothing else. -/
theorem lock_request_on_unlocked (dev : vblock_device) (env : Env) (r : Nat)
    (hr : r < TOTAL_REGIONS) (hcopy : env.copy_from_user_fails = false)
    (hm : (dev.regions r).region_mutex = false) (hl : (dev.regions r).locked = 0) :
    block_dev_ioctl dev env .VBLOCK_LOCK_REGION (r : Int) =
      .ret ⟨0, set_region dev r { dev.regions r with locked := 1, lock_key := (r : Int) + 1000 },
        none, none⟩ := by
  simp only [block_dev_ioctl, hcopy, Bool.false_eq_true, if_false, region_index_in_range r hr,
    Int.toNat_ofNat, mutex_lock_free dev r hm]
  simp only [set_region_regions, if_true, hl]
  congr 2
  apply device_ext <;> simp [mutex_unlock]
  intro i
  split
  · rename_i hi
    subst hi
    simp [hm]
  · rfl

/-- Claim C10: the lock request on an in-range region returns 0; an unlocked
region becomes locked with `lock_key = region + 1000`, an already locked
region is left exactly as it is (no key rotation), so a second lock request
changes nothing; region bytes, the mirror, the allow-list and every other
region are unchanged (the argument is readable and the region's mutex is free
when the request arrives). -/
theorem lock_request_sets_key_once (dev : vblock_device) (env : Env) (r : Nat)
    (hr : r < TOTAL_REGIONS) (hcopy : env.copy_from_user_fails = false)
    (hm : (dev.regions r).region_mutex = false) :
    ∃ dev', block_dev_ioctl dev env .VBLOCK_LOCK_REGION (r : Int) = .ret ⟨0, dev', none, none⟩ ∧
      ((dev.regions r).locked = 0 →
        (dev'.regions r).locked = 1 ∧ (dev'.regions r).lock_key = (r : Int) + 1000) ∧
      ((dev.regions r).locked ≠ 0 → dev' = dev) ∧
      block_dev_ioctl dev' env .VBLOCK_LOCK_REGION (r : Int) = .ret ⟨0, dev', none, none⟩ ∧
      (dev'.regions r).data = (dev.regions r).data ∧
      (dev'.regions r).region_mutex = false ∧
      (dev'.regions r).read_sem = (dev.regions r).read_sem ∧
      (∀ i, i ≠ r → dev'.regions i = dev.regions i) ∧
      dev'.mirror_buffer = dev.mirror_buffer ∧ dev'.mirror_enable = dev.mirror_enable ∧
      dev'.user_keys = dev.user_keys ∧ dev'.key_count = dev.key_count := by
  by_cases hl : (dev.regions r).locked = 0
  · refine ⟨_, lock_request_on_unlocked dev env r hr hcopy hm hl, ?_, ?_, ?_, ?_, ?_, ?_, ?_, ?_,
      ?_, ?_, ?_⟩
    · intro _
      simp
    · intro h
      exact absurd hl h
    · apply lock_request_on_locked _ env r hr hcopy
      · simp [hm]
      · simp
    · simp
    · simp [hm]
    · simp
    · intro i hi
      simp [hi]
    · simp
    · simp
    · simp
    · simp
  · refine ⟨dev, lock_request_on_locked dev env r hr hcopy hm hl, ?_, ?_,
      lock_request_on_locked dev env r hr hcopy hm hl, rfl, hm, rfl, ?_, rfl, rfl, rfl, rfl⟩
    · intro h
      exact absurd h hl
    · intro _
      rfl
    · intro i _
      rfl

theorem lock_request_sets_key_once_witness :
    ∃ dev', block_dev_ioctl scenario_init Env.quiet .VBLOCK_LOCK_REGION ((0 : Nat) : Int) =
        .ret ⟨0, dev', none, none⟩ ∧
      ((scenario_init.regions 0).locked = 0 →
        (dev'.regions 0).locked = 1 ∧ (dev'.regions 0).lock_key = ((0 : Nat) : Int) + 1000) ∧
      ((scenario_init.regions 0).locked ≠ 0 → dev' = scenario_init) ∧
      block_dev_ioctl dev' Env.quiet .VBLOCK_LOCK_REGION ((0 : Nat) : Int) =
        .ret ⟨0, dev', none, none⟩ ∧
      (dev'.regions 0).data = (scenario_init.regions 0).data ∧
      (dev'.regions 0).region_mutex = false ∧
      (dev'.regions 0).read_sem = (scenario_init.regions 0).read_sem ∧
      (∀ i, i ≠ 0 → dev'.regions i = scenario_init.regions i) ∧
      dev'.mirror_buffer = scenario_init.mirror_buffer ∧
      dev'.mirror_enable = scenario_init.mirror_enable ∧
      dev'.user_keys = scenario_init.user_keys ∧ dev'.key_count = scenario_init.key_count :=
  lock_request_sets_key_once scenario_init Env.quiet 0 (by decide) rfl rfl

/-! ## Tokens of the write protocol -/

theorem parse_integer_split : ∀ (s : List Nat) (acc n : Nat),
    ∃ ds, s = ds ++ (parse_integer s acc n).2.2 ∧ ∀ c ∈ ds, isdigit c = true := by
  intro s
  induction s with
  | nil =>
    intro acc n
    exact ⟨[], rfl, by simp⟩
  | cons c cs ih =>
    intro acc n
    simp only [parse_integer]
    by_cases hc : isdigit c = true
    · simp only [hc, if_true]
      obtain ⟨ds, h1, h2⟩ := ih (acc * 10 + (c - 48)) (n + 1)
      refine ⟨c :: ds, ?_, ?_⟩
      · simp only [List.cons_append]
        rw [← h1]
      · intro x hx
        rcases List.mem_cons.1 hx with h | h
        · rw [h]; exact hc
        · exact h2 x h
    · simp only [hc]
      exact ⟨[], rfl, by simp⟩

theorem isdigit_ne (c : Nat) (h : isdigit c = true) : c ≠ 0 ∧ c ≠ 58 := by
  simp only [isdigit, Bool.and_eq_true, decide_eq_true_eq] at h
  omega

theorem kstrtoull_digits_bytes (s : List Nat) (v : Nat) (h : kstrtoull_digits s = some v) :
    ∀ c ∈ s, c ≠ 0 ∧ c ≠ 58 := by
  obtain ⟨ds, h1, h2⟩ := parse_integer_split s 0 0
  have hrest : (parse_integer s 0 0).2.2 = [] ∨ (parse_integer s 0 0).2.2 = [10] := by
    unfold kstrtoull_digits at h
    simp only at h
    rcases hr : (parse_integer s 0 0).2.2 with _ | ⟨a, t⟩
    · exact Or.inl rfl
    · right
      rw [hr] at h
      by_cases ha : a = 10
      · subst ha
        simp only at h
        split at h
        · cases h
        · split at h
          · cases h
          · split at h
            · rename_i ht
              rw [ht]
            · cases h
      · split at h
        · cases h
        · split at h
          · cases h
          · split at h
            · rename_i ht
              split at ht
              · rename_i heq
                simp only [List.cons.injEq] at heq
                exact absurd heq.1 ha
              · cases ht
            · cases h
  intro c hc
  rw [h1] at hc
  rcases List.mem_append.1 hc with hc | hc
  · exact isdigit_ne c (h2 c hc)
  · rcases hrest with hr | hr
    · rw [hr] at hc
      cases hc
    · rw [hr] at hc
      simp only [List.mem_singleton] at hc
      omega

theorem kstrtoull_bytes (s : List Nat) (v : Nat) (h : kstrtoull s = some v) :
    ∀ c ∈ s, c ≠ 0 ∧ c ≠ 58 := by
  unfold kstrtoull at h
  split at h
  · rename_i t
    intro c hc
    rcases List.mem_cons.1 hc with hc | hc
    · omega
    · exact kstrtoull_digits_bytes t v h c hc
  · exact kstrtoull_digits_bytes s v h

/-- A token that `kstrtoll` accepts holds neither a NUL nor a `:`. -/
theorem kstrtoll_bytes (s : List Nat) (v : Int) (h : kstrtoll s = some v) :
    ∀ c ∈ s, c ≠ 0 ∧ c ≠ 58 := by
  unfold kstrtoll at h
  split at h
  · rename_i t
    cases hd : kstrtoull_digits t with
    | none => simp [hd] at h
    | some tmp =>
      intro c hc
      rcases List.mem_cons.1 hc with hc | hc
      · omega
      · exact kstrtoull_digits_bytes t tmp hd c hc
  · cases hd : kstrtoull s with
    | none => simp [hd] at h
    | some tmp => exact kstrtoull_bytes s tmp hd

theorem kstrtoint_kstrtoll (s : List Nat) (v : Int) (h : kstrtoint s = some v) :
    kstrtoll s = some v := by
  unfold kstrtoint at h
  cases hd : kstrtoll s with
  | none => simp [hd] at h
  | some tmp =>
    simp only [hd] at h
    split at h
    · simpa using h
    · cases h

theorem kstrtoll_kstrtoint (s : List Nat) (v : Int) (h : kstrtoll s = some v)
    (hv : -(2 ^ 31) ≤ v ∧ v < 2 ^ 31) : kstrtoint s = some v := by
  simp only [kstrtoint, h, hv, and_self, if_true]

theorem strsep_scan_colon : ∀ (tok rest : List Nat), (∀ c ∈ tok, c ≠ 0 ∧ c ≠ 58) →
    strsep_scan (tok ++ 58 :: rest) = (tok, some rest) := by
  intro tok
  induction tok with
  | nil =>
    intro rest _
    simp [strsep_scan]
  | cons c cs ih =>
    intro rest h
    have hc := h c (List.mem_cons_self c cs)
    have ih' := ih rest (fun x hx => h x (List.mem_cons_of_mem c hx))
    simp [strsep_scan, hc.1, hc.2, ih']

theorem strsep_scan_nul : ∀ (tok rest : List Nat), (∀ c ∈ tok, c ≠ 0 ∧ c ≠ 58) →
    strsep_scan (tok ++ 0 :: rest) = (tok, none) := by
  intro tok
  induction tok with
  | nil =>
    intro rest _
    simp [strsep_scan]
  | cons c cs ih =>
    intro rest h
    have hc := h c (List.mem_cons_self c cs)
    have ih' := ih rest (fun x hx => h x (List.mem_cons_of_mem c hx))
    simp [strsep_scan, hc.1, hc.2, ih']

theorem cstr_append_nul (data : List Nat) (h : ∀ c ∈ data, c ≠ 0) : cstr (data ++ [0]) = data := by
  induction data with
  | nil => simp [cstr]
  | cons c cs ih =>
    have hc := h c (List.mem_cons_self c cs)
    have ih' := ih (fun x hx => h x (List.mem_cons_of_mem c hx))
    have hb : (c != 0) = true := by simpa using hc
    simp only [cstr] at ih' ⊢
    simp [List.takeWhile, hb, ih']

/-! ## The keyed form `<key>:<offset>:<data>` -/

/-- What the parser makes of a keyed payload: the key token, the offset token,
and the data pointer behind the second `:`. -/
theorem keyed_payload_parse (env : Env) (ktok otok data : List Nat) (k o lofft : Int)
    (halloc : env.parse_alloc_fails = false)
    (hk : kstrtoint ktok = some k) (ho : kstrtoll otok = some o) :
    parse_write_data env ((ktok ++ 58 :: (otok ++ 58 :: data)) ++ [0])
        (ktok ++ 58 :: (otok ++ 58 :: data)).length lofft 0 = ⟨1, o, k⟩ ∧
      write_data_ptr 1 ((ktok ++ 58 :: (otok ++ 58 :: data)) ++ [0]) = some (data ++ [0]) := by
  have hkb := kstrtoll_bytes ktok k (kstrtoint_kstrtoll ktok k hk)
  have hob := kstrtoll_bytes otok o ho
  have e : (ktok ++ 58 :: (otok ++ 58 :: data)) ++ [0] =
      ktok ++ 58 :: (otok ++ 58 :: (data ++ [0])) := by simp
  have htake : ((ktok ++ 58 :: (otok ++ 58 :: data)) ++ [0]).take
      (ktok ++ 58 :: (otok ++ 58 :: data)).length = ktok ++ 58 :: (otok ++ 58 :: data) := by
    rw [List.take_append_of_le_length (le_refl _), List.take_length]
  constructor
  · simp only [parse_write_data, halloc, Bool.false_eq_true, if_false, htake]
    rw [e]
    simp only [strsep, strsep_scan_colon ktok _ hkb, Option.getD_some, hk,
      strsep_scan_colon otok _ hob, ho]
  · simp only [write_data_ptr, if_true]
    rw [e]
    simp only [strsep, strsep_scan_colon ktok _ hkb, strsep_scan_colon otok _ hob]

/-- A keyed payload reaches the commit part of the write with its key, its
offset and its data. -/
theorem block_dev_write_keyed (dev : vblock_device) (env : Env) (ktok otok data : List Nat)
    (k o lofft : Int)
    (h1 : env.write_alloc_fails = false) (h2 : env.copy_from_user_fails = false)
    (h3 : env.parse_alloc_fails = false)
    (hk : kstrtoint ktok = some k) (ho : kstrtoll otok = some o) :
    block_dev_write dev env (ktok ++ 58 :: (otok ++ 58 :: data)) lofft =
      write_commit dev env ⟨1, o, k⟩ (data ++ [0]) := by
  obtain ⟨hp, hd⟩ := keyed_payload_parse env ktok otok data k o lofft h3 hk ho
  simp only [block_dev_write, h1, h2, Bool.false_eq_true, if_false, hp, hd]
  simp

/-! ## The chunk loop of the write -/

theorem write_chunk_fields (d : List Nat) (s : WriteLoop) :
    (write_chunk d s).region_num = s.region_num + 1 ∧
    (write_chunk d s).region_offset = 0 ∧
    (write_chunk d s).data_len = s.data_len - min (REGION_SIZE - s.region_offset) s.data_len ∧
    (write_chunk d s).ret = s.ret + min (REGION_SIZE - s.region_offset) s.data_len :=
  ⟨rfl, rfl, rfl, rfl⟩

theorem write_chunk_regions (d : List Nat) (s : WriteLoop) (i : Nat) :
    (write_chunk d s).dev.regions i =
      if i = s.region_num then
        { s.dev.regions s.region_num with
          data := memcpy (s.dev.regions s.region_num).data s.region_offset d s.ret
            (min (REGION_SIZE - s.region_offset) s.data_len) }
      else s.dev.regions i := by
  simp [write_chunk]

theorem write_chunk_byte_at (d : List Nat) (s : WriteLoop) (x : Nat) :
    byte_at (write_chunk d s).dev x =
      if x / REGION_SIZE = s.region_num ∧ s.region_offset ≤ x % REGION_SIZE ∧
          x % REGION_SIZE < s.region_offset + min (REGION_SIZE - s.region_offset) s.data_len then
        d.getD (s.ret + (x % REGION_SIZE - s.region_offset)) 0
      else byte_at s.dev x := by
  simp only [byte_at, write_chunk_regions]
  by_cases h : x / REGION_SIZE = s.region_num
  · simp only [h, if_true, memcpy, true_and]
  · simp only [h, if_false, false_and]

theorem write_loop_done (d : List Nat) (fuel : Nat) (s : WriteLoop) (h : s.data_len = 0) :
    write_loop d fuel s = some s := by
  cases fuel <;> simp [write_loop, h]

/-- A write that fits into the rest of its first region takes one pass. -/
theorem write_loop_single (d : List Nat) (fuel : Nat) (s : WriteLoop)
    (h1 : 0 < s.data_len) (h2 : s.data_len ≤ REGION_SIZE - s.region_offset)
    (h3 : s.region_num < TOTAL_REGIONS) :
    write_loop d (fuel + 1) s = some (write_chunk d s) := by
  simp only [write_loop, h1, h3, and_self, if_true]
  apply write_loop_done
  simp only [write_chunk]
  omega

set_option maxHeartbeats 1000000 in
/-- The write loop, started with enough passes for the regions that are left,
ends; it has copied `min data_len (TOTAL_SIZE - start)` bytes of the data to
the device offsets from `start` on and has left every other byte, every lock
field and the configuration alone. -/
theorem write_loop_spec (d : List Nat) : ∀ (fuel : Nat) (s : WriteLoop),
    s.region_offset < REGION_SIZE → TOTAL_REGIONS ≤ fuel + s.region_num →
    ∃ s', write_loop d fuel s = some s' ∧
      s'.ret = s.ret + min s.data_len (TOTAL_SIZE - (s.region_num * REGION_SIZE + s.region_offset)) ∧
      (∀ x, byte_at s'.dev x =
        if s.region_num * REGION_SIZE + s.region_offset ≤ x ∧
            x < s.region_num * REGION_SIZE + s.region_offset +
              min s.data_len (TOTAL_SIZE - (s.region_num * REGION_SIZE + s.region_offset)) then
          d.getD (s.ret + (x - (s.region_num * REGION_SIZE + s.region_offset))) 0
        else byte_at s.dev x) ∧
      s.region_num ≤ s'.region_num ∧
      (0 < s.data_len → s.region_num < TOTAL_REGIONS → s.region_num < s'.region_num) ∧
      (∀ i, (s'.dev.regions i).locked = (s.dev.regions i).locked ∧
        (s'.dev.regions i).lock_key = (s.dev.regions i).lock_key ∧
        (s'.dev.regions i).region_mutex = (s.dev.regions i).region_mutex ∧
        (s'.dev.regions i).read_sem = (s.dev.regions i).read_sem) ∧
      s'.dev.mirror_enable = s.dev.mirror_enable ∧ s'.dev.user_keys = s.dev.user_keys ∧
      s'.dev.key_count = s.dev.key_count := by
  intro fuel
  induction fuel with
  | zero =>
    intro s _ hfuel
    have hrn : ¬ s.region_num < TOTAL_REGIONS := by omega
    have hm : min s.data_len (TOTAL_SIZE - (s.region_num * REGION_SIZE + s.region_offset)) = 0 := by
      simp only [TOTAL_SIZE, REGION_SIZE, TOTAL_REGIONS] at *
      omega
    refine ⟨s, ?_, ?_, ?_, le_refl _, ?_, ?_, rfl, rfl, rfl⟩
    · simp [write_loop, hrn]
    · rw [hm]; rfl
    · intro x
      rw [hm, if_neg (by omega)]
    · intro _ h
      exact absurd h hrn
    · intro i
      exact ⟨rfl, rfl, rfl, rfl⟩
  | succ fuel ih =>
    intro s hro hfuel
    by_cases hc : 0 < s.data_len ∧ s.region_num < TOTAL_REGIONS
    · obtain ⟨f1, f2, f3, f4⟩ := write_chunk_fields d s
      obtain ⟨s', e1, e2, e3, e4, _, e7, e8, e9, e10⟩ := ih (write_chunk d s)
        (by rw [f2]; simp [REGION_SIZE]) (by rw [f1]; omega)
      refine ⟨s', ?_, ?_, ?_, ?_, ?_, ?_, ?_, ?_, ?_⟩
      · simp only [write_loop, hc, and_self, if_true]
        exact e1
      · rw [e2, f4, f3, f1, f2]
        simp only [TOTAL_SIZE, REGION_SIZE, TOTAL_REGIONS] at hc hro ⊢
        omega
      · intro x
        rw [e3 x, write_chunk_byte_at, f1, f2, f3, f4]
        simp only [TOTAL_SIZE, REGION_SIZE, TOTAL_REGIONS] at hc hro ⊢
        split_ifs with hA hB hC hD
        · have e : s.ret + min (512 - s.region_offset) s.data_len + (x - ((s.region_num + 1) * 512 + 0)) =
              s.ret + (x - (s.region_num * 512 + s.region_offset)) := by omega
          rw [e]
        · omega
        · have e : s.ret + (x % 512 - s.region_offset) =
              s.ret + (x - (s.region_num * 512 + s.region_offset)) := by omega
          rw [e]
        · omega
        · omega
        · rfl
      · rw [f1] at e4
        omega
      · intro _ _
        rw [f1] at e4
        omega
      · intro i
        obtain ⟨a1, a2, a3, a4⟩ := e7 i
        rw [a1, a2, a3, a4, write_chunk_regions]
        split <;> simp_all
      · rw [e8]; simp [write_chunk]
      · rw [e9]; simp [write_chunk]
      · rw [e10]; simp [write_chunk]
    · have hm : min s.data_len (TOTAL_SIZE - (s.region_num * REGION_SIZE + s.region_offset)) = 0 := by
        simp only [TOTAL_SIZE, REGION_SIZE, TOTAL_REGIONS] at *
        omega
      refine ⟨s, ?_, ?_, ?_, le_refl _, ?_, ?_, rfl, rfl, rfl⟩
      · cases fuel <;> simp [write_loop, hc]
      · rw [hm]; rfl
      · intro x
        rw [hm, if_neg (by omega)]
      · intro h1 h2
        exact absurd ⟨h1, h2⟩ hc
      · intro i
        exact ⟨rfl, rfl, rfl, rfl⟩

/-! ## The commit part of the write -/

theorem byte_at_congr (a b : vblock_device) (x : Nat)
    (h : (a.regions (x / REGION_SIZE)).data = (b.regions (x / REGION_SIZE)).data) :
    byte_at a x = byte_at b x := by
  simp only [byte_at, h]

theorem byte_at_set_region (dev : vblock_device) (i : Nat) (r : vblock_region) (x : Nat)
    (h : r.data = (dev.regions i).data) : byte_at (set_region dev i r) x = byte_at dev x := by
  apply byte_at_congr
  simp only [set_region_regions]
  split
  · rename_i hx
    rw [h, hx]
  · rfl

theorem offset_in_range (o : Nat) (ho : o < TOTAL_SIZE) :
    ¬ ((o : Int) < 0 ∨ (TOTAL_SIZE : Int) ≤ (o : Int)) ∧ ¬ TOTAL_REGIONS ≤ o / REGION_SIZE := by
  simp only [TOTAL_SIZE, REGION_SIZE, TOTAL_REGIONS] at *
  omega

theorem getD_append_nul (data : List Nat) (i : Nat) : (data ++ [0]).getD i 0 = data.getD i 0 := by
  by_cases h : i < data.length
  · simp [List.getD, List.getElem?_append_left h]
  · have h' : data.length ≤ i := by omega
    rw [List.getD_eq_default data 0 h']
    by_cases h2 : i = data.length
    · subst h2
      simp [List.getD]
    · rw [List.getD_eq_default]
      simp
      omega

/-- Taking the free mutex and the available gate of region `i` changes only
those two fields of region `i`. -/
theorem lock_then_down (dev : vblock_device) (i : Nat)
    (hm : (dev.regions i).region_mutex = false) (hs : (dev.regions i).read_sem ≠ 0) :
    ∃ dev1 dev2, mutex_lock dev i = some dev1 ∧ down dev1 i = some dev2 ∧
      (∀ j, (dev2.regions j).data = (dev.regions j).data ∧
        (dev2.regions j).locked = (dev.regions j).locked ∧
        (dev2.regions j).lock_key = (dev.regions j).lock_key) ∧
      (dev2.regions i).region_mutex = true ∧
      (dev2.regions i).read_sem = (dev.regions i).read_sem - 1 ∧
      (∀ j, j ≠ i → dev2.regions j = dev.regions j) ∧
      dev2.mirror_buffer = dev.mirror_buffer ∧ dev2.mirror_enable = dev.mirror_enable ∧
      dev2.user_keys = dev.user_keys ∧ dev2.key_count = dev.key_count := by
  refine ⟨_, _, mutex_lock_free dev i hm, down_available _ i (by simpa using hs), ?_, ?_, ?_, ?_,
    rfl, rfl, rfl, rfl⟩
  · intro j
    by_cases hj : j = i
    · subst hj
      simp
    · simp [hj]
  · simp
  · simp
  · intro j hj
    simp [hj]

/-- The commit part of a keyed write that passes the key check, on a free
mutex and an available gate, with a non-empty string at the data pointer: it
returns the number of bytes copied, `min (strlen data_ptr) (TOTAL_SIZE - o)`,
moves the cursor behind them, and the device bytes are the old ones with the
copied bytes laid over them from offset `o` on. -/
theorem write_commit_stores (dev : vblock_device) (env : Env) (k : Int) (o : Nat)
    (data_ptr : List Nat) (ho : o < TOTAL_SIZE)
    (hkey : (dev.regions (o / REGION_SIZE)).locked ≠ 0 →
      is_valid_key dev k = true ∧ k = (dev.regions (o / REGION_SIZE)).lock_key)
    (hm : (dev.regions (o / REGION_SIZE)).region_mutex = false)
    (hs : (dev.regions (o / REGION_SIZE)).read_sem ≠ 0)
    (hlen : 0 < strlen data_ptr) :
    ∃ dev', write_commit dev env ⟨1, (o : Int), k⟩ data_ptr =
        .ret ⟨((min (strlen data_ptr) (TOTAL_SIZE - o) : Nat) : Int), dev',
          (o : Int) + ((min (strlen data_ptr) (TOTAL_SIZE - o) : Nat) : Int)⟩ ∧
      (∀ x, byte_at dev' x =
        if o ≤ x ∧ x < o + min (strlen data_ptr) (TOTAL_SIZE - o) then data_ptr.getD (x - o) 0
        else byte_at dev x) ∧
      (∀ i, (dev'.regions i).locked = (dev.regions i).locked ∧
        (dev'.regions i).lock_key = (dev.regions i).lock_key) ∧
      dev'.mirror_enable = dev.mirror_enable ∧ dev'.user_keys = dev.user_keys ∧
      dev'.key_count = dev.key_count := by
  obtain ⟨hr1, hr2⟩ := offset_in_range o ho
  have hc1 : ¬ ((dev.regions (o / REGION_SIZE)).locked ≠ 0 ∧ (1 : Int) ≠ 1) := by simp
  have hc2 : ¬ ((dev.regions (o / REGION_SIZE)).locked ≠ 0 ∧ is_valid_key dev k = false) := by
    rintro ⟨h1, h2⟩
    rw [(hkey h1).1] at h2
    cases h2
  have hc3 : ¬ ((dev.regions (o / REGION_SIZE)).locked ≠ 0 ∧
      k ≠ (dev.regions (o / REGION_SIZE)).lock_key) := by
    rintro ⟨h1, h2⟩
    exact h2 (hkey h1).2
  obtain ⟨dev1, dev2, l1, l2, l3, _, _, _, _, l8, l9, l10⟩ := lock_then_down dev _ hm hs
  obtain ⟨s', e1, e2, e3, e4, e5, e7, e8, e9, e10⟩ := write_loop_spec data_ptr TOTAL_REGIONS
    ⟨dev2, o / REGION_SIZE, o % REGION_SIZE, strlen data_ptr, 0⟩
    (Nat.mod_lt _ (by decide)) (Nat.le_add_right _ _)
  have hbase : o / REGION_SIZE * REGION_SIZE + o % REGION_SIZE = o := by
    simp only [REGION_SIZE]
    omega
  simp only [hbase, Nat.zero_add] at e2 e3 e4 e5 e7 e8 e9 e10
  have hrn : s'.region_num ≠ 0 := by
    have := e5 hlen (Nat.lt_of_not_le hr2)
    exact Nat.ne_of_gt (Nat.lt_of_le_of_lt (Nat.zero_le _) this)
  have hpos : 0 < min (strlen data_ptr) (TOTAL_SIZE - o) := by omega
  have hposZ : (0 : Int) < ((min (strlen data_ptr) (TOTAL_SIZE - o) : Nat) : Int) := by
    exact_mod_cast hpos
  refine ⟨mutex_unlock (up s'.dev (s'.region_num - 1)) (s'.region_num - 1), ?_, ?_, ?_, ?_, ?_, ?_⟩
  · simp only [write_commit, hr1, hr2, hc1, hc2, hc3, if_false, Int.toNat_ofNat, l1, l2, e1, hrn,
      hposZ, hpos, if_true, e2]
  · intro x
    rw [← byte_at_congr dev2 dev x (l3 _).1, ← e3 x]
    simp only [mutex_unlock, up]
    rw [byte_at_set_region _ _ _ _ (by rfl), byte_at_set_region _ _ _ _ (by rfl)]
  · intro i
    rw [← (l3 i).2.1, ← (l3 i).2.2, ← (e7 i).1, ← (e7 i).2.1]
    simp only [mutex_unlock, up, set_region_regions]
    split <;> simp_all
  · simp [mutex_unlock, up, e8, l8]
  · simp [mutex_unlock, up, e9, l9]
  · simp [mutex_unlock, up, e10, l10]

theorem neg_errno_lt_zero :
    -EINVAL < 0 ∧ -EACCES < 0 ∧ -EPERM < 0 ∧ -ERESTARTSYS < 0 ∧ -ENOMEM < 0 ∧ -EFAULT < 0 := by
  decide

/-- A write that is accepted (it returns a count, not an error) passed every
check of the commit part and found the mutex free and the gate available. -/
theorem write_commit_accepted (dev : vblock_device) (env : Env) (p : ParseResult)
    (d : List Nat) (w : WriteResult) (h : write_commit dev env p d = .ret w) (hacc : 0 ≤ w.ret) :
    0 ≤ p.offset ∧ p.offset < (TOTAL_SIZE : Int) ∧
      ((dev.regions (p.offset.toNat / REGION_SIZE)).locked ≠ 0 →
        is_valid_key dev p.key = true ∧
        p.key = (dev.regions (p.offset.toNat / REGION_SIZE)).lock_key) ∧
      (dev.regions (p.offset.toNat / REGION_SIZE)).region_mutex = false ∧
      (dev.regions (p.offset.toNat / REGION_SIZE)).read_sem ≠ 0 := by
  obtain ⟨n1, n2, n3, n4, _, _⟩ := neg_errno_lt_zero
  have bad : ∀ (e : Int) (dv : vblock_device) (l : Int), e < 0 →
      (Outcome.ret (⟨e, dv, l⟩ : WriteResult)) = .ret w → False := by
    intro e dv l he hw
    cases hw
    simp only at hacc
    omega
  unfold write_commit at h
  simp only at h
  split at h
  · exact (bad _ _ _ n1 h).elim
  · rename_i hrange
    split at h
    · exact (bad _ _ _ n1 h).elim
    · split at h
      · exact (bad _ _ _ n2 h).elim
      · rename_i hc1
        split at h
        · exact (bad _ _ _ n2 h).elim
        · rename_i hc2
          split at h
          · exact (bad _ _ _ n3 h).elim
          · rename_i hc3
            have hrange' : 0 ≤ p.offset ∧ p.offset < (TOTAL_SIZE : Int) := by omega
            refine ⟨hrange'.1, hrange'.2, ?_, ?_, ?_⟩
            · intro hl
              constructor
              · cases hv : is_valid_key dev p.key with
                | true => rfl
                | false => exact absurd ⟨hl, hv⟩ hc2
              · by_contra hne
                exact hc3 ⟨hl, hne⟩
            · cases hmx : (dev.regions (p.offset.toNat / REGION_SIZE)).region_mutex with
              | false => rfl
              | true =>
                simp [mutex_lock, hmx] at h
            · intro hz
              cases hmx : (dev.regions (p.offset.toNat / REGION_SIZE)).region_mutex with
              | true => simp [mutex_lock, hmx] at h
              | false =>
                rw [mutex_lock_free _ _ hmx] at h
                simp only [down, set_region_regions, if_true, hz] at h
                split at h
                · exact (bad _ _ _ n4 h).elim
                · cases h

/-- An accepted write of a keyed payload is the commit part run on its key,
offset and data. -/
theorem block_dev_write_keyed_accepted (dev : vblock_device) (env : Env)
    (ktok otok data : List Nat) (k o lofft : Int) (w : WriteResult)
    (hk : kstrtoint ktok = some k) (ho : kstrtoll otok = some o)
    (h : block_dev_write dev env (ktok ++ 58 :: (otok ++ 58 :: data)) lofft = .ret w)
    (hacc : 0 ≤ w.ret) :
    write_commit dev env ⟨1, o, k⟩ (data ++ [0]) = .ret w := by
  obtain ⟨_, _, _, _, n5, n6⟩ := neg_errno_lt_zero
  have bad : ∀ (e : Int) (dv : vblock_device) (l : Int), e < 0 →
      (Outcome.ret (⟨e, dv, l⟩ : WriteResult)) = .ret w → False := by
    intro e dv l he hw
    cases hw
    simp only at hacc
    omega
  cases h1 : env.write_alloc_fails with
  | true =>
    simp only [block_dev_write, h1, if_true] at h
    exact (bad _ _ _ n5 h).elim
  | false =>
    cases h2 : env.copy_from_user_fails with
    | true =>
      simp only [block_dev_write, h1, h2, if_true, Bool.false_eq_true, if_false] at h
      exact (bad _ _ _ n6 h).elim
    | false =>
      cases h3 : env.parse_alloc_fails with
      | true =>
        simp only [block_dev_write, h1, h2, Bool.false_eq_true, if_false, parse_write_data, h3,
          if_true] at h
        simp only [n5, if_true] at h
        exact (bad _ _ _ n5 h).elim
      | false =>
        rw [block_dev_write_keyed dev env ktok otok data k o lofft h1 h2 h3 hk ho] at h
        exact h

/-- A write that fits into the rest of its first region gives the gate and the
mutex of that region back. -/
theorem write_commit_single_releases (dev : vblock_device) (env : Env) (k : Int) (o : Nat)
    (data_ptr : List Nat) (ho : o < TOTAL_SIZE)
    (hkey : (dev.regions (o / REGION_SIZE)).locked ≠ 0 →
      is_valid_key dev k = true ∧ k = (dev.regions (o / REGION_SIZE)).lock_key)
    (hm : (dev.regions (o / REGION_SIZE)).region_mutex = false)
    (hs : (dev.regions (o / REGION_SIZE)).read_sem ≠ 0)
    (hlen : 0 < strlen data_ptr) (hfit : o % REGION_SIZE + strlen data_ptr ≤ REGION_SIZE) :
    ∀ w, write_commit dev env ⟨1, (o : Int), k⟩ data_ptr = .ret w →
      (w.dev.regions (o / REGION_SIZE)).read_sem = (dev.regions (o / REGION_SIZE)).read_sem ∧
      (w.dev.regions (o / REGION_SIZE)).region_mutex = false := by
  obtain ⟨hr1, hr2⟩ := offset_in_range o ho
  have hc1 : ¬ ((dev.regions (o / REGION_SIZE)).locked ≠ 0 ∧ (1 : Int) ≠ 1) := by simp
  have hc2 : ¬ ((dev.regions (o / REGION_SIZE)).locked ≠ 0 ∧ is_valid_key dev k = false) := by
    rintro ⟨h1, h2⟩
    rw [(hkey h1).1] at h2
    cases h2
  have hc3 : ¬ ((dev.regions (o / REGION_SIZE)).locked ≠ 0 ∧
      k ≠ (dev.regions (o / REGION_SIZE)).lock_key) := by
    rintro ⟨h1, h2⟩
    exact h2 (hkey h1).2
  obtain ⟨dev1, dev2, l1, l2, _, _, l5, _, _, _, _, _⟩ := lock_then_down dev _ hm hs
  have e1 : write_loop data_ptr TOTAL_REGIONS
      ⟨dev2, o / REGION_SIZE, o % REGION_SIZE, strlen data_ptr, 0⟩ =
      some (write_chunk data_ptr ⟨dev2, o / REGION_SIZE, o % REGION_SIZE, strlen data_ptr, 0⟩) :=
    write_loop_single data_ptr 7 _ hlen (by simp only; omega) (Nat.lt_of_not_le hr2)
  have hrn : (write_chunk data_ptr
      ⟨dev2, o / REGION_SIZE, o % REGION_SIZE, strlen data_ptr, 0⟩).region_num ≠ 0 := by
    simp [write_chunk]
  have hsem : (dev.regions (o / REGION_SIZE)).read_sem - 1 + 1 =
      (dev.regions (o / REGION_SIZE)).read_sem := by omega
  intro w h
  simp only [write_commit, hr1, hr2, hc1, hc2, hc3, if_false, Int.toNat_ofNat, l1, l2, e1, hrn] at h
  cases h
  constructor
  · simp [mutex_unlock, up, write_chunk, l5, hsem]
  · simp [mutex_unlock, up, write_chunk]

/-! ## The chunk loop of the read -/

/-- A read that lies within one region takes one pass: it returns the
requested bytes of that region and moves the cursor behind them. -/
theorem block_dev_read_single (dev : vblock_device) (env : Env) (count o : Nat)
    (ho : o < TOTAL_SIZE) (hc : 0 < count) (hfit : o % REGION_SIZE + count ≤ REGION_SIZE)
    (hs : (dev.regions (o / REGION_SIZE)).read_sem ≠ 0)
    (hcopy : env.copy_to_user_fails 0 = false) :
    ∃ dev', block_dev_read dev env count (o : Int) =
      .ret ⟨(count : Int),
        (List.range count).map (fun j => (dev.regions (o / REGION_SIZE)).data (o % REGION_SIZE + j)),
        (o : Int) + (count : Int), dev'⟩ := by
  obtain ⟨hr1, hr2⟩ := offset_in_range o ho
  have hr1a : ¬ (TOTAL_SIZE : Int) ≤ (o : Int) := fun h => hr1 (Or.inr h)
  have hr1b : ¬ (o : Int) < 0 := fun h => hr1 (Or.inl h)
  have hto : min count (TOTAL_SIZE - o) = count := by
    simp only [TOTAL_SIZE, REGION_SIZE, TOTAL_REGIONS] at *
    omega
  have hchunk : min (REGION_SIZE - o % REGION_SIZE) count = count := by omega
  have hcZ : (0 : Int) < (count : Int) := by exact_mod_cast hc
  have e : read_loop env TOTAL_REGIONS ⟨dev, o / REGION_SIZE, o % REGION_SIZE, count, 0, []⟩ =
      .ret (none,
        ⟨up (set_region dev (o / REGION_SIZE)
            { dev.regions (o / REGION_SIZE) with
              read_sem := (dev.regions (o / REGION_SIZE)).read_sem - 1 }) (o / REGION_SIZE),
          o / REGION_SIZE + 1, 0, 0, count,
          (List.range count).map
            (fun j => (dev.regions (o / REGION_SIZE)).data (o % REGION_SIZE + j))⟩) := by
    show read_loop env (7 + 1) _ = _
    simp only [read_loop, hc, Nat.lt_of_not_le hr2, and_self, if_true, read_chunk,
      down_available dev _ hs, hcopy, Bool.false_eq_true, if_false, hchunk, Nat.sub_self,
      Nat.zero_add, List.nil_append, set_region_regions]
    cases (7 : Nat) <;> simp [read_loop]
  refine ⟨up (set_region dev (o / REGION_SIZE)
    { dev.regions (o / REGION_SIZE) with
      read_sem := (dev.regions (o / REGION_SIZE)).read_sem - 1 }) (o / REGION_SIZE), ?_⟩
  simp only [block_dev_read, hr1a, hr1b, if_false, Int.toNat_ofNat, hto, e, hcZ, hc, if_true]

/-! ## Decimal renderings are tokens -/

theorem decimal_digits_isdigit : ∀ (fuel n c : Nat), c ∈ decimal_digits fuel n → isdigit c = true := by
  intro fuel
  induction fuel with
  | zero =>
    intro n c h
    simp [decimal_digits] at h
  | succ fuel ih =>
    intro n c h
    simp only [decimal_digits] at h
    split at h
    · simp only [List.mem_singleton] at h
      subst h
      simp only [isdigit, Bool.and_eq_true, decide_eq_true_eq]
      omega
    · rcases List.mem_append.1 h with h | h
      · exact ih _ _ h
      · simp only [List.mem_singleton] at h
        subst h
        simp only [isdigit, Bool.and_eq_true, decide_eq_true_eq]
        omega

theorem parse_integer_decimal_digits : ∀ (fuel n : Nat), n < 10 ^ fuel →
    ∀ (acc cnt : Nat) (rest : List Nat),
      parse_integer (decimal_digits fuel n ++ rest) acc cnt =
        parse_integer rest (acc * 10 ^ (decimal_digits fuel n).length + n)
          (cnt + (decimal_digits fuel n).length) := by
  intro fuel
  induction fuel with
  | zero =>
    intro n h acc cnt rest
    simp only [pow_zero, Nat.lt_one_iff] at h
    subst h
    simp [decimal_digits]
  | succ fuel ih =>
    intro n h acc cnt rest
    simp only [decimal_digits]
    split
    · rename_i hn
      have hd : isdigit (48 + n) = true := by
        simp only [isdigit, Bool.and_eq_true, decide_eq_true_eq]
        omega
      simp only [List.singleton_append, parse_integer, hd, if_true, List.length_singleton,
        pow_one]
      congr 2
      omega
    · rename_i hn
      have hlt : n / 10 < 10 ^ fuel := by
        rw [pow_succ] at h
        omega
      have hd : isdigit (48 + n % 10) = true := by
        simp only [isdigit, Bool.and_eq_true, decide_eq_true_eq]
        omega
      rw [List.append_assoc, ih (n / 10) hlt]
      simp only [List.singleton_append, parse_integer, hd, if_true, List.length_append,
        List.length_singleton]
      congr 1
      · rw [pow_succ]
        have e : 48 + n % 10 - 48 = n % 10 := by omega
        rw [e]
        have e2 : n = n / 10 * 10 + n % 10 := by omega
        generalize 10 ^ (decimal_digits fuel (n / 10)).length = P at *
        generalize n / 10 = q at *
        generalize n % 10 = m at *
        subst e2
        ring

theorem decimal_ne_nil (n : Nat) : ∃ c t, decimal n = c :: t ∧ isdigit c = true := by
  have hne : decimal n ≠ [] := by
    simp only [decimal, decimal_digits]
    split <;> simp
  rcases hd : decimal n with _ | ⟨c, t⟩
  · exact absurd hd hne
  · refine ⟨c, t, rfl, ?_⟩
    apply decimal_digits_isdigit (n + 1) n
    show c ∈ decimal n
    rw [hd]
    exact List.mem_cons_self c t

theorem kstrtoull_digits_decimal (n : Nat) (h : n < 2 ^ 64) :
    kstrtoull_digits (decimal n) = some n := by
  have hfuel : n < 10 ^ (n + 1) :=
    Nat.lt_of_lt_of_le (Nat.lt_pow_self (by decide) n) (Nat.pow_le_pow_right (by decide) (by omega))
  have hp := parse_integer_decimal_digits (n + 1) n hfuel 0 0 []
  simp only [List.append_nil, Nat.zero_mul, Nat.zero_add, parse_integer] at hp
  obtain ⟨c, t, hc, _⟩ := decimal_ne_nil n
  have hlen : (decimal n).length ≠ 0 := by
    rw [hc]
    simp
  unfold kstrtoull_digits
  simp only [decimal] at hlen ⊢
  rw [hp]
  simp only [hlen, if_false]
  have h' : ¬ 2 ^ 64 ≤ n := by omega
  simp only [h', if_false]
  rfl

/-- The decimal rendering of an offset below `2 ^ 63` is accepted by
`kstrtoll` with that value. -/
theorem kstrtoll_decimal (n : Nat) (h : n < 2 ^ 63) : kstrtoll (decimal n) = some (n : Int) := by
  obtain ⟨c, t, hc, hd⟩ := decimal_ne_nil n
  have hc' := isdigit_ne c hd
  simp only [isdigit, Bool.and_eq_true, decide_eq_true_eq] at hd
  have hu : kstrtoull (decimal n) = some n := by
    have := kstrtoull_digits_decimal n (by omega)
    unfold kstrtoull
    split
    · rename_i t' heq
      rw [hc] at heq
      simp only [List.cons.injEq] at heq
      omega
    · exact this
  unfold kstrtoll
  split
  · rename_i t' heq
    rw [hc] at heq
    simp only [List.cons.injEq] at heq
    omega
  · rw [hu]
    have h' : ¬ 2 ^ 63 ≤ n := by omega
    simp only [h', if_false]

/-- The decimal rendering of a key below `2 ^ 31` is accepted by `kstrtoint`
with that value. -/
theorem kstrtoint_decimal (n : Nat) (h : n < 2 ^ 31) : kstrtoint (decimal n) = some (n : Int) := by
  unfold kstrtoint
  rw [kstrtoll_decimal n (by omega)]
  have h1 : -(2 ^ 31) ≤ (n : Int) ∧ (n : Int) < 2 ^ 31 := by
    constructor
    · omega
    · exact_mod_cast h
  simp only [h1, and_self, if_true]

/-! ## Writes to locked regions -/

/-- A keyed write `<key>:<offset>:<data>` whose offset lies in a locked region
fails with `-EACCES` when the key is not in the allow-list and with `-EPERM`
when the key is allowed but is not the region's lock key; in both cases the
device handed back is the device as it was, so no region byte and no mirror
byte has changed. -/
theorem keyed_write_locked_key_check (dev : vblock_device) (env : Env) (ktok otok data : List Nat)
    (k : Int) (o : Nat) (lofft : Int)
    (h1 : env.write_alloc_fails = false) (h2 : env.copy_from_user_fails = false)
    (h3 : env.parse_alloc_fails = false)
    (hk : kstrtoint ktok = some k) (ho : kstrtoll otok = some (o : Int))
    (hrange : o < TOTAL_SIZE) (hl : (dev.regions (o / REGION_SIZE)).locked ≠ 0) :
    (is_valid_key dev k = false →
      block_dev_write dev env (ktok ++ 58 :: (otok ++ 58 :: data)) lofft =
        .ret ⟨-EACCES, dev, (o : Int)⟩) ∧
    (is_valid_key dev k = true → k ≠ (dev.regions (o / REGION_SIZE)).lock_key →
      block_dev_write dev env (ktok ++ 58 :: (otok ++ 58 :: data)) lofft =
        .ret ⟨-EPERM, dev, (o : Int)⟩) := by
  obtain ⟨hr1, hr2⟩ := offset_in_range o hrange
  rw [block_dev_write_keyed dev env ktok otok data k o lofft h1 h2 h3 hk ho]
  constructor
  · intro hv
    simp only [write_commit, hr1, hr2, if_false, Int.toNat_ofNat]
    simp [hl, hv]
  · intro hv hne
    simp only [write_commit, hr1, hr2, if_false, Int.toNat_ofNat]
    simp [hl, hv, hne]

theorem keyed_write_locked_key_check_example :
    block_dev_write scenario_locked Env.quiet (bytes "999:0:HELLO") 0 =
        .ret ⟨-EACCES, scenario_locked, 0⟩ ∧
      block_dev_write scenario_locked_one Env.quiet (bytes "1000:512:HELLO") 0 =
        .ret ⟨-EPERM, scenario_locked_one, 512⟩ :=
  ⟨(keyed_write_locked_key_check scenario_locked Env.quiet (bytes "999") (bytes "0") (bytes "HELLO")
      999 0 0 rfl rfl rfl (by decide) (by decide) (by decide) (by decide)).1 (by decide),
    (keyed_write_locked_key_check scenario_locked_one Env.quiet (bytes "1000") (bytes "512")
      (bytes "HELLO") 1000 512 0 rfl rfl rfl (by decide) (by decide) (by decide) (by decide)).2
      (by decide) (by decide)⟩

/-! ## Payloads without a key -/

/-- A payload that is one integer token is taken as a key without an offset
and rejected as malformed. -/
theorem block_dev_write_single_token (dev : vblock_device) (env : Env) (tok : List Nat)
    (k lofft : Int)
    (h1 : env.write_alloc_fails = false) (h2 : env.copy_from_user_fails = false)
    (h3 : env.parse_alloc_fails = false) (hk : kstrtoint tok = some k) :
    block_dev_write dev env tok lofft = .ret ⟨-EINVAL, dev, lofft⟩ := by
  have hb := kstrtoll_bytes tok k (kstrtoint_kstrtoll tok k hk)
  have htake : (tok ++ [0]).take tok.length = tok := by
    rw [List.take_append_of_le_length (le_refl _), List.take_length]
  have hp : parse_write_data env (tok ++ [0]) tok.length lofft 0 = ⟨-EINVAL, lofft, k⟩ := by
    simp only [parse_write_data, h3, Bool.false_eq_true, if_false, htake, strsep,
      strsep_scan_nul tok [] hb, Option.getD_some, hk]
  simp only [block_dev_write, h1, h2, Bool.false_eq_true, if_false, hp]
  simp [neg_errno_lt_zero.1]

/-- A payload of two fields whose second field is not an integer is rejected
as malformed: the first field is taken as the key. -/
theorem block_dev_write_bad_offset (dev : vblock_device) (env : Env) (tok rest : List Nat)
    (k lofft : Int)
    (h1 : env.write_alloc_fails = false) (h2 : env.copy_from_user_fails = false)
    (h3 : env.parse_alloc_fails = false) (hk : kstrtoint tok = some k)
    (hrest : kstrtoll (strsep_scan (rest ++ [0])).1 = none) :
    block_dev_write dev env (tok ++ 58 :: rest) lofft = .ret ⟨-EINVAL, dev, lofft⟩ := by
  have hb := kstrtoll_bytes tok k (kstrtoint_kstrtoll tok k hk)
  have e : (tok ++ 58 :: rest) ++ [0] = tok ++ 58 :: (rest ++ [0]) := by simp
  have htake : ((tok ++ 58 :: rest) ++ [0]).take (tok ++ 58 :: rest).length = tok ++ 58 :: rest := by
    rw [List.take_append_of_le_length (le_refl _), List.take_length]
  have hp : parse_write_data env ((tok ++ 58 :: rest) ++ [0]) (tok ++ 58 :: rest).length lofft 0 =
      ⟨-EINVAL, lofft, k⟩ := by
    simp only [parse_write_data, h3, Bool.false_eq_true, if_false, htake]
    rw [e]
    simp only [strsep, strsep_scan_colon tok _ hb, Option.getD_some, hk, hrest]
  simp only [block_dev_write, h1, h2, Bool.false_eq_true, if_false, hp]
  simp [neg_errno_lt_zero.1]

/-- Claim C4, as the code has it: a write whose payload gives an offset and
data but no key, `<offset>:<data>` with data that does not begin with an
integer field (`0:HELLO`), is rejected as malformed with `-EINVAL`, not with
`-EACCES`: the offset field is taken as the key and the data as the offset.
This holds whether or not the addressed region is locked, and neither the
device nor the cursor changes. -/
theorem keyless_data_write_is_malformed (dev : vblock_device) (env : Env) (o : Nat)
    (data : List Nat) (lofft : Int)
    (h1 : env.write_alloc_fails = false) (h2 : env.copy_from_user_fails = false)
    (h3 : env.parse_alloc_fails = false) (ho : o < TOTAL_SIZE)
    (hdata : kstrtoll (strsep_scan (data ++ [0])).1 = none) :
    block_dev_write dev env (decimal o ++ 58 :: data) lofft = .ret ⟨-EINVAL, dev, lofft⟩ := by
  have hk : kstrtoint (decimal o) = some (o : Int) := by
    apply kstrtoint_decimal
    simp only [TOTAL_SIZE, REGION_SIZE, TOTAL_REGIONS] at ho
    omega
  exact block_dev_write_bad_offset dev env (decimal o) data o lofft h1 h2 h3 hk hdata

theorem keyless_data_write_is_malformed_witness :
    block_dev_write scenario_locked Env.quiet (bytes "0:HELLO") 0 =
      .ret ⟨-EINVAL, scenario_locked, 0⟩ :=
  keyless_data_write_is_malformed scenario_locked Env.quiet 0 (bytes "HELLO") 0 rfl rfl rfl
    (by decide) (by decide)

/-- The write `0:HELLO` to the locked region 0 of the scenario device does not
fail with `-EACCES`: it fails with `-EINVAL`. -/
theorem keyless_data_write_not_access_denied :
    write_ret (block_dev_write scenario_locked Env.quiet (bytes "0:HELLO") 0) = some (-EINVAL) ∧
      write_ret (block_dev_write scenario_locked Env.quiet (bytes "0:HELLO") 0) ≠ some (-EACCES) := by
  decide

/-- Claim C5, evaluated on the code: a write whose payload is just the decimal
offset `o` of a device byte returns `-EINVAL` in every device state, so also
when the addressed region is locked; the `-EACCES` return for a write without
a key is not reached. -/
theorem offset_only_write_is_malformed (dev : vblock_device) (env : Env) (o : Nat) (lofft : Int)
    (h1 : env.write_alloc_fails = false) (h2 : env.copy_from_user_fails = false)
    (h3 : env.parse_alloc_fails = false) (ho : o < TOTAL_SIZE) :
    block_dev_write dev env (decimal o) lofft = .ret ⟨-EINVAL, dev, lofft⟩ := by
  have hk : kstrtoint (decimal o) = some (o : Int) := by
    apply kstrtoint_decimal
    simp only [TOTAL_SIZE, REGION_SIZE, TOTAL_REGIONS] at ho
    omega
  exact block_dev_write_single_token dev env (decimal o) o lofft h1 h2 h3 hk

theorem offset_only_write_is_malformed_witness :
    (scenario_locked.regions 0).locked ≠ 0 ∧
      block_dev_write scenario_locked Env.quiet (bytes "0") 0 =
        .ret ⟨-EINVAL, scenario_locked, 0⟩ :=
  ⟨by decide,
    offset_only_write_is_malformed scenario_locked Env.quiet 0 0 rfl rfl rfl (by decide)⟩

/-! ## Writes that store -/

theorem strlen_append_nul (data : List Nat) (h : ∀ c ∈ data, c ≠ 0) :
    strlen (data ++ [0]) = data.length := by
  simp only [strlen, cstr_append_nul data h]

/-- A keyed write `<key>:<offset>:<data>` with non-empty data free of zero
bytes that fits the device, to a region that is unlocked or whose lock key is
the key presented and allowed: it returns the data length, moves the cursor
behind the data, stores the data at the offset and leaves every other device
byte and every lock flag and key as they were. -/
theorem keyed_write_stores (dev : vblock_device) (env : Env) (ktok otok data : List Nat)
    (k : Int) (o : Nat) (lofft : Int)
    (h1 : env.write_alloc_fails = false) (h2 : env.copy_from_user_fails = false)
    (h3 : env.parse_alloc_fails = false)
    (hk : kstrtoint ktok = some k) (ho : kstrtoll otok = some (o : Int))
    (hkey : (dev.regions (o / REGION_SIZE)).locked ≠ 0 →
      is_valid_key dev k = true ∧ k = (dev.regions (o / REGION_SIZE)).lock_key)
    (hm : (dev.regions (o / REGION_SIZE)).region_mutex = false)
    (hs : (dev.regions (o / REGION_SIZE)).read_sem ≠ 0)
    (hnul : ∀ c ∈ data, c ≠ 0) (hne : data ≠ []) (hfit : o + data.length ≤ TOTAL_SIZE) :
    ∃ dev', block_dev_write dev env (ktok ++ 58 :: (otok ++ 58 :: data)) lofft =
        .ret ⟨(data.length : Int), dev', (o : Int) + (data.length : Int)⟩ ∧
      (∀ i, i < data.length → byte_at dev' (o + i) = data.getD i 0) ∧
      (∀ x, x < o ∨ o + data.length ≤ x → byte_at dev' x = byte_at dev x) ∧
      (∀ i, (dev'.regions i).locked = (dev.regions i).locked ∧
        (dev'.regions i).lock_key = (dev.regions i).lock_key) := by
  have hlen : 0 < data.length := List.length_pos.2 hne
  have hsl := strlen_append_nul data hnul
  have hrange : o < TOTAL_SIZE := by omega
  obtain ⟨dev', e1, e2, e3, _, _, _⟩ := write_commit_stores dev env k o (data ++ [0]) hrange hkey
    hm hs (by rw [hsl]; exact hlen)
  have hmin : min (strlen (data ++ [0])) (TOTAL_SIZE - o) = data.length := by
    rw [hsl]
    omega
  rw [hmin] at e1 e2
  refine ⟨dev', ?_, ?_, ?_, e3⟩
  · rw [block_dev_write_keyed dev env ktok otok data k o lofft h1 h2 h3 hk ho]
    exact e1
  · intro i hi
    rw [e2, if_pos (by omega), getD_append_nul]
    congr 1
    omega
  · intro x hx
    rw [e2, if_neg (by omega)]

/-- Claim C3, as the code has it: with region `r` locked under the key
`r + 1000` of a lock request and `r + 1000` in the allow-list, the write
`<r+1000>:<o>:<data>` for an offset `o` inside `r` and non-empty data without
zero bytes that ends within the device returns the number of data bytes,
moves the cursor behind them and stores the data at offset `o`, leaving every
other byte as it was (the allocations and the user copy succeed, the region's
mutex is free and its gate has a slot). -/
theorem keyed_write_to_locked_region_stores (dev : vblock_device) (env : Env) (r o : Nat)
    (data : List Nat) (lofft : Int)
    (h1 : env.write_alloc_fails = false) (h2 : env.copy_from_user_fails = false)
    (h3 : env.parse_alloc_fails = false)
    (hr : r < TOTAL_REGIONS) (hor : o / REGION_SIZE = r)
    (hl : (dev.regions r).locked ≠ 0) (hlk : (dev.regions r).lock_key = (r : Int) + 1000)
    (hv : is_valid_key dev ((r : Int) + 1000) = true)
    (hm : (dev.regions r).region_mutex = false) (hs : 0 < (dev.regions r).read_sem)
    (hnul : ∀ c ∈ data, c ≠ 0) (hne : data ≠ []) (hfit : o + data.length ≤ TOTAL_SIZE) :
    ∃ dev', block_dev_write dev env (decimal (r + 1000) ++ 58 :: (decimal o ++ 58 :: data)) lofft =
        .ret ⟨(data.length : Int), dev', (o : Int) + (data.length : Int)⟩ ∧
      (∀ i, i < data.length → byte_at dev' (o + i) = data.getD i 0) ∧
      (∀ x, x < o ∨ o + data.length ≤ x → byte_at dev' x = byte_at dev x) ∧
      (∀ i, (dev'.regions i).locked = (dev.regions i).locked ∧
        (dev'.regions i).lock_key = (dev.regions i).lock_key) := by
  have hk : kstrtoint (decimal (r + 1000)) = some ((r : Int) + 1000) := by
    have := kstrtoint_decimal (r + 1000) (by simp only [TOTAL_REGIONS] at hr; omega)
    rw [this]
    push_cast
    rfl
  have ho : kstrtoll (decimal o) = some (o : Int) := by
    apply kstrtoll_decimal
    simp only [TOTAL_SIZE, REGION_SIZE, TOTAL_REGIONS] at hfit
    omega
  subst hor
  exact keyed_write_stores dev env (decimal (o / REGION_SIZE + 1000)) (decimal o) data _ o lofft
    h1 h2 h3 hk ho (fun _ => ⟨hv, hlk.symm⟩) hm (by omega) hnul hne hfit

theorem keyed_write_to_locked_region_stores_witness :
    ∃ dev', block_dev_write scenario_locked Env.quiet (bytes "1000:0:HELLO") 0 =
        .ret ⟨5, dev', 5⟩ ∧
      (∀ i, i < 5 → byte_at dev' (0 + i) = (bytes "HELLO").getD i 0) ∧
      (∀ x, x < 0 ∨ 0 + 5 ≤ x → byte_at dev' x = byte_at scenario_locked x) ∧
      (∀ i, (dev'.regions i).locked = (scenario_locked.regions i).locked ∧
        (dev'.regions i).lock_key = (scenario_locked.regions i).lock_key) :=
  keyed_write_to_locked_region_stores scenario_locked Env.quiet 0 0 (bytes "HELLO") 0 rfl rfl rfl
    (by decide) (by decide) (by decide) (by decide) (by decide) (by decide) (by decide)
    (by decide) (by decide) (by decide)

/-- The keyed write to a locked region does not always store its data and
return the data length: data with a zero byte is cut at that byte (1 is
returned for 3 data bytes and the third is not stored), data that runs past
the end of the device is cut there (6 is returned for 10 data bytes), and
empty data to region 0 has no defined result. -/
theorem keyed_write_to_locked_region_not_always_whole :
    (write_ret (block_dev_write scenario_locked Env.quiet (bytes "1000:0:" ++ [65, 0, 66]) 0) =
        some 1 ∧
      byte_at (after_write scenario_locked Env.quiet (bytes "1000:0:" ++ [65, 0, 66]) 0) 2 = 0) ∧
    write_ret (block_dev_write scenario_locked_last Env.quiet (bytes "1007:4090:HELLOWORLD") 0) =
      some 6 ∧
    block_dev_write scenario_locked Env.quiet (bytes "1000:0:") 0 = .undefined :=
  ⟨by decide, by decide, rfl⟩

/-! ## Unlock, write, read -/

/-- The unlock request on an in-range region returns 0 and leaves the region
unlocked with `lock_key = 0`; nothing else changes. -/
theorem unlock_request_effect (dev : vblock_device) (env : Env) (r : Nat)
    (hr : r < TOTAL_REGIONS) (hcopy : env.copy_from_user_fails = false)
    (hm : (dev.regions r).region_mutex = false) :
    ∃ dev', block_dev_ioctl dev env .VBLOCK_UNLOCK_REGION (r : Int) = .ret ⟨0, dev', none, none⟩ ∧
      (dev'.regions r).locked = 0 ∧
      ((dev.regions r).locked ≠ 0 → (dev'.regions r).lock_key = 0) ∧
      ((dev.regions r).locked = 0 → dev' = dev) ∧
      (dev'.regions r).data = (dev.regions r).data ∧
      (dev'.regions r).region_mutex = false ∧
      (dev'.regions r).read_sem = (dev.regions r).read_sem ∧
      (∀ i, i ≠ r → dev'.regions i = dev.regions i) ∧
      dev'.mirror_buffer = dev.mirror_buffer ∧ dev'.mirror_enable = dev.mirror_enable ∧
      dev'.user_keys = dev.user_keys ∧ dev'.key_count = dev.key_count := by
  by_cases hl : (dev.regions r).locked = 0
  · have hl' : ¬ (dev.regions r).locked ≠ 0 := fun h => h hl
    refine ⟨dev, ?_, hl, fun h => absurd hl h, fun _ => rfl, rfl, hm, rfl, fun _ _ => rfl, rfl,
      rfl, rfl, rfl⟩
    simp only [block_dev_ioctl, hcopy, Bool.false_eq_true, if_false, region_index_in_range r hr,
      Int.toNat_ofNat, mutex_lock_free dev r hm, set_region_regions, if_true, hl',
      mutex_unlock_after_lock dev r hm]
  · have hcall : block_dev_ioctl dev env .VBLOCK_UNLOCK_REGION (r : Int) =
        .ret ⟨0, set_region dev r { dev.regions r with locked := 0, lock_key := 0 },
          none, none⟩ := by
      simp only [block_dev_ioctl, hcopy, Bool.false_eq_true, if_false, region_index_in_range r hr,
        Int.toNat_ofNat, mutex_lock_free dev r hm]
      simp only [set_region_regions, if_true, ne_eq, hl, not_false_eq_true]
      congr 2
      apply device_ext <;> simp [mutex_unlock]
      intro i
      split
      · rename_i hi
        subst hi
        simp [hm]
      · rfl
    refine ⟨_, hcall, ?_, ?_, ?_, ?_, ?_, ?_, ?_, rfl, rfl, rfl, rfl⟩
    · simp
    · intro _
      simp
    · intro h
      exact absurd h hl
    · simp
    · simp [hm]
    · simp
    · intro i hi
      simp [hi]

theorem range_map_getD (l : List Nat) : (List.range l.length).map (fun j => l.getD j 0) = l := by
  apply List.ext_getElem
  · simp
  · intro n h1 h2
    simp [List.getElem?_eq_getElem h2]

/-- A read of no bytes inside the device returns nothing and leaves the
cursor where it was. -/
theorem block_dev_read_zero (dev : vblock_device) (env : Env) (o : Nat) (ho : o < TOTAL_SIZE) :
    block_dev_read dev env 0 (o : Int) = .ret ⟨0, [], (o : Int), dev⟩ := by
  obtain ⟨hr1, _⟩ := offset_in_range o ho
  have hr1a : ¬ (TOTAL_SIZE : Int) ≤ (o : Int) := fun h => hr1 (Or.inr h)
  have hr1b : ¬ (o : Int) < 0 := fun h => hr1 (Or.inl h)
  have e : ∀ s : ReadLoop, s.to_read = 0 → read_loop env TOTAL_REGIONS s = .ret (none, s) := by
    intro s hs
    show read_loop env (7 + 1) s = _
    simp [read_loop, hs]
  simp only [block_dev_read, hr1a, hr1b, if_false, Nat.zero_min]
  rw [e _ rfl]
  simp

/-- Bytes that a device holds within one region, behind an available gate, are
what a read of that range returns. -/
theorem read_back_stored (dev : vblock_device) (env : Env) (data : List Nat) (o : Nat)
    (ho : o < TOTAL_SIZE) (hpos : 0 < data.length)
    (hfit : o % REGION_SIZE + data.length ≤ REGION_SIZE)
    (hs : (dev.regions (o / REGION_SIZE)).read_sem ≠ 0)
    (hcopy : env.copy_to_user_fails 0 = false)
    (hb : ∀ i, i < data.length → byte_at dev (o + i) = data.getD i 0) :
    ∃ dev2, block_dev_read dev env data.length (o : Int) =
      .ret ⟨(data.length : Int), data, (o : Int) + (data.length : Int), dev2⟩ := by
  obtain ⟨dev2, hread⟩ := block_dev_read_single dev env data.length o ho hpos hfit hs hcopy
  refine ⟨dev2, ?_⟩
  rw [hread]
  have hmap : (List.range data.length).map
      (fun j => (dev.regions (o / REGION_SIZE)).data (o % REGION_SIZE + j)) =
      (List.range data.length).map (fun j => data.getD j 0) := by
    apply List.map_congr_left
    intro j hj
    have hj' : j < data.length := List.mem_range.1 hj
    rw [← hb j hj']
    simp only [byte_at]
    have e4 : (o + j) / REGION_SIZE = o / REGION_SIZE := by
      simp only [REGION_SIZE] at *
      omega
    have e5 : (o + j) % REGION_SIZE = o % REGION_SIZE + j := by
      simp only [REGION_SIZE] at *
      omega
    rw [e4, e5]
  rw [hmap, range_map_getD]

/-- The device an accepted keyed write leaves when its non-empty data, free of
zero bytes, lies within one region: the data is stored at the offset and the
gate of the region has its slot again. -/
theorem accepted_write_state (dev : vblock_device) (env : Env)
    (ktok otok data : List Nat) (k : Int) (o : Nat) (lofft : Int) (w : WriteResult)
    (hk : kstrtoint ktok = some k) (ho : kstrtoll otok = some (o : Int))
    (hnul : ∀ c ∈ data, c ≠ 0) (hpos : 0 < data.length)
    (hfit : o % REGION_SIZE + data.length ≤ REGION_SIZE)
    (hw : block_dev_write dev env (ktok ++ 58 :: (otok ++ 58 :: data)) lofft = .ret w)
    (hacc : 0 ≤ w.ret) :
    o < TOTAL_SIZE ∧ (w.dev.regions (o / REGION_SIZE)).read_sem ≠ 0 ∧
      ∀ i, i < data.length → byte_at w.dev (o + i) = data.getD i 0 := by
  have hc := block_dev_write_keyed_accepted dev env ktok otok data k o lofft w hk ho hw hacc
  obtain ⟨_, a2, a3, a4, a5⟩ := write_commit_accepted dev env _ _ w hc hacc
  simp only [Int.toNat_ofNat] at a2 a3 a4 a5
  have hrange : o < TOTAL_SIZE := by exact_mod_cast a2
  have hsl := strlen_append_nul data hnul
  have hfit2 : o + data.length ≤ TOTAL_SIZE := by
    simp only [TOTAL_SIZE, REGION_SIZE, TOTAL_REGIONS] at *
    omega
  obtain ⟨dev', e1, e2, _⟩ := write_commit_stores dev env k o (data ++ [0]) hrange a3 a4 a5
    (by rw [hsl]; exact hpos)
  obtain ⟨r1, _⟩ := write_commit_single_releases dev env k o (data ++ [0]) hrange a3 a4 a5
    (by rw [hsl]; exact hpos) (by rw [hsl]; exact hfit) w hc
  rw [hc] at e1
  have hwdev : w.dev = dev' := by
    cases e1
    rfl
  refine ⟨hrange, ?_, ?_⟩
  · rw [r1]
    exact a5
  · intro i hi
    rw [hwdev, e2, hsl, if_pos (by omega), getD_append_nul]
    congr 1
    omega

/-- Claim C1, as the code has it: after an accepted keyed write
`<key>:<o>:<data>` of data without zero bytes whose range `[o, o + n)` lies
within one region, the read at offset `o` with length `n` returns `n` bytes
that are exactly the data and moves the cursor behind them (the copy to the
reader's buffer succeeds). -/
theorem write_then_read_round_trip (dev : vblock_device) (env env2 : Env)
    (ktok otok data : List Nat) (k : Int) (o : Nat) (lofft : Int) (w : WriteResult)
    (hk : kstrtoint ktok = some k) (ho : kstrtoll otok = some (o : Int))
    (hnul : ∀ c ∈ data, c ≠ 0) (hfit : o % REGION_SIZE + data.length ≤ REGION_SIZE)
    (hw : block_dev_write dev env (ktok ++ 58 :: (otok ++ 58 :: data)) lofft = .ret w)
    (hacc : 0 ≤ w.ret) (hcopy : env2.copy_to_user_fails 0 = false) :
    ∃ dev2, block_dev_read w.dev env2 data.length (o : Int) =
      .ret ⟨(data.length : Int), data, (o : Int) + (data.length : Int), dev2⟩ := by
  by_cases hlen : data.length = 0
  · have hc := block_dev_write_keyed_accepted dev env ktok otok data k o lofft w hk ho hw hacc
    obtain ⟨_, a2, _⟩ := write_commit_accepted dev env _ _ w hc hacc
    simp only at a2
    have hrange : o < TOTAL_SIZE := by exact_mod_cast a2
    have hd : data = [] := List.length_eq_zero.1 hlen
    subst hd
    refine ⟨w.dev, ?_⟩
    rw [List.length_nil, block_dev_read_zero w.dev env2 o hrange]
    simp
  · have hpos : 0 < data.length := Nat.pos_of_ne_zero hlen
    obtain ⟨hrange, hs, hb⟩ := accepted_write_state dev env ktok otok data k o lofft w hk ho hnul
      hpos hfit hw hacc
    exact read_back_stored w.dev env2 data o hrange hpos hfit hs hcopy hb

theorem write_then_read_round_trip_witness :
    ∃ dev2, block_dev_read (after_write scenario_init Env.quiet (bytes "7:100:HELLO") 0)
        Env.quiet 5 ((100 : Nat) : Int) =
      .ret ⟨5, bytes "HELLO", ((100 : Nat) : Int) + 5, dev2⟩ :=
  write_then_read_round_trip scenario_init Env.quiet Env.quiet (bytes "7") (bytes "100")
    (bytes "HELLO") 7 100 0
    ⟨5, after_write scenario_init Env.quiet (bytes "7:100:HELLO") 0, 105⟩
    (by decide) (by decide) (by decide) (by decide) rfl (by decide) rfl

/-- Write then read does not always give the data back. Data with a zero byte
is stored up to that byte only: the write of the three bytes 65, 0, 66 at
offset 0 returns 1 and the read of three bytes gives 65, 0, 0. And a write
that crosses a region boundary leaves the gate of its first region taken: the
write of `HELLO` at offset 510 returns 5, and the read of the same range then
sleeps on the gate of region 0 instead of returning. -/
theorem write_then_read_not_always_round_trip :
    (write_ret (block_dev_write scenario_init Env.quiet (bytes "7:0:" ++ [65, 0, 66]) 0) = some 1 ∧
      read_out (block_dev_read
        (after_write scenario_init Env.quiet (bytes "7:0:" ++ [65, 0, 66]) 0) Env.quiet 3 0) =
        some [65, 0, 0]) ∧
    (write_ret (block_dev_write scenario_init Env.quiet (bytes "7:510:HELLO") 0) = some 5 ∧
      block_dev_read (after_write scenario_init Env.quiet (bytes "7:510:HELLO") 0)
        Env.quiet 5 510 = .blocked) :=
  ⟨by decide, by decide, rfl⟩

/-- Claim C6, as the code has it: after a lock request and then an unlock
request on region `r`, no key having been presented, a write into `r` in the
keyed form `<k>:<o>:<data>` with any integer `k` whatever (non-empty data
without zero bytes inside the region) returns the data length and stores the
data, and the read of that range returns the data (the allocations and user
copies succeed, the region's mutex is free and its gate has a slot). -/
theorem lock_unlock_then_write_reads_back (dev : vblock_device) (env : Env) (r : Nat)
    (ktok otok data : List Nat) (k : Int) (o : Nat) (lofft : Int)
    (h1 : env.write_alloc_fails = false) (h2 : env.copy_from_user_fails = false)
    (h3 : env.parse_alloc_fails = false) (h4 : env.copy_to_user_fails 0 = false)
    (hr : r < TOTAL_REGIONS) (hm : (dev.regions r).region_mutex = false)
    (hs : 0 < (dev.regions r).read_sem)
    (hk : kstrtoint ktok = some k) (ho : kstrtoll otok = some (o : Int))
    (hor : o / REGION_SIZE = r)
    (hnul : ∀ c ∈ data, c ≠ 0) (hne : data ≠ [])
    (hfit : o % REGION_SIZE + data.length ≤ REGION_SIZE) :
    ∃ d1 d2 d3 d4,
      block_dev_ioctl dev env .VBLOCK_LOCK_REGION (r : Int) = .ret ⟨0, d1, none, none⟩ ∧
      block_dev_ioctl d1 env .VBLOCK_UNLOCK_REGION (r : Int) = .ret ⟨0, d2, none, none⟩ ∧
      block_dev_write d2 env (ktok ++ 58 :: (otok ++ 58 :: data)) lofft =
        .ret ⟨(data.length : Int), d3, (o : Int) + (data.length : Int)⟩ ∧
      (∀ i, i < data.length → byte_at d3 (o + i) = data.getD i 0) ∧
      block_dev_read d3 env data.length (o : Int) =
        .ret ⟨(data.length : Int), data, (o : Int) + (data.length : Int), d4⟩ := by
  have hlock : ∃ d1, block_dev_ioctl dev env .VBLOCK_LOCK_REGION (r : Int) =
      .ret ⟨0, d1, none, none⟩ ∧ (d1.regions r).region_mutex = false ∧
      (d1.regions r).read_sem = (dev.regions r).read_sem := by
    by_cases hl : (dev.regions r).locked = 0
    · exact ⟨_, lock_request_on_unlocked dev env r hr h2 hm hl, by simp [hm], by simp⟩
    · exact ⟨dev, lock_request_on_locked dev env r hr h2 hm hl, hm, rfl⟩
  obtain ⟨d1, c1, m1, s1⟩ := hlock
  obtain ⟨d2, c2, l2, _, _, _, m2, s2, _⟩ := unlock_request_effect d1 env r hr h2 m1
  subst hor
  have hfit2 : o + data.length ≤ TOTAL_SIZE := by
    simp only [TOTAL_SIZE, REGION_SIZE, TOTAL_REGIONS] at *
    omega
  have hs2 : (d2.regions (o / REGION_SIZE)).read_sem ≠ 0 := by
    rw [s2, s1]
    omega
  obtain ⟨d3, c3, b3, _⟩ := keyed_write_stores d2 env ktok otok data k o lofft h1 h2 h3 hk ho
    (fun h => absurd l2 h) m2 hs2 hnul hne hfit2
  have hpos : 0 < data.length := List.length_pos.2 hne
  obtain ⟨hrange, hs3, _⟩ := accepted_write_state d2 env ktok otok data k o lofft _ hk ho hnul
    hpos hfit c3 (by simp)
  obtain ⟨d4, c4⟩ := read_back_stored d3 env data o hrange hpos hfit hs3 h4 b3
  exact ⟨d1, d2, d3, d4, c1, c2, c3, b3, c4⟩

theorem lock_unlock_then_write_reads_back_witness :
    ∃ d1 d2 d3 d4,
      block_dev_ioctl scenario_init Env.quiet .VBLOCK_LOCK_REGION ((0 : Nat) : Int) =
        .ret ⟨0, d1, none, none⟩ ∧
      block_dev_ioctl d1 Env.quiet .VBLOCK_UNLOCK_REGION ((0 : Nat) : Int) =
        .ret ⟨0, d2, none, none⟩ ∧
      block_dev_write d2 Env.quiet (bytes "0:0:WORLD") 0 = .ret ⟨5, d3, ((0 : Nat) : Int) + 5⟩ ∧
      (∀ i, i < 5 → byte_at d3 (0 + i) = (bytes "WORLD").getD i 0) ∧
      block_dev_read d3 Env.quiet 5 ((0 : Nat) : Int) =
        .ret ⟨5, bytes "WORLD", ((0 : Nat) : Int) + 5, d4⟩ :=
  lock_unlock_then_write_reads_back scenario_init Env.quiet 0 (bytes "0") (bytes "0")
    (bytes "WORLD") 0 0 0 rfl rfl rfl rfl (by decide) rfl (by decide) (by decide) (by decide)
    (by decide) (by decide) (by decide) (by decide)

/-- After the lock and the unlock request on region 0 the plain write
`0:WORLD` does not succeed: it returns `-EINVAL`, nothing is stored, and the
read of the five bytes at offset 0 gives zeros. -/
theorem plain_write_after_unlock_is_malformed :
    write_ret (block_dev_write scenario_unlocked Env.quiet (bytes "0:WORLD") 0) = some (-EINVAL) ∧
      read_out (block_dev_read
        (after_write scenario_unlocked Env.quiet (bytes "0:WORLD") 0) Env.quiet 5 0) =
        some [0, 0, 0, 0, 0] := by
  decide

/-! ## States that differ in mutexes and gates only -/

theorem same_content_refl (a : vblock_device) : same_content a a :=
  ⟨fun _ => ⟨rfl, rfl, rfl⟩, rfl, rfl, rfl, rfl⟩

theorem same_content_trans (a b c : vblock_device) (h1 : same_content a b)
    (h2 : same_content b c) : same_content a c := by
  obtain ⟨a1, a2, a3, a4, a5⟩ := h1
  obtain ⟨b1, b2, b3, b4, b5⟩ := h2
  refine ⟨fun i => ⟨(a1 i).1.trans (b1 i).1, (a1 i).2.1.trans (b1 i).2.1,
    (a1 i).2.2.trans (b1 i).2.2⟩, a2.trans b2, a3.trans b3, a4.trans b4, a5.trans b5⟩

theorem same_content_set_region (dev : vblock_device) (i : Nat) (r : vblock_region)
    (h1 : r.data = (dev.regions i).data) (h2 : r.locked = (dev.regions i).locked)
    (h3 : r.lock_key = (dev.regions i).lock_key) : same_content dev (set_region dev i r) := by
  refine ⟨fun j => ?_, rfl, rfl, rfl, rfl⟩
  simp only [set_region_regions]
  split
  · rename_i hj
    subst hj
    exact ⟨h1.symm, h2.symm, h3.symm⟩
  · exact ⟨rfl, rfl, rfl⟩

theorem same_content_mutex_unlock (dev : vblock_device) (i : Nat) :
    same_content dev (mutex_unlock dev i) :=
  same_content_set_region dev i _ rfl rfl rfl

theorem same_content_up (dev : vblock_device) (i : Nat) : same_content dev (up dev i) :=
  same_content_set_region dev i _ rfl rfl rfl

theorem same_content_mutex_lock (dev d : vblock_device) (i : Nat) (h : mutex_lock dev i = some d) :
    same_content dev d := by
  unfold mutex_lock at h
  split at h
  · cases h
  · cases h
    exact same_content_set_region dev i _ rfl rfl rfl

theorem same_content_down (dev d : vblock_device) (i : Nat) (h : down dev i = some d) :
    same_content dev d := by
  unfold down at h
  split at h
  · cases h
  · cases h
    exact same_content_set_region dev i _ rfl rfl rfl

theorem same_content_locks (a b : vblock_device) (h : same_content a b) : same_locks a b :=
  ⟨fun i => ⟨(h.1 i).2.1, (h.1 i).2.2⟩, h.2.2.1, h.2.2.2.1, h.2.2.2.2⟩

theorem same_locks_refl (a : vblock_device) : same_locks a a :=
  ⟨fun _ => ⟨rfl, rfl⟩, rfl, rfl, rfl⟩

theorem same_locks_trans (a b c : vblock_device) (h1 : same_locks a b) (h2 : same_locks b c) :
    same_locks a c := by
  obtain ⟨a1, a3, a4, a5⟩ := h1
  obtain ⟨b1, b3, b4, b5⟩ := h2
  exact ⟨fun i => ⟨(a1 i).1.trans (b1 i).1, (a1 i).2.trans (b1 i).2⟩, a3.trans b3, a4.trans b4,
    a5.trans b5⟩

theorem byte_at_same_content (a b : vblock_device) (h : same_content a b) (x : Nat) :
    byte_at a x = byte_at b x :=
  byte_at_congr a b x (h.1 _).1

theorem mirror_consistent_same_content (a b : vblock_device) (h : same_content a b)
    (hm : mirror_consistent a) : mirror_consistent b := by
  obtain ⟨m, h1, h2⟩ := hm
  refine ⟨m, ?_, ?_⟩
  · rw [← h.2.1]
    exact h1
  · intro x hx
    rw [h2 x hx, byte_at_same_content a b h]

/-! ## What the read leaves of the device -/

theorem read_chunk_same_content (env : Env) (s s1 : ReadLoop) (e : Option Int)
    (h : read_chunk env s = .ret (e, s1)) : same_content s.dev s1.dev := by
  unfold read_chunk at h
  simp only at h
  cases hd : down s.dev s.region_num with
  | none =>
    rw [hd] at h
    simp only at h
    split at h
    · cases h
      exact same_content_refl _
    · cases h
  | some dev1 =>
    rw [hd] at h
    simp only at h
    have h1 := same_content_down _ _ _ hd
    have h2 := same_content_trans _ _ _ h1 (same_content_up dev1 s.region_num)
    split at h
    · cases h
      exact h2
    · cases h
      exact h2

theorem read_loop_same_content (env : Env) : ∀ (fuel : Nat) (s s1 : ReadLoop) (e : Option Int),
    read_loop env fuel s = .ret (e, s1) → same_content s.dev s1.dev := by
  intro fuel
  induction fuel with
  | zero =>
    intro s s1 e h
    simp only [read_loop] at h
    split at h
    · cases h
    · cases h
      exact same_content_refl _
  | succ fuel ih =>
    intro s s1 e h
    simp only [read_loop] at h
    split at h
    · cases hc : read_chunk env s with
      | ret a =>
        obtain ⟨e2, s2⟩ := a
        have h1 := read_chunk_same_content env s s2 e2 hc
        rw [hc] at h
        cases e2 with
        | none =>
          simp only at h
          exact same_content_trans _ _ _ h1 (ih s2 s1 e h)
        | some v =>
          simp only at h
          cases h
          exact h1
      | blocked =>
        rw [hc] at h
        cases h
      | undefined =>
        rw [hc] at h
        cases h
      | diverged =>
        rw [hc] at h
        cases h
    · cases h
      exact same_content_refl _

/-- Whatever a read returns, it leaves the region bytes, lock flags, lock
keys, mirror and configuration as they were. -/
theorem block_dev_read_same_content (dev : vblock_device) (env : Env) (count : Nat) (lofft : Int)
    (r : ReadResult) (h : block_dev_read dev env count lofft = .ret r) :
    same_content dev r.dev := by
  unfold block_dev_read at h
  split at h
  · cases h
    exact same_content_refl _
  · split at h
    · split at h
      · cases h
        exact same_content_refl _
      · cases h
    · simp only at h
      split at h
      · rename_i e s heq
        cases h
        exact read_loop_same_content env _ _ _ _ heq
      · rename_i s heq
        cases h
        exact read_loop_same_content env _ _ _ _ heq
      · cases h
      · cases h
      · cases h

/-! ## What the write leaves of the device -/

theorem write_chunk_same_locks (d : List Nat) (s : WriteLoop) :
    same_locks s.dev (write_chunk d s).dev := by
  refine ⟨fun i => ?_, ?_, ?_, ?_⟩
  · rw [write_chunk_regions]
    split
    · rename_i hi
      subst hi
      exact ⟨rfl, rfl⟩
    · exact ⟨rfl, rfl⟩
  · simp [write_chunk]
  · simp [write_chunk]
  · simp [write_chunk]

theorem write_chunk_mirror_buffer (d : List Nat) (s : WriteLoop) (m : Nat → Nat)
    (hm : s.dev.mirror_buffer = some m) (hme : s.dev.mirror_enable ≠ 0) :
    (write_chunk d s).dev.mirror_buffer =
      some (memcpy m (s.region_num * REGION_SIZE + s.region_offset) d s.ret
        (min (REGION_SIZE - s.region_offset) s.data_len)) := by
  simp only [write_chunk, mirror_update_mirror_buffer, set_region_mirror_enable,
    set_region_mirror_buffer, hme, ne_eq, not_false_eq_true, if_true, hm, Option.map_some']

/-- One pass of the write loop keeps the mirror a copy of the device. -/
theorem write_chunk_mirror_consistent (d : List Nat) (s : WriteLoop)
    (hme : s.dev.mirror_enable ≠ 0) (h : mirror_consistent s.dev) :
    mirror_consistent (write_chunk d s).dev := by
  obtain ⟨m, hm, hx⟩ := h
  refine ⟨_, write_chunk_mirror_buffer d s m hm hme, ?_⟩
  intro x hlt
  rw [write_chunk_byte_at, ← hx x hlt]
  simp only [memcpy, REGION_SIZE]
  split_ifs with hA hB hC
  · have e : s.ret + (x - (s.region_num * 512 + s.region_offset)) =
        s.ret + (x % 512 - s.region_offset) := by omega
    rw [e]
  · omega
  · omega
  · rfl

theorem write_loop_frame (d : List Nat) : ∀ (fuel : Nat) (s s1 : WriteLoop),
    write_loop d fuel s = some s1 →
    same_locks s.dev s1.dev ∧
      (s.dev.mirror_enable ≠ 0 → mirror_consistent s.dev → mirror_consistent s1.dev) := by
  intro fuel
  induction fuel with
  | zero =>
    intro s s1 h
    simp only [write_loop] at h
    split at h
    · cases h
    · cases h
      exact ⟨same_locks_refl _, fun _ hm => hm⟩
  | succ fuel ih =>
    intro s s1 h
    simp only [write_loop] at h
    split at h
    · obtain ⟨i1, i2⟩ := ih _ _ h
      have hl := write_chunk_same_locks d s
      refine ⟨same_locks_trans _ _ _ hl i1, ?_⟩
      intro hme hm
      apply i2
      · rw [← hl.2.1]
        exact hme
      · exact write_chunk_mirror_consistent d s hme hm
    · cases h
      exact ⟨same_locks_refl _, fun _ hm => hm⟩

/-- Whatever the commit part of a write returns: lock flags, lock keys and
configuration are as before; an error return leaves the content as it was and
the cursor at the parsed offset; a count moves the cursor behind the bytes
applied; and with mirroring on the mirror stays a copy of the device. -/
theorem write_commit_frame (dev : vblock_device) (env : Env) (p : ParseResult) (d : List Nat)
    (w : WriteResult) (h : write_commit dev env p d = .ret w) :
    same_locks dev w.dev ∧
      (w.ret < 0 → same_content dev w.dev ∧ w.lofft = p.offset) ∧
      (0 ≤ w.ret → w.lofft = p.offset + w.ret) ∧
      (dev.mirror_enable ≠ 0 → mirror_consistent dev → mirror_consistent w.dev) := by
  obtain ⟨n1, n2, n3, n4, _, _⟩ := neg_errno_lt_zero
  have err : ∀ (e : Int), e < 0 → same_locks dev dev ∧
      (e < 0 → same_content dev dev ∧ p.offset = p.offset) ∧
      (0 ≤ e → p.offset = p.offset + e) ∧
      (dev.mirror_enable ≠ 0 → mirror_consistent dev → mirror_consistent dev) := by
    intro e he
    exact ⟨same_locks_refl _, fun _ => ⟨same_content_refl _, rfl⟩, fun h0 => by omega,
      fun _ hm => hm⟩
  unfold write_commit at h
  simp only at h
  split at h
  · cases h
    exact err _ n1
  · split at h
    · cases h
      exact err _ n1
    · split at h
      · cases h
        exact err _ n2
      · split at h
        · cases h
          exact err _ n2
        · split at h
          · cases h
            exact err _ n3
          · cases h1 : mutex_lock dev (p.offset.toNat / REGION_SIZE) with
            | none =>
              rw [h1] at h
              cases h
            | some dev1 =>
              rw [h1] at h
              simp only at h
              have c1 := same_content_mutex_lock _ _ _ h1
              cases h2 : down dev1 (p.offset.toNat / REGION_SIZE) with
              | none =>
                rw [h2] at h
                simp only at h
                split at h
                · cases h
                  have c2 := same_content_trans _ _ _ c1
                    (same_content_mutex_unlock dev1 (p.offset.toNat / REGION_SIZE))
                  refine ⟨same_content_locks _ _ c2, fun _ => ⟨c2, rfl⟩, fun h0 => ?_,
                    fun _ hm => mirror_consistent_same_content _ _ c2 hm⟩
                  simp only at h0
                  omega
                · cases h
              | some dev2 =>
                rw [h2] at h
                simp only at h
                have c2 := same_content_trans _ _ _ c1 (same_content_down _ _ _ h2)
                cases h3 : write_loop d TOTAL_REGIONS
                    ⟨dev2, p.offset.toNat / REGION_SIZE, p.offset.toNat % REGION_SIZE,
                      strlen d, 0⟩ with
                | none =>
                  rw [h3] at h
                  cases h
                | some s =>
                  rw [h3] at h
                  simp only at h
                  split at h
                  · cases h
                  · cases h
                    obtain ⟨f1, f2⟩ := write_loop_frame d _ _ _ h3
                    simp only at f1 f2
                    have c3 : same_content s.dev
                        (mutex_unlock (up s.dev (s.region_num - 1)) (s.region_num - 1)) :=
                      same_content_trans _ _ _ (same_content_up _ _)
                        (same_content_mutex_unlock _ _)
                    refine ⟨same_locks_trans _ _ _ (same_content_locks _ _ c2)
                      (same_locks_trans _ _ _ f1 (same_content_locks _ _ c3)), ?_, ?_, ?_⟩
                    · intro hneg
                      simp only at hneg
                      omega
                    · intro _
                      simp only
                      split
                      · rfl
                      · rename_i hz
                        have : (s.ret : Int) = 0 := by omega
                        rw [this]
                        simp
                    · intro hme hm
                      apply mirror_consistent_same_content _ _ c3
                      apply f2
                      · rw [← c2.2.2.1]
                        exact hme
                      · exact mirror_consistent_same_content _ _ c2 hm

/-- Whatever a write returns: lock flags, lock keys and configuration are as
before, an error return leaves the content as it was, and with mirroring on
the mirror stays a copy of the device. -/
theorem block_dev_write_frame (dev : vblock_device) (env : Env) (buffer : List Nat) (lofft : Int)
    (w : WriteResult) (h : block_dev_write dev env buffer lofft = .ret w) :
    same_locks dev w.dev ∧ (w.ret < 0 → same_content dev w.dev) ∧
      (dev.mirror_enable ≠ 0 → mirror_consistent dev → mirror_consistent w.dev) := by
  have err : same_locks dev dev ∧ (True → same_content dev dev) ∧
      (dev.mirror_enable ≠ 0 → mirror_consistent dev → mirror_consistent dev) :=
    ⟨same_locks_refl _, fun _ => same_content_refl _, fun _ hm => hm⟩
  unfold block_dev_write at h
  simp only at h
  split at h
  · cases h
    exact ⟨err.1, fun _ => err.2.1 trivial, err.2.2⟩
  · split at h
    · cases h
      exact ⟨err.1, fun _ => err.2.1 trivial, err.2.2⟩
    · split at h
      · cases h
        exact ⟨err.1, fun _ => err.2.1 trivial, err.2.2⟩
      · split at h
        · cases h
        · obtain ⟨f1, f2, _, f4⟩ := write_commit_frame dev env _ _ w h
          exact ⟨f1, fun hneg => (f2 hneg).1, f4⟩

/-! ## What the control requests leave of the device -/

theorem mirror_consistent_of_data (a b : vblock_device)
    (h1 : ∀ i, (a.regions i).data = (b.regions i).data)
    (h2 : a.mirror_buffer = b.mirror_buffer) (hm : mirror_consistent a) :
    mirror_consistent b := by
  obtain ⟨m, e1, e2⟩ := hm
  refine ⟨m, ?_, ?_⟩
  · rw [← h2]
    exact e1
  · intro x hx
    rw [e2 x hx]
    exact byte_at_congr a b x (h1 _)

theorem lock_keys_wf_same_locks (a b : vblock_device) (h : same_locks a b)
    (hw : lock_keys_wf a) : lock_keys_wf b := by
  intro i
  rw [← (h.1 i).1, ← (h.1 i).2]
  exact hw i

/-- The shape of what a control request may leave: data, mirror and
configuration as given by `same_content`, or one region's flag and key set. -/
theorem ioctl_flag_update_frame (dev : vblock_device) (i : Nat) (fl key : Int)
    (hkey : (fl = 0 → key = 0) ∧ (fl ≠ 0 → key = (i : Int) + 1000)) :
    (∀ j, ((set_region dev i { dev.regions i with locked := fl, lock_key := key }).regions j).data =
      (dev.regions j).data) ∧
    (lock_keys_wf dev →
      lock_keys_wf (set_region dev i { dev.regions i with locked := fl, lock_key := key })) := by
  constructor
  · intro j
    simp only [set_region_regions]
    split
    · rename_i hj
      subst hj
      rfl
    · rfl
  · intro hw j
    simp only [set_region_regions]
    split
    · rename_i hj
      subst hj
      exact hkey
    · exact hw j

/-- What a lock or an unlock request leaves, whatever it returns. -/
theorem ioctl_lock_unlock_frame (dev : vblock_device) (env : Env) (cmd : Cmd) (arg : Int)
    (r : IoctlResult) (hcmd : cmd = .VBLOCK_LOCK_REGION ∨ cmd = .VBLOCK_UNLOCK_REGION)
    (h : block_dev_ioctl dev env cmd arg = .ret r) :
    (r.ret < 0 → same_content dev r.dev) ∧
      (∀ j, (r.dev.regions j).data = (dev.regions j).data) ∧
      r.dev.mirror_buffer = dev.mirror_buffer ∧ r.dev.mirror_enable = dev.mirror_enable ∧
      r.dev.user_keys = dev.user_keys ∧ r.dev.key_count = dev.key_count ∧
      (lock_keys_wf dev → lock_keys_wf r.dev) := by
  have same : ∀ d : vblock_device, same_content dev d →
      (True → same_content dev d) ∧
      (∀ j, (d.regions j).data = (dev.regions j).data) ∧
      d.mirror_buffer = dev.mirror_buffer ∧ d.mirror_enable = dev.mirror_enable ∧
      d.user_keys = dev.user_keys ∧ d.key_count = dev.key_count ∧
      (lock_keys_wf dev → lock_keys_wf d) := by
    intro d hd
    exact ⟨fun _ => hd, fun j => ((hd.1 j).1).symm, hd.2.1.symm, hd.2.2.1.symm, hd.2.2.2.1.symm,
      hd.2.2.2.2.symm, lock_keys_wf_same_locks _ _ (same_content_locks _ _ hd)⟩
  have arg_eq : ¬ (arg < 0 ∨ (TOTAL_REGIONS : Int) ≤ arg) → ((arg.toNat : Nat) : Int) = arg := by
    intro hr
    have : 0 ≤ arg := by omega
    exact Int.toNat_of_nonneg this
  rcases hcmd with hcmd | hcmd
  · subst hcmd
    simp only [block_dev_ioctl] at h
    split at h
    · cases h
      obtain ⟨s1, s2⟩ := same dev (same_content_refl _)
      exact ⟨fun _ => s1 trivial, s2⟩
    · split at h
      · cases h
        obtain ⟨s1, s2⟩ := same dev (same_content_refl _)
        exact ⟨fun _ => s1 trivial, s2⟩
      · rename_i hr
        cases h1 : mutex_lock dev arg.toNat with
        | none =>
          rw [h1] at h
          cases h
        | some dev1 =>
          rw [h1] at h
          simp only at h
          cases h
          have c1 := same_content_mutex_lock _ _ _ h1
          simp only
          split
          · obtain ⟨g1, g2⟩ := ioctl_flag_update_frame dev1 arg.toNat 1 (arg + 1000)
              ⟨fun h0 => absurd h0 (by decide), fun _ => by rw [arg_eq hr]⟩
            have c2 := same_content_mutex_unlock
              (set_region dev1 arg.toNat
                { dev1.regions arg.toNat with locked := 1, lock_key := arg + 1000 }) arg.toNat
            refine ⟨fun hneg => ?_, fun j => ?_, ?_, ?_, ?_, ?_, ?_⟩
            · simp only at hneg
              omega
            · rw [← (c2.1 j).1, g1 j, (c1.1 j).1]
            · rw [← c2.2.1]
              exact c1.2.1.symm
            · rw [← c2.2.2.1]
              exact c1.2.2.1.symm
            · rw [← c2.2.2.2.1]
              exact c1.2.2.2.1.symm
            · rw [← c2.2.2.2.2]
              exact c1.2.2.2.2.symm
            · intro hw
              apply lock_keys_wf_same_locks _ _ (same_content_locks _ _ c2)
              apply g2
              exact lock_keys_wf_same_locks _ _ (same_content_locks _ _ c1) hw
          · obtain ⟨s1, s2⟩ := same _ (same_content_trans _ _ _ c1
              (same_content_mutex_unlock dev1 arg.toNat))
            exact ⟨fun _ => s1 trivial, s2⟩
  · subst hcmd
    simp only [block_dev_ioctl] at h
    split at h
    · cases h
      obtain ⟨s1, s2⟩ := same dev (same_content_refl _)
      exact ⟨fun _ => s1 trivial, s2⟩
    · split at h
      · cases h
        obtain ⟨s1, s2⟩ := same dev (same_content_refl _)
        exact ⟨fun _ => s1 trivial, s2⟩
      · rename_i hr
        cases h1 : mutex_lock dev arg.toNat with
        | none =>
          rw [h1] at h
          cases h
        | some dev1 =>
          rw [h1] at h
          simp only at h
          cases h
          have c1 := same_content_mutex_lock _ _ _ h1
          simp only
          split
          · obtain ⟨g1, g2⟩ := ioctl_flag_update_frame dev1 arg.toNat 0 0
              ⟨fun _ => rfl, fun h0 => absurd rfl h0⟩
            have c2 := same_content_mutex_unlock
              (set_region dev1 arg.toNat
                { dev1.regions arg.toNat with locked := 0, lock_key := 0 }) arg.toNat
            refine ⟨fun hneg => ?_, fun j => ?_, ?_, ?_, ?_, ?_, ?_⟩
            · simp only at hneg
              omega
            · rw [← (c2.1 j).1, g1 j, (c1.1 j).1]
            · rw [← c2.2.1]
              exact c1.2.1.symm
            · rw [← c2.2.2.1]
              exact c1.2.2.1.symm
            · rw [← c2.2.2.2.1]
              exact c1.2.2.2.1.symm
            · rw [← c2.2.2.2.2]
              exact c1.2.2.2.2.symm
            · intro hw
              apply lock_keys_wf_same_locks _ _ (same_content_locks _ _ c2)
              apply g2
              exact lock_keys_wf_same_locks _ _ (same_content_locks _ _ c1) hw
          · obtain ⟨s1, s2⟩ := same _ (same_content_trans _ _ _ c1
              (same_content_mutex_unlock dev1 arg.toNat))
            exact ⟨fun _ => s1 trivial, s2⟩

/-- Zeroing a region and its mirror span keeps the mirror a copy of the
device. -/
theorem erase_mirror_consistent (dev : vblock_device) (i : Nat)
    (hme : dev.mirror_enable ≠ 0) (h : mirror_consistent dev) :
    mirror_consistent
      (mirror_update
        (set_region dev i
          { dev.regions i with data := memset_zero (dev.regions i).data 0 REGION_SIZE })
        (fun m => memset_zero m (i * REGION_SIZE) REGION_SIZE)) := by
  obtain ⟨m, hm, hx⟩ := h
  refine ⟨memset_zero m (i * REGION_SIZE) REGION_SIZE, ?_, ?_⟩
  · simp only [mirror_update_mirror_buffer, set_region_mirror_enable, set_region_mirror_buffer,
      hme, ne_eq, not_false_eq_true, if_true, hm, Option.map_some']
  · intro x hlt
    simp only [byte_at, mirror_update_regions, set_region_regions]
    by_cases hi : x / REGION_SIZE = i
    · simp only [hi, if_true, memset_zero, REGION_SIZE] at *
      rw [if_pos (by omega), if_pos (by omega)]
    · simp only [hi, if_false, memset_zero]
      rw [if_neg (by simp only [REGION_SIZE] at *; omega), hx x hlt]
      rfl

/-- What an erase request leaves, whatever it returns. -/
theorem ioctl_erase_frame (dev : vblock_device) (env : Env) (arg : Int) (r : IoctlResult)
    (h : block_dev_ioctl dev env .VBLOCK_ERASE_REGION arg = .ret r) :
    (r.ret < 0 → same_content dev r.dev) ∧ same_locks dev r.dev ∧
      (dev.mirror_enable ≠ 0 → mirror_consistent dev → mirror_consistent r.dev) := by
  have same : ∀ d : vblock_device, same_content dev d →
      (True → same_content dev d) ∧ same_locks dev d ∧
      (dev.mirror_enable ≠ 0 → mirror_consistent dev → mirror_consistent d) := by
    intro d hd
    exact ⟨fun _ => hd, same_content_locks _ _ hd,
      fun _ hm => mirror_consistent_same_content _ _ hd hm⟩
  simp only [block_dev_ioctl] at h
  split at h
  · cases h
    obtain ⟨s1, s2⟩ := same dev (same_content_refl _)
    exact ⟨fun _ => s1 trivial, s2⟩
  · split at h
    · cases h
      obtain ⟨s1, s2⟩ := same dev (same_content_refl _)
      exact ⟨fun _ => s1 trivial, s2⟩
    · cases h1 : mutex_lock dev arg.toNat with
      | none =>
        rw [h1] at h
        cases h
      | some dev1 =>
        rw [h1] at h
        simp only at h
        have c1 := same_content_mutex_lock _ _ _ h1
        split at h
        · cases h
          obtain ⟨s1, s2⟩ := same _ (same_content_trans _ _ _ c1
            (same_content_mutex_unlock dev1 arg.toNat))
          exact ⟨fun _ => s1 trivial, s2⟩
        · cases h2 : down dev1 arg.toNat with
          | none =>
            rw [h2] at h
            simp only at h
            split at h
            · cases h
              obtain ⟨s1, s2⟩ := same _ (same_content_trans _ _ _ c1
                (same_content_mutex_unlock dev1 arg.toNat))
              exact ⟨fun _ => s1 trivial, s2⟩
            · cases h
          | some dev2 =>
            rw [h2] at h
            simp only at h
            cases h
            have c2 := same_content_trans _ _ _ c1 (same_content_down _ _ _ h2)
            have c3 : ∀ d : vblock_device, same_content d
                (mutex_unlock (up d arg.toNat) arg.toNat) := fun d =>
              same_content_trans _ _ _ (same_content_up _ _) (same_content_mutex_unlock _ _)
            refine ⟨fun hneg => ?_, ?_, ?_⟩
            · simp only at hneg
              omega
            · apply same_locks_trans _ _ _ (same_content_locks _ _ c2)
              refine same_locks_trans _ _ _ ?_ (same_content_locks _ _ (c3 _))
              refine ⟨fun j => ?_, ?_, ?_, ?_⟩
              · simp only [mirror_update_regions, set_region_regions]
                split
                · rename_i hj
                  subst hj
                  exact ⟨rfl, rfl⟩
                · exact ⟨rfl, rfl⟩
              · simp
              · simp
              · simp
            · intro hme hm
              apply mirror_consistent_same_content _ _ (c3 _)
              apply erase_mirror_consistent
              · rw [← c2.2.2.1]
                exact hme
              · exact mirror_consistent_same_content _ _ c2 hm

/-- What a raw region read, an info request or an unknown request leaves,
whatever it returns: the content of the device as it was. -/
theorem ioctl_query_frame (dev : vblock_device) (env : Env) (cmd : Cmd) (arg : Int)
    (r : IoctlResult)
    (hcmd : cmd = .VBLOCK_READ_REGION ∨ cmd = .VBLOCK_GET_INFO ∨ cmd = .other)
    (h : block_dev_ioctl dev env cmd arg = .ret r) : same_content dev r.dev := by
  rcases hcmd with hcmd | hcmd | hcmd
  · subst hcmd
    simp only [block_dev_ioctl] at h
    split at h
    · cases h
      exact same_content_refl _
    · split at h
      · cases h
        exact same_content_refl _
      · cases h1 : down dev arg.toNat with
        | none =>
          rw [h1] at h
          simp only at h
          split at h
          · cases h
            exact same_content_refl _
          · cases h
        | some dev1 =>
          rw [h1] at h
          simp only at h
          have c := same_content_trans _ _ _ (same_content_down _ _ _ h1)
            (same_content_up dev1 arg.toNat)
          split at h
          · cases h
            exact c
          · cases h
            exact c
  · subst hcmd
    simp only [block_dev_ioctl] at h
    split at h
    · cases h
      exact same_content_refl _
    · cases h
      exact same_content_refl _
  · subst hcmd
    simp only [block_dev_ioctl] at h
    cases h
    exact same_content_refl _

/-- Whatever a control request returns: an error return leaves the content as
it was, the configuration is as before, with mirroring on the mirror stays a
copy of the device, and the lock keys stay the ones the driver assigns. -/
theorem block_dev_ioctl_frame (dev : vblock_device) (env : Env) (cmd : Cmd) (arg : Int)
    (r : IoctlResult) (h : block_dev_ioctl dev env cmd arg = .ret r) :
    (r.ret < 0 → same_content dev r.dev) ∧
      r.dev.mirror_enable = dev.mirror_enable ∧ r.dev.user_keys = dev.user_keys ∧
      r.dev.key_count = dev.key_count ∧
      (dev.mirror_enable ≠ 0 → mirror_consistent dev → mirror_consistent r.dev) ∧
      (lock_keys_wf dev → lock_keys_wf r.dev) := by
  have lockcase : ∀ c : Cmd, c = .VBLOCK_LOCK_REGION ∨ c = .VBLOCK_UNLOCK_REGION →
      block_dev_ioctl dev env c arg = .ret r →
      (r.ret < 0 → same_content dev r.dev) ∧
      r.dev.mirror_enable = dev.mirror_enable ∧ r.dev.user_keys = dev.user_keys ∧
      r.dev.key_count = dev.key_count ∧
      (dev.mirror_enable ≠ 0 → mirror_consistent dev → mirror_consistent r.dev) ∧
      (lock_keys_wf dev → lock_keys_wf r.dev) := by
    intro c hc hh
    obtain ⟨f1, f2, f3, f4, f5, f6, f7⟩ := ioctl_lock_unlock_frame dev env c arg r hc hh
    exact ⟨f1, f4, f5, f6,
      fun _ hm => mirror_consistent_of_data dev r.dev (fun j => (f2 j).symm) f3.symm hm, f7⟩
  have querycase : ∀ c : Cmd, c = .VBLOCK_READ_REGION ∨ c = .VBLOCK_GET_INFO ∨ c = .other →
      block_dev_ioctl dev env c arg = .ret r →
      (r.ret < 0 → same_content dev r.dev) ∧
      r.dev.mirror_enable = dev.mirror_enable ∧ r.dev.user_keys = dev.user_keys ∧
      r.dev.key_count = dev.key_count ∧
      (dev.mirror_enable ≠ 0 → mirror_consistent dev → mirror_consistent r.dev) ∧
      (lock_keys_wf dev → lock_keys_wf r.dev) := by
    intro c hc hh
    have hd := ioctl_query_frame dev env c arg r hc hh
    exact ⟨fun _ => hd, hd.2.2.1.symm, hd.2.2.2.1.symm, hd.2.2.2.2.symm,
      fun _ hm => mirror_consistent_same_content _ _ hd hm,
      lock_keys_wf_same_locks _ _ (same_content_locks _ _ hd)⟩
  cases cmd with
  | VBLOCK_LOCK_REGION => exact lockcase _ (Or.inl rfl) h
  | VBLOCK_UNLOCK_REGION => exact lockcase _ (Or.inr rfl) h
  | VBLOCK_READ_REGION => exact querycase _ (Or.inl rfl) h
  | VBLOCK_GET_INFO => exact querycase _ (Or.inr (Or.inl rfl)) h
  | other => exact querycase _ (Or.inr (Or.inr rfl)) h
  | VBLOCK_ERASE_REGION =>
    obtain ⟨f1, f2, f3⟩ := ioctl_erase_frame dev env arg r h
    exact ⟨f1, f2.2.1.symm, f2.2.2.1.symm, f2.2.2.2.symm, f3, lock_keys_wf_same_locks _ _ f2⟩

/-! ## States reachable from construction -/

theorem block_dev_init_mirror_consistent (mirror_enable : Int) (user_keys : Nat → Int)
    (key_count : Int) (h : mirror_enable ≠ 0) :
    mirror_consistent (block_dev_init mirror_enable user_keys key_count) := by
  refine ⟨fun _ => 0, ?_, ?_⟩
  · simp [block_dev_init, h]
  · intro x _
    rfl

theorem block_dev_init_lock_keys_wf (mirror_enable : Int) (user_keys : Nat → Int)
    (key_count : Int) : lock_keys_wf (block_dev_init mirror_enable user_keys key_count) := by
  intro i
  exact ⟨fun _ => rfl, fun h => absurd rfl h⟩

/-- What any single request preserves: the configuration, with mirroring on
the mirror being a copy of the device, and the lock keys being the ones the
driver assigns. -/
theorem apply_request_invariants (dev d : vblock_device) (env : Env) (req : Request)
    (h : apply_request dev env req = some d) :
    d.mirror_enable = dev.mirror_enable ∧ d.user_keys = dev.user_keys ∧
      d.key_count = dev.key_count ∧
      (dev.mirror_enable ≠ 0 → mirror_consistent dev → mirror_consistent d) ∧
      (lock_keys_wf dev → lock_keys_wf d) := by
  cases req with
  | read count lofft =>
    simp only [apply_request] at h
    cases hc : block_dev_read dev env count lofft with
    | ret r =>
      rw [hc] at h
      cases h
      have c := block_dev_read_same_content dev env count lofft r hc
      exact ⟨c.2.2.1.symm, c.2.2.2.1.symm, c.2.2.2.2.symm,
        fun _ hm => mirror_consistent_same_content _ _ c hm,
        lock_keys_wf_same_locks _ _ (same_content_locks _ _ c)⟩
    | blocked => rw [hc] at h; cases h
    | undefined => rw [hc] at h; cases h
    | diverged => rw [hc] at h; cases h
  | write buffer lofft =>
    simp only [apply_request] at h
    cases hc : block_dev_write dev env buffer lofft with
    | ret w =>
      rw [hc] at h
      cases h
      obtain ⟨f1, _, f3⟩ := block_dev_write_frame dev env buffer lofft w hc
      exact ⟨f1.2.1.symm, f1.2.2.1.symm, f1.2.2.2.symm, f3, lock_keys_wf_same_locks _ _ f1⟩
    | blocked => rw [hc] at h; cases h
    | undefined => rw [hc] at h; cases h
    | diverged => rw [hc] at h; cases h
  | ioctl cmd arg =>
    simp only [apply_request] at h
    cases hc : block_dev_ioctl dev env cmd arg with
    | ret r =>
      rw [hc] at h
      cases h
      obtain ⟨_, f2, f3, f4, f5, f6⟩ := block_dev_ioctl_frame dev env cmd arg r hc
      exact ⟨f2, f3, f4, f5, f6⟩
    | blocked => rw [hc] at h; cases h
    | undefined => rw [hc] at h; cases h
    | diverged => rw [hc] at h; cases h

/-- What every run of requests preserves. -/
theorem run_requests_invariants : ∀ (reqs : List (Env × Request)) (dev d : vblock_device),
    run_requests dev reqs = some d →
    d.mirror_enable = dev.mirror_enable ∧ d.user_keys = dev.user_keys ∧
      d.key_count = dev.key_count ∧
      (dev.mirror_enable ≠ 0 → mirror_consistent dev → mirror_consistent d) ∧
      (lock_keys_wf dev → lock_keys_wf d) := by
  intro reqs
  induction reqs with
  | nil =>
    intro dev d h
    simp only [run_requests] at h
    cases h
    exact ⟨rfl, rfl, rfl, fun _ hm => hm, fun hw => hw⟩
  | cons hd tl ih =>
    intro dev d h
    obtain ⟨env, req⟩ := hd
    simp only [run_requests] at h
    cases h1 : apply_request dev env req with
    | none =>
      rw [h1] at h
      cases h
    | some dev1 =>
      rw [h1] at h
      simp only at h
      obtain ⟨a1, a2, a3, a4, a5⟩ := apply_request_invariants dev dev1 env req h1
      obtain ⟨b1, b2, b3, b4, b5⟩ := ih dev1 d h
      refine ⟨b1.trans a1, b2.trans a2, b3.trans a3, ?_, fun hw => b5 (a5 hw)⟩
      intro hme hm
      apply b4
      · rw [a1]
        exact hme
      · exact a4 hme hm

/-- In every state reachable from construction an unlocked region has lock
key 0 and a locked region has lock key `region + 1000`. -/
theorem reachable_lock_keys_wf (mirror_enable : Int) (user_keys : Nat → Int) (key_count : Int)
    (reqs : List (Env × Request)) (dev : vblock_device)
    (h : run_requests (block_dev_init mirror_enable user_keys key_count) reqs = some dev) :
    lock_keys_wf dev :=
  (run_requests_invariants reqs _ dev h).2.2.2.2
    (block_dev_init_lock_keys_wf mirror_enable user_keys key_count)

/-! ## Unlock -/

/-- Claim C11: the unlock request, which takes no key, on an in-range region
returns 0 and leaves the region with `locked = 0` and `lock_key = 0`, whatever
the lock key of a locked region was; no region byte, no mirror byte and no
other region changes. The device is one in which an unlocked region has lock
key 0, as it has in every state reachable from construction
(`reachable_lock_keys_wf`); the argument is readable and the region's mutex
is free when the request arrives. -/
theorem unlock_request_clears_lock (dev : vblock_device) (env : Env) (r : Nat)
    (hr : r < TOTAL_REGIONS) (hcopy : env.copy_from_user_fails = false)
    (hm : (dev.regions r).region_mutex = false)
    (hwf : (dev.regions r).locked = 0 → (dev.regions r).lock_key = 0) :
    ∃ dev', block_dev_ioctl dev env .VBLOCK_UNLOCK_REGION (r : Int) = .ret ⟨0, dev', none, none⟩ ∧
      (dev'.regions r).locked = 0 ∧ (dev'.regions r).lock_key = 0 ∧
      (∀ i, (dev'.regions i).data = (dev.regions i).data) ∧
      dev'.mirror_buffer = dev.mirror_buffer ∧
      (∀ i, i ≠ r → dev'.regions i = dev.regions i) ∧
      (dev'.regions r).region_mutex = false ∧
      (dev'.regions r).read_sem = (dev.regions r).read_sem ∧
      dev'.mirror_enable = dev.mirror_enable ∧ dev'.user_keys = dev.user_keys ∧
      dev'.key_count = dev.key_count := by
  obtain ⟨dev', c, l, k1, k2, d, m, s, o, mb, me, uk, kc⟩ := unlock_request_effect dev env r hr hcopy hm
  refine ⟨dev', c, l, ?_, ?_, mb, o, m, s, me, uk, kc⟩
  · by_cases hl : (dev.regions r).locked = 0
    · rw [k2 hl]
      exact hwf hl
    · exact k1 hl
  · intro i
    by_cases hi : i = r
    · subst hi
      exact d
    · rw [o i hi]

theorem unlock_request_clears_lock_witness :
    ∃ dev', block_dev_ioctl scenario_locked Env.quiet .VBLOCK_UNLOCK_REGION ((0 : Nat) : Int) =
        .ret ⟨0, dev', none, none⟩ ∧
      (dev'.regions 0).locked = 0 ∧ (dev'.regions 0).lock_key = 0 ∧
      (∀ i, (dev'.regions i).data = (scenario_locked.regions i).data) ∧
      dev'.mirror_buffer = scenario_locked.mirror_buffer ∧
      (∀ i, i ≠ 0 → dev'.regions i = scenario_locked.regions i) ∧
      (dev'.regions 0).region_mutex = false ∧
      (dev'.regions 0).read_sem = (scenario_locked.regions 0).read_sem ∧
      dev'.mirror_enable = scenario_locked.mirror_enable ∧
      dev'.user_keys = scenario_locked.user_keys ∧
      dev'.key_count = scenario_locked.key_count :=
  unlock_request_clears_lock scenario_locked Env.quiet 0 (by decide) rfl (by decide)
    (fun h => absurd h (by decide))

/-! ## The mirror -/

/-- Claim C12: with mirroring enabled, in every state reached from
construction by a sequence of reads, writes and control requests (erase, lock,
unlock, raw region read, info), the mirror buffer exists and
`mirror_buffer[i * REGION_SIZE + j] = regions[i].data[j]` for every region `i`
and every offset `j` inside a region. -/
theorem mirror_is_copy_in_reachable_states (mirror_enable : Int) (user_keys : Nat → Int)
    (key_count : Int) (reqs : List (Env × Request)) (dev : vblock_device)
    (hme : mirror_enable ≠ 0)
    (hrun : run_requests (block_dev_init mirror_enable user_keys key_count) reqs = some dev) :
    ∃ m, dev.mirror_buffer = some m ∧
      ∀ i j, i < TOTAL_REGIONS → j < REGION_SIZE →
        m (i * REGION_SIZE + j) = (dev.regions i).data j := by
  obtain ⟨_, _, _, h4, _⟩ := run_requests_invariants reqs _ dev hrun
  obtain ⟨m, hm, hx⟩ := h4 hme
    (block_dev_init_mirror_consistent mirror_enable user_keys key_count hme)
  refine ⟨m, hm, ?_⟩
  intro i j hi hj
  have hlt : i * REGION_SIZE + j < TOTAL_SIZE := by
    simp only [TOTAL_SIZE, REGION_SIZE, TOTAL_REGIONS] at *
    omega
  rw [hx _ hlt]
  simp only [byte_at]
  have e1 : (i * REGION_SIZE + j) / REGION_SIZE = i := by
    simp only [REGION_SIZE] at *
    omega
  have e2 : (i * REGION_SIZE + j) % REGION_SIZE = j := by
    simp only [REGION_SIZE] at *
    omega
  rw [e1, e2]

theorem scenario_requests_run :
    run_requests scenario_mirrored scenario_requests = some scenario_after_requests := by
  have h : (run_requests scenario_mirrored scenario_requests).isSome = true := by decide
  unfold scenario_after_requests
  cases hr : run_requests scenario_mirrored scenario_requests with
  | none =>
    rw [hr] at h
    cases h
  | some d => rfl

theorem mirror_is_copy_in_reachable_states_witness :
    ∃ m, scenario_after_requests.mirror_buffer = some m ∧
      ∀ i j, i < TOTAL_REGIONS → j < REGION_SIZE →
        m (i * REGION_SIZE + j) = (scenario_after_requests.regions i).data j :=
  mirror_is_copy_in_reachable_states 1 (fun i => if i = 0 then 1000 else 0) 1 scenario_requests
    scenario_after_requests (by decide) scenario_requests_run

/-! ## The logical read in general -/

/-- Taking an available gate and giving it back restores the device. -/
theorem up_after_down (dev : vblock_device) (i : Nat) (h : (dev.regions i).read_sem ≠ 0) :
    up (set_region dev i { dev.regions i with read_sem := (dev.regions i).read_sem - 1 }) i =
      dev := by
  apply device_ext <;> simp [up]
  intro j
  split
  · rename_i hj
    subst hj
    have e : (dev.regions j).read_sem - 1 + 1 = (dev.regions j).read_sem := by omega
    rw [e]
  · rfl

/-- One pass of the read loop on an available gate with a writable user
buffer: the chunk is appended to the output and the device is as before. -/
theorem read_chunk_ok (env : Env) (s : ReadLoop)
    (hs : (s.dev.regions s.region_num).read_sem ≠ 0)
    (hcopy : env.copy_to_user_fails s.ret = false) :
    read_chunk env s = .ret (none,
      { dev := s.dev
        region_num := s.region_num + 1
        region_offset := 0
        to_read := s.to_read - min (REGION_SIZE - s.region_offset) s.to_read
        ret := s.ret + min (REGION_SIZE - s.region_offset) s.to_read
        out := s.out ++ (List.range (min (REGION_SIZE - s.region_offset) s.to_read)).map
          (fun k => (s.dev.regions s.region_num).data (s.region_offset + k)) }) := by
  simp only [read_chunk, down_available s.dev _ hs, hcopy, Bool.false_eq_true, if_false,
    up_after_down s.dev _ hs, set_region_regions, if_true]

set_option maxHeartbeats 1000000 in
/-- The read loop, started with enough passes for the regions that are left,
on available gates and a writable user buffer, ends without an error: it has
appended `min to_read (TOTAL_SIZE - start)` device bytes from `start` on to
the output and has left the device as it was. -/
theorem read_loop_spec (env : Env) (hcopy : ∀ n, env.copy_to_user_fails n = false) :
    ∀ (fuel : Nat) (s : ReadLoop),
    s.region_offset < REGION_SIZE → TOTAL_REGIONS ≤ fuel + s.region_num →
    (∀ i, i < TOTAL_REGIONS → (s.dev.regions i).read_sem ≠ 0) →
    ∃ s', read_loop env fuel s = .ret (none, s') ∧ s'.dev = s.dev ∧
      s'.ret = s.ret + min s.to_read (TOTAL_SIZE - (s.region_num * REGION_SIZE + s.region_offset)) ∧
      s'.out = s.out ++
        (List.range (min s.to_read (TOTAL_SIZE - (s.region_num * REGION_SIZE + s.region_offset)))).map
          (fun k => byte_at s.dev (s.region_num * REGION_SIZE + s.region_offset + k)) := by
  intro fuel
  induction fuel with
  | zero =>
    intro s _ hfuel _
    have hrn : ¬ s.region_num < TOTAL_REGIONS := by omega
    have hm : min s.to_read (TOTAL_SIZE - (s.region_num * REGION_SIZE + s.region_offset)) = 0 := by
      simp only [TOTAL_SIZE, REGION_SIZE, TOTAL_REGIONS] at *
      omega
    refine ⟨s, ?_, rfl, ?_, ?_⟩
    · simp [read_loop, hrn]
    · rw [hm]; rfl
    · rw [hm]; simp
  | succ fuel ih =>
    intro s hro hfuel hsem
    by_cases hc : 0 < s.to_read ∧ s.region_num < TOTAL_REGIONS
    · have hck := read_chunk_ok env s (hsem _ hc.2) (hcopy _)
      obtain ⟨s', e1, e2, e3, e4⟩ := ih
        { dev := s.dev
          region_num := s.region_num + 1
          region_offset := 0
          to_read := s.to_read - min (REGION_SIZE - s.region_offset) s.to_read
          ret := s.ret + min (REGION_SIZE - s.region_offset) s.to_read
          out := s.out ++ (List.range (min (REGION_SIZE - s.region_offset) s.to_read)).map
            (fun k => (s.dev.regions s.region_num).data (s.region_offset + k)) }
        (show 0 < REGION_SIZE by decide)
        (show TOTAL_REGIONS ≤ fuel + (s.region_num + 1) by omega) hsem
      refine ⟨s', ?_, e2, ?_, ?_⟩
      · simp only [read_loop, hc, and_self, if_true, hck]
        exact e1
      · rw [e3]
        simp only [TOTAL_SIZE, REGION_SIZE, TOTAL_REGIONS] at hc hro ⊢
        omega
      · rw [e4]
        simp only [TOTAL_SIZE, REGION_SIZE, TOTAL_REGIONS] at hc hro ⊢
        have hsplit : min s.to_read (512 * 8 - (s.region_num * 512 + s.region_offset)) =
            min (512 - s.region_offset) s.to_read +
              min (s.to_read - min (512 - s.region_offset) s.to_read)
                (512 * 8 - ((s.region_num + 1) * 512 + 0)) := by omega
        rw [hsplit, List.range_add (min (512 - s.region_offset) s.to_read)
          (min (s.to_read - min (512 - s.region_offset) s.to_read)
            (512 * 8 - ((s.region_num + 1) * 512 + 0))),
          List.map_append, List.map_map, List.append_assoc]
        apply congrArg (fun l => s.out ++ l)
        apply congrArg₂ (fun a b : List Nat => a ++ b)
        · apply List.map_congr_left
          intro k hk
          have hk' := List.mem_range.1 hk
          simp only [byte_at, REGION_SIZE]
          have e5 : (s.region_num * 512 + s.region_offset + k) / 512 = s.region_num := by omega
          have e6 : (s.region_num * 512 + s.region_offset + k) % 512 = s.region_offset + k := by
            omega
          rw [e5, e6]
        · apply List.map_congr_left
          intro k hk
          have hk' := List.mem_range.1 hk
          simp only [Function.comp]
          have e7 : (s.region_num + 1) * 512 + 0 + k =
              s.region_num * 512 + s.region_offset + (min (512 - s.region_offset) s.to_read + k) := by
            omega
          rw [e7]
    · have hm : min s.to_read (TOTAL_SIZE - (s.region_num * REGION_SIZE + s.region_offset)) = 0 := by
        simp only [TOTAL_SIZE, REGION_SIZE, TOTAL_REGIONS] at *
        omega
      refine ⟨s, ?_, rfl, ?_, ?_⟩
      · simp [read_loop, hc]
      · rw [hm]; rfl
      · rw [hm]; simp

/-- Claim C13: a read at a cursor `o ≥ 0` with length `c` returns 0 bytes when
`o ≥ TOTAL_SIZE`; otherwise it returns exactly `min c (TOTAL_SIZE - o)` bytes,
the bytes `[o, o + min c (TOTAL_SIZE - o))` of the region buffers laid end to
end, whatever the lock flags are, moves the cursor by the number of bytes
returned and hands the device back as it was (the gates have their slots and
the copies to the reader's buffer succeed). -/
theorem logical_read_returns_device_bytes (dev : vblock_device) (env : Env) (c o : Nat) :
    (TOTAL_SIZE ≤ o → block_dev_read dev env c (o : Int) = .ret ⟨0, [], (o : Int), dev⟩) ∧
    (o < TOTAL_SIZE →
      (∀ i, i < TOTAL_REGIONS → (dev.regions i).read_sem ≠ 0) →
      (∀ n, env.copy_to_user_fails n = false) →
      block_dev_read dev env c (o : Int) =
        .ret ⟨((min c (TOTAL_SIZE - o) : Nat) : Int),
          (List.range (min c (TOTAL_SIZE - o))).map (fun k => byte_at dev (o + k)),
          (o : Int) + ((min c (TOTAL_SIZE - o) : Nat) : Int), dev⟩) := by
  constructor
  · intro h
    have h' : (TOTAL_SIZE : Int) ≤ (o : Int) := by exact_mod_cast h
    simp only [block_dev_read, h', if_true]
  · intro ho hsem hcopy
    obtain ⟨hr1, _⟩ := offset_in_range o ho
    have hr1a : ¬ (TOTAL_SIZE : Int) ≤ (o : Int) := fun h => hr1 (Or.inr h)
    have hr1b : ¬ (o : Int) < 0 := fun h => hr1 (Or.inl h)
    obtain ⟨s', e1, e2, e3, e4⟩ := read_loop_spec env hcopy TOTAL_REGIONS
      ⟨dev, o / REGION_SIZE, o % REGION_SIZE, min c (TOTAL_SIZE - o), 0, []⟩
      (Nat.mod_lt _ (by decide)) (Nat.le_add_right _ _) hsem
    have hbase : o / REGION_SIZE * REGION_SIZE + o % REGION_SIZE = o := by
      simp only [REGION_SIZE]
      omega
    simp only [hbase, Nat.zero_add, List.nil_append, Nat.min_self, min_assoc, min_self] at e2 e3 e4
    simp only [block_dev_read, hr1a, hr1b, if_false, Int.toNat_ofNat, e1, e2, e3, e4]
    congr 2
    split
    · rfl
    · rename_i hz
      have : ((min c (TOTAL_SIZE - o) : Nat) : Int) = 0 := by omega
      rw [this]
      simp

theorem logical_read_returns_device_bytes_witness :
    block_dev_read (after_write scenario_init Env.quiet (bytes "7:1020:ABCD") 0) Env.quiet 5
        ((5000 : Nat) : Int) =
      .ret ⟨0, [], ((5000 : Nat) : Int),
        after_write scenario_init Env.quiet (bytes "7:1020:ABCD") 0⟩ ∧
    block_dev_read (after_write scenario_init Env.quiet (bytes "7:1020:ABCD") 0) Env.quiet 5
        ((1020 : Nat) : Int) =
      .ret ⟨((min 5 (TOTAL_SIZE - 1020) : Nat) : Int),
        (List.range (min 5 (TOTAL_SIZE - 1020))).map
          (fun k => byte_at (after_write scenario_init Env.quiet (bytes "7:1020:ABCD") 0)
            (1020 + k)),
        ((1020 : Nat) : Int) + ((min 5 (TOTAL_SIZE - 1020) : Nat) : Int),
        after_write scenario_init Env.quiet (bytes "7:1020:ABCD") 0⟩ :=
  ⟨(logical_read_returns_device_bytes
      (after_write scenario_init Env.quiet (bytes "7:1020:ABCD") 0) Env.quiet 5 5000).1
      (by decide),
    (logical_read_returns_device_bytes
      (after_write scenario_init Env.quiet (bytes "7:1020:ABCD") 0) Env.quiet 5 1020).2
      (by decide) (by decide) (fun _ => rfl)⟩

/-! ## Errors of the write and the cursor -/

/-- A keyed write `<key>:<offset>:<data>` whose offset field resolves to a
value below 0 or at or above `TOTAL_SIZE` is rejected with `-EINVAL` and the
device is handed back as it was, whatever the lock flags are. -/
theorem keyed_write_out_of_range (dev : vblock_device) (env : Env)
    (ktok otok data : List Nat) (k o lofft : Int)
    (h1 : env.write_alloc_fails = false) (h2 : env.copy_from_user_fails = false)
    (h3 : env.parse_alloc_fails = false)
    (hk : kstrtoint ktok = some k) (ho : kstrtoll otok = some o)
    (hrange : o < 0 ∨ (TOTAL_SIZE : Int) ≤ o) :
    block_dev_write dev env (ktok ++ 58 :: (otok ++ 58 :: data)) lofft =
      .ret ⟨-EINVAL, dev, o⟩ := by
  rw [block_dev_write_keyed dev env ktok otok data k o lofft h1 h2 h3 hk ho]
  simp only [write_commit, hrange, if_true]

theorem keyed_write_out_of_range_example :
    block_dev_write scenario_locked Env.quiet (bytes "1000:4096:HELLO") 0 =
        .ret ⟨-EINVAL, scenario_locked, 4096⟩ ∧
      block_dev_write scenario_init Env.quiet (bytes "7:-1:HELLO") 0 =
        .ret ⟨-EINVAL, scenario_init, -1⟩ :=
  ⟨keyed_write_out_of_range scenario_locked Env.quiet (bytes "1000") (bytes "4096")
      (bytes "HELLO") 1000 4096 0 rfl rfl rfl (by decide) (by decide) (by decide),
    keyed_write_out_of_range scenario_init Env.quiet (bytes "7") (bytes "-1")
      (bytes "HELLO") 7 (-1) 0 rfl rfl rfl (by decide) (by decide) (by decide)⟩

/-- Claim C15: a read, a write or a control request (lock, unlock, erase, raw
region read, info) that returns an error leaves every region's data bytes,
lock flag and lock key, the mirror buffer and the allow-list as they were. -/
theorem failed_request_changes_no_content (dev : vblock_device) (env : Env) :
    (∀ count lofft r, block_dev_read dev env count lofft = .ret r → r.ret < 0 →
      same_content dev r.dev) ∧
    (∀ buffer lofft w, block_dev_write dev env buffer lofft = .ret w → w.ret < 0 →
      same_content dev w.dev) ∧
    (∀ cmd arg r, block_dev_ioctl dev env cmd arg = .ret r → r.ret < 0 →
      same_content dev r.dev) :=
  ⟨fun count lofft r h _ => block_dev_read_same_content dev env count lofft r h,
    fun buffer lofft w h hneg => (block_dev_write_frame dev env buffer lofft w h).2.1 hneg,
    fun cmd arg r h hneg => (block_dev_ioctl_frame dev env cmd arg r h).1 hneg⟩

theorem failed_request_changes_no_content_witness :
    same_content scenario_locked scenario_locked ∧
      same_content scenario_locked
        (after_ioctl scenario_locked Env.quiet .VBLOCK_ERASE_REGION 0) :=
  ⟨(failed_request_changes_no_content scenario_locked Env.quiet).2.1 (bytes "999:0:HELLO") 0
      ⟨-EACCES, scenario_locked, 0⟩ rfl (by decide),
    (failed_request_changes_no_content scenario_locked Env.quiet).2.2 .VBLOCK_ERASE_REGION 0
      ⟨-EACCES, after_ioctl scenario_locked Env.quiet .VBLOCK_ERASE_REGION 0, none, none⟩
      rfl (by decide)⟩

/-- The cursor an accepted write leaves is the parsed offset moved by the
count returned. -/
theorem block_dev_write_cursor (dev : vblock_device) (env : Env) (buffer : List Nat)
    (lofft : Int) (w : WriteResult) (h : block_dev_write dev env buffer lofft = .ret w)
    (hacc : 0 ≤ w.ret) :
    w.lofft = (parse_write_data env (buffer ++ [0]) buffer.length lofft 0).offset + w.ret := by
  obtain ⟨_, _, _, _, n5, n6⟩ := neg_errno_lt_zero
  unfold block_dev_write at h
  simp only at h
  split at h
  · cases h
    simp only at hacc
    omega
  · split at h
    · cases h
      simp only at hacc
      omega
    · split at h
      · rename_i hneg
        cases h
        simp only at hacc
        omega
      · split at h
        · cases h
        · exact (write_commit_frame dev env _ _ w h).2.2.1 hacc

/-- Claim C16: an accepted write leaves the cursor at the resolved offset plus
the number of bytes applied, whatever the cursor was before the call: for
every payload the cursor is the offset `parse_write_data` resolved plus the
count returned, and for a keyed payload `<key>:<o>:<data>` it is `o` plus the
count returned. -/
theorem cursor_after_accepted_write (dev : vblock_device) (env : Env) (lofft : Int)
    (w : WriteResult) :
    (∀ buffer, block_dev_write dev env buffer lofft = .ret w → 0 ≤ w.ret →
      w.lofft = (parse_write_data env (buffer ++ [0]) buffer.length lofft 0).offset + w.ret) ∧
    (∀ ktok otok data k o, kstrtoint ktok = some k → kstrtoll otok = some o →
      block_dev_write dev env (ktok ++ 58 :: (otok ++ 58 :: data)) lofft = .ret w → 0 ≤ w.ret →
      w.lofft = o + w.ret) := by
  constructor
  · intro buffer h hacc
    exact block_dev_write_cursor dev env buffer lofft w h hacc
  · intro ktok otok data k o hk ho h hacc
    have hc := block_dev_write_keyed_accepted dev env ktok otok data k o lofft w hk ho h hacc
    exact (write_commit_frame dev env _ _ w hc).2.2.1 hacc

theorem cursor_after_accepted_write_witness :
    (⟨5, after_write scenario_locked Env.quiet (bytes "1000:0:HELLO") 77, 5⟩ : WriteResult).lofft =
      0 + (⟨5, after_write scenario_locked Env.quiet (bytes "1000:0:HELLO") 77, 5⟩ :
        WriteResult).ret :=
  (cursor_after_accepted_write scenario_locked Env.quiet 77
    ⟨5, after_write scenario_locked Env.quiet (bytes "1000:0:HELLO") 77, 5⟩).2
    (bytes "1000") (bytes "0") (bytes "HELLO") 1000 0 (by decide) (by decide) rfl (by decide)

/-- Claim C17, evaluated on the code: a keyed write that returns an error
applies no bytes, but it leaves the cursor at the offset of the payload, not
where it was: `parse_write_data` has stored the offset through `lofft` before
the range, lock and key checks are made. -/
theorem failed_keyed_write_moves_cursor (dev : vblock_device) (env : Env)
    (ktok otok data : List Nat) (k o lofft : Int) (w : WriteResult)
    (h1 : env.write_alloc_fails = false) (h2 : env.copy_from_user_fails = false)
    (h3 : env.parse_alloc_fails = false)
    (hk : kstrtoint ktok = some k) (ho : kstrtoll otok = some o)
    (h : block_dev_write dev env (ktok ++ 58 :: (otok ++ 58 :: data)) lofft = .ret w)
    (hneg : w.ret < 0) : w.lofft = o ∧ same_content dev w.dev := by
  rw [block_dev_write_keyed dev env ktok otok data k o lofft h1 h2 h3 hk ho] at h
  obtain ⟨c, l⟩ := (write_commit_frame dev env _ _ w h).2.1 hneg
  exact ⟨l, c⟩

theorem failed_keyed_write_moves_cursor_witness :
    block_dev_write scenario_init Env.quiet (bytes "7:5000:X") 0 =
        .ret ⟨-EINVAL, scenario_init, 5000⟩ ∧
      ((⟨-EINVAL, scenario_init, 5000⟩ : WriteResult).lofft = 5000 ∧
        same_content scenario_init (⟨-EINVAL, scenario_init, 5000⟩ : WriteResult).dev) ∧
      write_lofft (block_dev_write scenario_locked Env.quiet (bytes "999:7:X") 0) = some 7 :=
  ⟨rfl,
    failed_keyed_write_moves_cursor scenario_init Env.quiet (bytes "7") (bytes "5000") (bytes "X")
      7 5000 0 ⟨-EINVAL, scenario_init, 5000⟩ rfl rfl rfl (by decide) (by decide) rfl (by decide),
    by decide⟩

/-- Claim C18, evaluated on the code: with region 1 locked under the key 1001,
the write `7:510:HELLO` starts in the unlocked region 0, returns 5 and stores
its last three bytes at the start of region 1, although the key it presents,
7, is not the lock key of region 1. -/
theorem spanning_write_changes_locked_region :
    (scenario_locked_one.regions 1).locked ≠ 0 ∧
      (scenario_locked_one.regions 1).lock_key = 1001 ∧
      (parse_write_data Env.quiet (bytes "7:510:HELLO" ++ [0]) 11 0 0).key = 7 ∧
      write_ret (block_dev_write scenario_locked_one Env.quiet (bytes "7:510:HELLO") 0) = some 5 ∧
      (scenario_locked_one.regions 1).data 0 = 0 ∧
      ((after_write scenario_locked_one Env.quiet (bytes "7:510:HELLO") 0).regions 1).data 0 =
        76 := by
  decide

/-! ## The grammar of the payload -/

theorem kstrtoll_decimal_int (o : Int) (h : -(2 ^ 63) ≤ o ∧ o < 2 ^ 63) :
    kstrtoll (decimal_int o) = some o := by
  unfold decimal_int
  split
  · rename_i hneg
    have hd := kstrtoull_digits_decimal o.natAbs (by omega)
    have hle : ¬ 2 ^ 63 < o.natAbs := by omega
    simp only [kstrtoll, hd, hle, if_false, Option.some.injEq]
    omega
  · rename_i hpos
    have hd := kstrtoll_decimal o.toNat (by omega)
    rw [hd]
    congr 1
    omega

theorem kstrtoint_decimal_int (k : Int) (h : -(2 ^ 31) ≤ k ∧ k < 2 ^ 31) :
    kstrtoint (decimal_int k) = some k :=
  kstrtoll_kstrtoint (decimal_int k) k (kstrtoll_decimal_int k (by omega)) h

theorem cstr_append_nul_cut (data : List Nat) : cstr (data ++ [0]) = cstr data := by
  induction data with
  | nil => simp [cstr]
  | cons c cs ih =>
    simp only [cstr] at ih ⊢
    by_cases hc : c = 0
    · subst hc
      simp [List.takeWhile]
    · have hb : (c != 0) = true := by simpa using hc
      simp [List.takeWhile, hb, ih]

/-- Claim C19, its counterexample: the payload `7:0:A\\0B` is in the keyed form
with key 7 and offset 0, and three bytes follow the second `:`, but the data
the write takes is the single byte `A`: it returns 1 and the bytes 1 and 2 of
the device stay 0. -/
theorem keyed_data_not_always_whole_remainder :
    parse_write_data Env.quiet ((bytes "7:0:" ++ [65, 0, 66]) ++ [0])
        (bytes "7:0:" ++ [65, 0, 66]).length 0 0 = ⟨1, 0, 7⟩ ∧
      write_data 1 ((bytes "7:0:" ++ [65, 0, 66]) ++ [0]) = some [65] ∧
      write_data 1 ((bytes "7:0:" ++ [65, 0, 66]) ++ [0]) ≠ some [65, 0, 66] ∧
      write_ret (block_dev_write scenario_init Env.quiet (bytes "7:0:" ++ [65, 0, 66]) 0) =
        some 1 ∧
      byte_at (after_write scenario_init Env.quiet (bytes "7:0:" ++ [65, 0, 66]) 0) 0 = 65 ∧
      byte_at (after_write scenario_init Env.quiet (bytes "7:0:" ++ [65, 0, 66]) 0) 2 = 0 :=
  ⟨rfl, by decide, by decide, by decide, by decide, by decide⟩

/-- Claim C19, amended: for the payload made of the decimal text of a key `k`
that fits an `int`, a `:`, the decimal text of an offset `o` that fits 64 bits,
a `:` and any bytes `rest`, `parse_write_data` returns 1 with key `k` and
offset `o`, the data pointer of `block_dev_write` stands right behind the
second `:`, and the data taken are the bytes of `rest` up to its first zero
byte, further `:` included; they are all of `rest` when `rest` holds no zero
byte. -/
theorem keyed_form_parse (dev : vblock_device) (env : Env) (k o lofft : Int) (rest : List Nat)
    (h1 : env.write_alloc_fails = false) (h2 : env.copy_from_user_fails = false)
    (h3 : env.parse_alloc_fails = false)
    (hk : -(2 ^ 31) ≤ k ∧ k < 2 ^ 31) (ho : -(2 ^ 63) ≤ o ∧ o < 2 ^ 63) :
    parse_write_data env ((decimal_int k ++ 58 :: (decimal_int o ++ 58 :: rest)) ++ [0])
        (decimal_int k ++ 58 :: (decimal_int o ++ 58 :: rest)).length lofft 0 = ⟨1, o, k⟩ ∧
      write_data_ptr 1 ((decimal_int k ++ 58 :: (decimal_int o ++ 58 :: rest)) ++ [0]) =
        some (rest ++ [0]) ∧
      write_data 1 ((decimal_int k ++ 58 :: (decimal_int o ++ 58 :: rest)) ++ [0]) =
        some (rest.takeWhile (fun c => c != 0)) ∧
      ((∀ c ∈ rest, c ≠ 0) →
        write_data 1 ((decimal_int k ++ 58 :: (decimal_int o ++ 58 :: rest)) ++ [0]) =
          some rest) ∧
      block_dev_write dev env (decimal_int k ++ 58 :: (decimal_int o ++ 58 :: rest)) lofft =
        write_commit dev env ⟨1, o, k⟩ (rest ++ [0]) := by
  have hkk := kstrtoint_decimal_int k hk
  have hoo := kstrtoll_decimal_int o ho
  obtain ⟨hp, hd⟩ := keyed_payload_parse env (decimal_int k) (decimal_int o) rest k o lofft h3
    hkk hoo
  have hw : write_data 1 ((decimal_int k ++ 58 :: (decimal_int o ++ 58 :: rest)) ++ [0]) =
      some (rest.takeWhile (fun c => c != 0)) := by
    unfold write_data
    rw [hd]
    simp only [Option.map_some']
    rw [cstr_append_nul_cut]
    rfl
  refine ⟨hp, hd, hw, ?_, ?_⟩
  · intro hz
    unfold write_data
    rw [hd]
    simp only [Option.map_some']
    rw [cstr_append_nul rest hz]
  · exact block_dev_write_keyed dev env (decimal_int k) (decimal_int o) rest k o lofft h1 h2 h3
      hkk hoo

theorem keyed_form_parse_witness :
    parse_write_data Env.quiet
        ((decimal_int 1000 ++ 58 :: (decimal_int (-12) ++ 58 :: bytes "a:b:c")) ++ [0])
        (decimal_int 1000 ++ 58 :: (decimal_int (-12) ++ 58 :: bytes "a:b:c")).length 5 0 =
        ⟨1, -12, 1000⟩ ∧
      write_data 1
        ((decimal_int 1000 ++ 58 :: (decimal_int (-12) ++ 58 :: bytes "a:b:c")) ++ [0]) =
        some (bytes "a:b:c") ∧
      decimal_int 1000 ++ 58 :: (decimal_int (-12) ++ 58 :: bytes "a:b:c") =
        bytes "1000:-12:a:b:c" :=
  ⟨(keyed_form_parse scenario_init Env.quiet 1000 (-12) 5 (bytes "a:b:c") rfl rfl rfl
      (by decide) (by decide)).1,
    (keyed_form_parse scenario_init Env.quiet 1000 (-12) 5 (bytes "a:b:c") rfl rfl rfl
      (by decide) (by decide)).2.2.2.1 (by decide),
    by decide⟩

theorem take_append_nul (buffer : List Nat) : (buffer ++ [0]).take buffer.length = buffer := by
  rw [List.take_append_of_le_length (le_refl _), List.take_length]

/-- What `parse_write_data` makes of a payload, by its first and second
token. -/
theorem parse_write_data_cases (env : Env) (buffer : List Nat) (lofft key : Int)
    (h3 : env.parse_alloc_fails = false) :
    (∀ k, kstrtoint (first_token buffer) = some k →
      (second_token buffer = none ∨
        ∃ t, second_token buffer = some t ∧ kstrtoll t = none) →
      parse_write_data env (buffer ++ [0]) buffer.length lofft key = ⟨-EINVAL, lofft, k⟩) ∧
    (kstrtoint (first_token buffer) = none → kstrtoll (first_token buffer) = none →
      parse_write_data env (buffer ++ [0]) buffer.length lofft key = ⟨-EINVAL, lofft, key⟩) ∧
    (∀ v, kstrtoint (first_token buffer) = none → kstrtoll (first_token buffer) = some v →
      parse_write_data env (buffer ++ [0]) buffer.length lofft key = ⟨0, v, 0⟩) := by
  unfold first_token second_token
  refine ⟨?_, ?_, ?_⟩
  · intro k hk hs
    simp only [parse_write_data, h3, Bool.false_eq_true, if_false, take_append_nul, hk]
    rcases hs with hs | ⟨t, hs, ht⟩
    · simp only [hs]
    · simp only [hs, ht]
  · intro hk hl
    simp only [parse_write_data, h3, Bool.false_eq_true, if_false, take_append_nul, hk, hl]
  · intro v hk hl
    simp only [parse_write_data, h3, Bool.false_eq_true, if_false, take_append_nul, hk, hl]

theorem kstrtoint_none_range (s : List Nat) (v : Int) (hk : kstrtoint s = none)
    (hl : kstrtoll s = some v) : v < 0 ∨ (TOTAL_SIZE : Int) ≤ v := by
  unfold kstrtoint at hk
  simp only [hl] at hk
  split at hk
  · cases hk
  · rename_i hr
    simp only [TOTAL_SIZE, REGION_SIZE, TOTAL_REGIONS]
    by_contra hc
    apply hr
    constructor
    · omega
    · have : v < 4096 := by
        push_cast at hc
        omega
      omega

/-- Claim C20, evaluated on the code. A payload whose first token is an `int`
and that has no second token, or a second token that is no integer, is
rejected with `-EINVAL`; so is a payload whose first token is no integer at
all. But when the first token is an integer that does not fit an `int`,
`parse_write_data` reads the offset from that first token alone, whatever
follows it, and returns 0 with that offset: it does not fail although the
payload as a whole is no integer. `block_dev_write` then returns `-EINVAL`
from its range check, since such an offset is outside the device. -/
theorem malformed_write_requests (dev : vblock_device) (env : Env) (buffer : List Nat)
    (lofft : Int)
    (h1 : env.write_alloc_fails = false) (h2 : env.copy_from_user_fails = false)
    (h3 : env.parse_alloc_fails = false) :
    (∀ k, kstrtoint (first_token buffer) = some k →
      (second_token buffer = none ∨
        ∃ t, second_token buffer = some t ∧ kstrtoll t = none) →
      parse_write_data env (buffer ++ [0]) buffer.length lofft 0 = ⟨-EINVAL, lofft, k⟩ ∧
        block_dev_write dev env buffer lofft = .ret ⟨-EINVAL, dev, lofft⟩) ∧
    (kstrtoint (first_token buffer) = none → kstrtoll (first_token buffer) = none →
      parse_write_data env (buffer ++ [0]) buffer.length lofft 0 = ⟨-EINVAL, lofft, 0⟩ ∧
        block_dev_write dev env buffer lofft = .ret ⟨-EINVAL, dev, lofft⟩) ∧
    (∀ v, kstrtoint (first_token buffer) = none → kstrtoll (first_token buffer) = some v →
      parse_write_data env (buffer ++ [0]) buffer.length lofft 0 = ⟨0, v, 0⟩ ∧
        block_dev_write dev env buffer lofft = .ret ⟨-EINVAL, dev, v⟩) := by
  obtain ⟨c1, c2, c3⟩ := parse_write_data_cases env buffer lofft 0 h3
  have hneg : -EINVAL < 0 := by decide
  refine ⟨?_, ?_, ?_⟩
  · intro k hk hs
    have hp := c1 k hk hs
    refine ⟨hp, ?_⟩
    simp only [block_dev_write, h1, h2, Bool.false_eq_true, if_false, hp, hneg, if_true]
  · intro hk hl
    have hp := c2 hk hl
    refine ⟨hp, ?_⟩
    simp only [block_dev_write, h1, h2, Bool.false_eq_true, if_false, hp, hneg, if_true]
  · intro v hk hl
    have hp := c3 v hk hl
    refine ⟨hp, ?_⟩
    have hr := kstrtoint_none_range (first_token buffer) v hk hl
    simp only [block_dev_write, h1, h2, Bool.false_eq_true, if_false, hp, write_data_ptr,
      write_commit, hr, if_true]
    simp

theorem malformed_write_requests_witness :
    kstrtoll (bytes "3000000000:abc") = none ∧
      (parse_write_data Env.quiet (bytes "3000000000:abc" ++ [0])
          (bytes "3000000000:abc").length 0 0 = ⟨0, 3000000000, 0⟩ ∧
        block_dev_write scenario_init Env.quiet (bytes "3000000000:abc") 0 =
          .ret ⟨-EINVAL, scenario_init, 3000000000⟩) ∧
      (parse_write_data Env.quiet (bytes "5:abc" ++ [0]) (bytes "5:abc").length 0 0 =
          ⟨-EINVAL, 0, 5⟩ ∧
        block_dev_write scenario_init Env.quiet (bytes "5:abc") 0 =
          .ret ⟨-EINVAL, scenario_init, 0⟩) :=
  ⟨by decide,
    (malformed_write_requests scenario_init Env.quiet (bytes "3000000000:abc") 0 rfl rfl rfl).2.2
      3000000000 (by decide) (by decide),
    (malformed_write_requests scenario_init Env.quiet (bytes "5:abc") 0 rfl rfl rfl).1
      5 (by decide) (Or.inr ⟨bytes "abc", by decide, by decide⟩)⟩

/-! ## The offset-only form and the key of an unlocked region -/

/-- Whenever `parse_write_data` reports the offset-only form, the write is
rejected: the offset it read does not fit an `int`, so it lies outside the
device. -/
theorem offset_only_parse_rejected (dev : vblock_device) (env : Env) (buffer : List Nat)
    (lofft : Int) (h1 : env.write_alloc_fails = false) (h2 : env.copy_from_user_fails = false)
    (h0 : (parse_write_data env (buffer ++ [0]) buffer.length lofft 0).ret = 0) :
    block_dev_write dev env buffer lofft =
      .ret ⟨-EINVAL, dev, (parse_write_data env (buffer ++ [0]) buffer.length lofft 0).offset⟩ := by
  have hneg : -ENOMEM ≠ 0 ∧ -EINVAL ≠ 0 ∧ (1 : Int) ≠ 0 := by decide
  have hrange : (parse_write_data env (buffer ++ [0]) buffer.length lofft 0).offset < 0 ∨
      (TOTAL_SIZE : Int) ≤ (parse_write_data env (buffer ++ [0]) buffer.length lofft 0).offset := by
    revert h0
    simp only [parse_write_data, take_append_nul]
    split
    · intro h
      exact absurd h hneg.1
    · cases hk : kstrtoint ((strsep (some (buffer ++ [0]))).1.getD []) with
      | some k =>
        simp only
        split
        · intro h
          exact absurd h hneg.2.1
        · split
          · intro h
            exact absurd h hneg.2.1
          · intro h
            exact absurd h hneg.2.2
      | none =>
        simp only
        cases hl : kstrtoll ((strsep (some (buffer ++ [0]))).1.getD []) with
        | none =>
          intro h
          exact absurd h hneg.2.1
        | some v =>
          intro _
          exact kstrtoint_none_range _ v hk hl
  simp only [block_dev_write, h1, h2, Bool.false_eq_true, if_false, h0, write_data_ptr,
    write_commit, hrange, if_true]
  simp

/-- Claim C21, evaluated on the code: a payload that is nothing but the decimal
text of an offset `o` with `0 ≤ o < 4096` is rejected with `-EINVAL`, locked
region or not, and device and cursor stay as they were: the only token is read
as a key and the offset is found missing. No payload at all is accepted in
the offset-only form: whenever `parse_write_data` returns 0 the write returns
`-EINVAL` as well. -/
theorem offset_only_write_never_reports_zero (dev : vblock_device) (env : Env) (lofft : Int)
    (h1 : env.write_alloc_fails = false) (h2 : env.copy_from_user_fails = false)
    (h3 : env.parse_alloc_fails = false) :
    (∀ o : Int, 0 ≤ o → o < (TOTAL_SIZE : Int) →
      block_dev_write dev env (decimal_int o) lofft = .ret ⟨-EINVAL, dev, lofft⟩) ∧
    (∀ buffer, (parse_write_data env (buffer ++ [0]) buffer.length lofft 0).ret = 0 →
      write_ret (block_dev_write dev env buffer lofft) = some (-EINVAL)) := by
  constructor
  · intro o h0 hlt
    have hr : -(2 ^ 31) ≤ o ∧ o < 2 ^ 31 := by
      simp only [TOTAL_SIZE, REGION_SIZE, TOTAL_REGIONS] at hlt
      push_cast at hlt
      omega
    exact block_dev_write_single_token dev env (decimal_int o) o lofft h1 h2 h3
      (kstrtoint_decimal_int o hr)
  · intro buffer h0
    rw [offset_only_parse_rejected dev env buffer lofft h1 h2 h0]
    rfl

theorem offset_only_write_never_reports_zero_witness :
    block_dev_write scenario_init Env.quiet (decimal_int 100) 0 =
        .ret ⟨-EINVAL, scenario_init, 0⟩ ∧
      decimal_int 100 = bytes "100" ∧
      write_ret (block_dev_write scenario_init Env.quiet (bytes "3000000000") 0) =
        some (-EINVAL) :=
  ⟨(offset_only_write_never_reports_zero scenario_init Env.quiet 0 rfl rfl rfl).1 100
      (by decide) (by decide),
    by decide,
    (offset_only_write_never_reports_zero scenario_init Env.quiet 0 rfl rfl rfl).2
      (bytes "3000000000") rfl⟩

/-- The commit part does not look at the key when the region of the offset is
unlocked. -/
theorem write_commit_key_unlocked (dev : vblock_device) (env : Env) (k1 k2 o : Int)
    (d : List Nat)
    (hl : 0 ≤ o → o < (TOTAL_SIZE : Int) → (dev.regions (o.toNat / REGION_SIZE)).locked = 0) :
    write_commit dev env ⟨1, o, k1⟩ d = write_commit dev env ⟨1, o, k2⟩ d := by
  by_cases hr : o < 0 ∨ (TOTAL_SIZE : Int) ≤ o
  · simp only [write_commit, hr, if_true]
  · have hl0 := hl (by omega) (by omega)
    simp only [write_commit, hr, if_false, hl0, ne_eq, not_true_eq_false, false_and]

/-- Claim C30: for every device state, every offset `o` whose region is
unlocked, every data and every two keys `k1` and `k2` (any tokens `kstrtoint`
accepts, in the allow-list or not), the writes `<k1>:<o>:<data>` and
`<k2>:<o>:<data>` have the same outcome: the same return value, the same
device state and the same cursor. -/
theorem key_ignored_for_unlocked_region (dev : vblock_device) (env : Env)
    (ktok1 ktok2 otok data : List Nat) (k1 k2 o lofft : Int)
    (h1 : env.write_alloc_fails = false) (h2 : env.copy_from_user_fails = false)
    (h3 : env.parse_alloc_fails = false)
    (hk1 : kstrtoint ktok1 = some k1) (hk2 : kstrtoint ktok2 = some k2)
    (ho : kstrtoll otok = some o)
    (hl : 0 ≤ o → o < (TOTAL_SIZE : Int) → (dev.regions (o.toNat / REGION_SIZE)).locked = 0) :
    block_dev_write dev env (ktok1 ++ 58 :: (otok ++ 58 :: data)) lofft =
      block_dev_write dev env (ktok2 ++ 58 :: (otok ++ 58 :: data)) lofft := by
  rw [block_dev_write_keyed dev env ktok1 otok data k1 o lofft h1 h2 h3 hk1 ho,
    block_dev_write_keyed dev env ktok2 otok data k2 o lofft h1 h2 h3 hk2 ho]
  exact write_commit_key_unlocked dev env k1 k2 o (data ++ [0]) hl

theorem key_ignored_for_unlocked_region_witness :
    block_dev_write scenario_locked Env.quiet (bytes "1000:600:HELLO") 0 =
      block_dev_write scenario_locked Env.quiet (bytes "-7:600:HELLO") 0 :=
  key_ignored_for_unlocked_region scenario_locked Env.quiet (bytes "1000") (bytes "-7")
    (bytes "600") (bytes "HELLO") 1000 (-7) 600 0 rfl rfl rfl (by decide) (by decide) (by decide)
    (fun _ _ => by decide)

/-! ## Control requests that query the device -/

theorem lock_bitmap_loop_testBit (dev : vblock_device) : ∀ (n i : Nat),
    (lock_bitmap_loop dev n).testBit i =
      (decide (i < n) && decide ((dev.regions i).locked ≠ 0)) := by
  intro n
  induction n with
  | zero =>
    intro i
    simp [lock_bitmap_loop]
  | succ n ih =>
    intro i
    simp only [lock_bitmap_loop]
    split
    · rename_i hl
      rw [Nat.testBit_or, ih i, Nat.one_shiftLeft, Nat.testBit_two_pow]
      by_cases hi : n = i
      · subst hi
        simp [hl]
      · have : (i < n + 1) ↔ (i < n) := by omega
        simp [hi, this]
    · rename_i hl
      rw [ih i]
      by_cases hi : i = n
      · subst hi
        simp [hl]
      · have : (i < n + 1) ↔ (i < n) := by omega
        simp [this]

/-- Claim C23: the get-info request returns 0, hands the device back as it
was, and copies out a `struct device_info` whose lock bitmap has bit `i` set
exactly when region `i` is locked (for `i` in `0 .. 7`; the bitmap fits the
`unsigned char`), with the mirror flag, `total_regions = 8`,
`region_size = 512`, `key_count`, the allowed keys in the key slots below
`key_count` and zero in the other slots. -/
theorem device_info_request (dev : vblock_device) (env : Env) (arg : Int)
    (hcopy : env.copy_to_user_fails 0 = false) :
    ∃ info, block_dev_ioctl dev env .VBLOCK_GET_INFO arg = .ret ⟨0, dev, none, some info⟩ ∧
      (∀ i, i < TOTAL_REGIONS →
        (info.lock_bitmap.testBit i = true ↔ (dev.regions i).locked ≠ 0)) ∧
      info.lock_bitmap < 256 ∧
      info.mirror_enabled = dev.mirror_enable ∧
      info.total_regions = 8 ∧ info.region_size = 512 ∧
      info.key_count = dev.key_count ∧
      (∀ i, i < MAX_KEYS → (i : Int) < dev.key_count → info.valid_keys i = dev.user_keys i) ∧
      (∀ i, i < MAX_KEYS → dev.key_count ≤ (i : Int) → info.valid_keys i = 0) := by
  refine ⟨{ lock_bitmap := lock_bitmap_loop dev TOTAL_REGIONS
            mirror_enabled := dev.mirror_enable
            total_regions := TOTAL_REGIONS
            region_size := REGION_SIZE
            valid_keys := fun i =>
              if (i : Int) < min dev.key_count (MAX_KEYS : Int) then dev.user_keys i else 0
            key_count := dev.key_count }, ?_, ?_, ?_, rfl, rfl, rfl, rfl, ?_, ?_⟩
  · simp only [block_dev_ioctl, hcopy, Bool.false_eq_true, if_false]
  · intro i hi
    simp only [lock_bitmap_loop_testBit, Bool.and_eq_true, decide_eq_true_eq, hi, true_and]
  · have h : lock_bitmap_loop dev TOTAL_REGIONS < 2 ^ 8 := by
      apply Nat.lt_pow_two_of_testBit
      intro i hi
      have hn : ¬ i < TOTAL_REGIONS := by
        simp only [TOTAL_REGIONS]
        omega
      simp [lock_bitmap_loop_testBit, hn]
    exact h
  · intro i hi hk
    have hm : (i : Int) < min dev.key_count (MAX_KEYS : Int) := by
      simp only [MAX_KEYS] at hi ⊢
      omega
    simp only [hm, if_true]
  · intro i hi hk
    have hm : ¬ (i : Int) < min dev.key_count (MAX_KEYS : Int) := by
      simp only [MAX_KEYS] at hi ⊢
      omega
    simp only [hm, if_false]

theorem device_info_request_witness :
    ∃ info, block_dev_ioctl scenario_locked_one Env.quiet .VBLOCK_GET_INFO 0 =
        .ret ⟨0, scenario_locked_one, none, some info⟩ ∧
      (∀ i, i < TOTAL_REGIONS →
        (info.lock_bitmap.testBit i = true ↔ (scenario_locked_one.regions i).locked ≠ 0)) ∧
      info.lock_bitmap < 256 ∧
      info.mirror_enabled = scenario_locked_one.mirror_enable ∧
      info.total_regions = 8 ∧ info.region_size = 512 ∧
      info.key_count = scenario_locked_one.key_count ∧
      (∀ i, i < MAX_KEYS → (i : Int) < scenario_locked_one.key_count →
        info.valid_keys i = scenario_locked_one.user_keys i) ∧
      (∀ i, i < MAX_KEYS → scenario_locked_one.key_count ≤ (i : Int) → info.valid_keys i = 0) :=
  device_info_request scenario_locked_one Env.quiet 0 rfl

/-- Claim C24: for every in-range region index `r` the raw-region-read request
returns 0 and copies out the region number and the `REGION_SIZE` bytes of
region `r`, whatever its lock flag is, and hands back the device as it was. -/
theorem raw_region_read (dev : vblock_device) (env : Env) (r : Nat)
    (hr : r < TOTAL_REGIONS) (hfrom : env.copy_from_user_fails = false)
    (hto : env.copy_to_user_fails 0 = false) (hs : (dev.regions r).read_sem ≠ 0) :
    block_dev_ioctl dev env .VBLOCK_READ_REGION (r : Int) =
        .ret ⟨0, dev, some ((r : Int), region_bytes dev r), none⟩ ∧
      (region_bytes dev r).length = REGION_SIZE ∧
      ∀ j, j < REGION_SIZE → (region_bytes dev r).getD j 0 = (dev.regions r).data j := by
  refine ⟨?_, ?_, ?_⟩
  · simp only [block_dev_ioctl, hfrom, Bool.false_eq_true, if_false, region_index_in_range r hr,
      Int.toNat_ofNat, down_available dev r hs, up_after_down dev r hs, hto, region_bytes]
    simp
  · simp [region_bytes]
  · intro j hj
    simp [region_bytes, List.getD, hj]

theorem raw_region_read_witness :
    block_dev_ioctl scenario_locked_one Env.quiet .VBLOCK_READ_REGION ((1 : Nat) : Int) =
        .ret ⟨0, scenario_locked_one, some (((1 : Nat) : Int), region_bytes scenario_locked_one 1),
          none⟩ ∧
      (region_bytes scenario_locked_one 1).length = REGION_SIZE ∧
      ∀ j, j < REGION_SIZE →
        (region_bytes scenario_locked_one 1).getD j 0 = (scenario_locked_one.regions 1).data j :=
  raw_region_read scenario_locked_one Env.quiet 1 (by decide) rfl rfl (by decide)

/-- Claim C25: a region index below 0 or at or above `TOTAL_REGIONS` makes the
lock, unlock, raw-region-read and erase requests return `-EINVAL` with the
device unchanged; for an index in `[0, 8)` lock, unlock and raw region read
return 0, and erase returns 0 on an unlocked region and `-EACCES` on a locked
one. -/
theorem region_index_validation (dev : vblock_device) (env : Env) (arg : Int)
    (hfrom : env.copy_from_user_fails = false) :
    (arg < 0 ∨ (TOTAL_REGIONS : Int) ≤ arg →
      block_dev_ioctl dev env .VBLOCK_LOCK_REGION arg = .ret ⟨-EINVAL, dev, none, none⟩ ∧
      block_dev_ioctl dev env .VBLOCK_UNLOCK_REGION arg = .ret ⟨-EINVAL, dev, none, none⟩ ∧
      block_dev_ioctl dev env .VBLOCK_READ_REGION arg = .ret ⟨-EINVAL, dev, none, none⟩ ∧
      block_dev_ioctl dev env .VBLOCK_ERASE_REGION arg = .ret ⟨-EINVAL, dev, none, none⟩) ∧
    (0 ≤ arg → arg < (TOTAL_REGIONS : Int) →
      (dev.regions arg.toNat).region_mutex = false → (dev.regions arg.toNat).read_sem ≠ 0 →
      env.copy_to_user_fails 0 = false →
      ioctl_ret (block_dev_ioctl dev env .VBLOCK_LOCK_REGION arg) = some 0 ∧
      ioctl_ret (block_dev_ioctl dev env .VBLOCK_UNLOCK_REGION arg) = some 0 ∧
      ioctl_ret (block_dev_ioctl dev env .VBLOCK_READ_REGION arg) = some 0 ∧
      ioctl_ret (block_dev_ioctl dev env .VBLOCK_ERASE_REGION arg) =
        some (if (dev.regions arg.toNat).locked ≠ 0 then -EACCES else 0)) := by
  constructor
  · intro h
    simp only [block_dev_ioctl, hfrom, Bool.false_eq_true, if_false, h, if_true, and_self]
  · intro h0 h8 hm hs hto
    have hr : ¬ (arg < 0 ∨ (TOTAL_REGIONS : Int) ≤ arg) := by omega
    refine ⟨?_, ?_, ?_, ?_⟩
    · simp only [block_dev_ioctl, hfrom, Bool.false_eq_true, if_false, hr,
        mutex_lock_free dev _ hm, ioctl_ret]
    · simp only [block_dev_ioctl, hfrom, Bool.false_eq_true, if_false, hr,
        mutex_lock_free dev _ hm, ioctl_ret]
    · simp only [block_dev_ioctl, hfrom, Bool.false_eq_true, if_false, hr,
        down_available dev _ hs, hto, ioctl_ret]
    · simp only [block_dev_ioctl, hfrom, Bool.false_eq_true, if_false, hr,
        mutex_lock_free dev _ hm]
      by_cases hl : (dev.regions arg.toNat).locked ≠ 0
      · simp [hl, ioctl_ret]
      · simp only [ne_eq, not_not] at hl
        simp [hl, down, hs, ioctl_ret]

theorem region_index_validation_witness :
    (block_dev_ioctl scenario_locked_one Env.quiet .VBLOCK_LOCK_REGION 8 =
        .ret ⟨-EINVAL, scenario_locked_one, none, none⟩ ∧
      block_dev_ioctl scenario_locked_one Env.quiet .VBLOCK_UNLOCK_REGION 8 =
        .ret ⟨-EINVAL, scenario_locked_one, none, none⟩ ∧
      block_dev_ioctl scenario_locked_one Env.quiet .VBLOCK_READ_REGION 8 =
        .ret ⟨-EINVAL, scenario_locked_one, none, none⟩ ∧
      block_dev_ioctl scenario_locked_one Env.quiet .VBLOCK_ERASE_REGION 8 =
        .ret ⟨-EINVAL, scenario_locked_one, none, none⟩) ∧
    (ioctl_ret (block_dev_ioctl scenario_locked_one Env.quiet .VBLOCK_LOCK_REGION 1) = some 0 ∧
      ioctl_ret (block_dev_ioctl scenario_locked_one Env.quiet .VBLOCK_UNLOCK_REGION 1) =
        some 0 ∧
      ioctl_ret (block_dev_ioctl scenario_locked_one Env.quiet .VBLOCK_READ_REGION 1) = some 0 ∧
      ioctl_ret (block_dev_ioctl scenario_locked_one Env.quiet .VBLOCK_ERASE_REGION 1) =
        some (if (scenario_locked_one.regions (1 : Int).toNat).locked ≠ 0 then -EACCES else 0)) :=
  ⟨(region_index_validation scenario_locked_one Env.quiet 8 rfl).1 (by decide),
    (region_index_validation scenario_locked_one Env.quiet 1 rfl).2 (by decide) (by decide)
      (by decide) (by decide) rfl⟩

/-! ## The chunked write as a flat splice -/

theorem concat_regions_eq (dev : vblock_device) : ∀ n,
    concat_regions dev n = (List.range (n * REGION_SIZE)).map (byte_at dev) := by
  intro n
  induction n with
  | zero => simp [concat_regions]
  | succ n ih =>
    have e : (n + 1) * REGION_SIZE = n * REGION_SIZE + REGION_SIZE := by ring
    rw [concat_regions, ih, e, List.range_add (n * REGION_SIZE) REGION_SIZE, List.map_append]
    apply congrArg (fun l => (List.range (n * REGION_SIZE)).map (byte_at dev) ++ l)
    simp only [region_bytes, List.map_map]
    apply List.map_congr_left
    intro j hj
    have hj' : j < REGION_SIZE := List.mem_range.1 hj
    simp only [Function.comp, byte_at]
    have e1 : (n * REGION_SIZE + j) / REGION_SIZE = n := by
      simp only [REGION_SIZE] at *
      omega
    have e2 : (n * REGION_SIZE + j) % REGION_SIZE = j := by
      simp only [REGION_SIZE] at *
      omega
    rw [e1, e2]

theorem device_bytes_eq (dev : vblock_device) :
    device_bytes dev = (List.range TOTAL_SIZE).map (byte_at dev) := by
  have e : TOTAL_SIZE = TOTAL_REGIONS * REGION_SIZE := by decide
  rw [device_bytes, concat_regions_eq, e]

theorem device_bytes_length (dev : vblock_device) : (device_bytes dev).length = TOTAL_SIZE := by
  simp [device_bytes_eq]

theorem device_bytes_getD (dev : vblock_device) (x : Nat) (hx : x < TOTAL_SIZE) :
    (device_bytes dev).getD x 0 = byte_at dev x := by
  simp [device_bytes_eq, List.getD, hx]

/-- A stream that agrees with `f` outside `[o, o + d.length)` and with `d`
inside is the splice of `d` into the stream of `f`. -/
theorem splice_of_pointwise (f g : Nat → Nat) (n o : Nat) (d : List Nat)
    (hfit : o + d.length ≤ n)
    (h : ∀ x, x < n → g x = if o ≤ x ∧ x < o + d.length then d.getD (x - o) 0 else f x) :
    (List.range n).map g = splice ((List.range n).map f) o d := by
  apply List.ext_getElem?
  intro i
  by_cases hi : i < n
  · simp only [splice, List.getElem?_map, List.getElem?_range hi, Option.map_some', h i hi]
    by_cases h1 : i < o
    · have hlen : i < (List.take o (List.map f (List.range n)) ++ d).length := by
        simp
        omega
      rw [List.getElem?_append_left hlen]
      have hlen2 : i < (List.take o (List.map f (List.range n))).length := by
        simp
        omega
      rw [List.getElem?_append_left hlen2, List.getElem?_take_of_lt h1, List.getElem?_map,
        List.getElem?_range hi]
      have : ¬ (o ≤ i ∧ i < o + d.length) := by omega
      simp [this]
    · by_cases h2 : i < o + d.length
      · have hlen : i < (List.take o (List.map f (List.range n)) ++ d).length := by
          simp
          omega
        rw [List.getElem?_append_left hlen]
        have hlen2 : (List.take o (List.map f (List.range n))).length ≤ i := by
          simp
          omega
        rw [List.getElem?_append_right hlen2]
        have e : (List.take o (List.map f (List.range n))).length = o := by
          simp
          omega
        have h3 : o ≤ i ∧ i < o + d.length := by omega
        have h4 : i - o < d.length := by omega
        rw [e]
        simp [h3, List.getD, List.getElem?_eq_getElem h4]
      · have hlen : (List.take o (List.map f (List.range n)) ++ d).length ≤ i := by
          simp
          omega
        rw [List.getElem?_append_right hlen]
        have e : (List.take o (List.map f (List.range n)) ++ d).length = o + d.length := by
          simp
          omega
        have h3 : ¬ (o ≤ i ∧ i < o + d.length) := by omega
        have h5 : o + d.length + (i - (o + d.length)) = i := by omega
        rw [e]
        simp [h3, List.getElem?_drop, h5, List.getElem?_range hi]
  · have hlen1 : ((List.range n).map g).length ≤ i := by
      simp
      omega
    have hlen2 : (splice ((List.range n).map f) o d).length ≤ i := by
      simp [splice]
      omega
    rw [List.getElem?_eq_none hlen1, List.getElem?_eq_none hlen2]

theorem cstr_getD : ∀ (p : List Nat) (i : Nat), i < strlen p → (cstr p).getD i 0 = p.getD i 0 := by
  intro p
  induction p with
  | nil =>
    intro i h
    simp [strlen, cstr] at h
  | cons c cs ih =>
    intro i h
    by_cases hc : c = 0
    · subst hc
      simp [strlen, cstr, List.takeWhile] at h
    · have hb : (c != 0) = true := by simpa using hc
      have e : cstr (c :: cs) = c :: cstr cs := by
        simp [cstr, List.takeWhile, hb]
      rw [e]
      cases i with
      | zero => rfl
      | succ i =>
        have h' : i < strlen cs := by
          simp only [strlen, e, List.length_cons] at h
          simp only [strlen]
          omega
        simpa [List.getD] using ih i h'

/-- An accepted write, seen on the bytes of the device: it returns
`m = min (strlen data_ptr) (TOTAL_SIZE - o)` and lays the first `m` bytes of the
string at the data pointer over the bytes from offset `o` on. -/
theorem write_commit_bytes (dev : vblock_device) (env : Env) (p : ParseResult)
    (d : List Nat) (w : WriteResult) (h : write_commit dev env p d = .ret w) (hacc : 0 ≤ w.ret) :
    w.ret = ((min (strlen d) (TOTAL_SIZE - p.offset.toNat) : Nat) : Int) ∧
      ∀ x, byte_at w.dev x =
        if p.offset.toNat ≤ x ∧
            x < p.offset.toNat + min (strlen d) (TOTAL_SIZE - p.offset.toNat) then
          d.getD (x - p.offset.toNat) 0
        else byte_at dev x := by
  obtain ⟨a1, a2, _, hm, hs⟩ := write_commit_accepted dev env p d w h hacc
  obtain ⟨n1, n2, n3, n4, _, _⟩ := neg_errno_lt_zero
  have bad : ∀ (e : Int) (dv : vblock_device) (l : Int), e < 0 →
      (Outcome.ret (⟨e, dv, l⟩ : WriteResult)) = .ret w → False := by
    intro e dv l he hw
    cases hw
    simp only at hacc
    omega
  have ho : p.offset.toNat < TOTAL_SIZE := by
    have : ((p.offset.toNat : Nat) : Int) = p.offset := Int.toNat_of_nonneg a1
    omega
  obtain ⟨dev1, dev2, l1, l2, l3, _, _, _, _, _, _, _⟩ := lock_then_down dev _ hm hs
  obtain ⟨s', e1, e2, e3, _, _, _, _, _, _⟩ := write_loop_spec d TOTAL_REGIONS
    ⟨dev2, p.offset.toNat / REGION_SIZE, p.offset.toNat % REGION_SIZE, strlen d, 0⟩
    (Nat.mod_lt _ (by decide)) (Nat.le_add_right _ _)
  have hbase : p.offset.toNat / REGION_SIZE * REGION_SIZE + p.offset.toNat % REGION_SIZE =
      p.offset.toNat := by
    simp only [REGION_SIZE]
    omega
  simp only [hbase, Nat.zero_add] at e2 e3
  unfold write_commit at h
  simp only at h
  split at h
  · exact (bad _ _ _ n1 h).elim
  · split at h
    · exact (bad _ _ _ n1 h).elim
    · split at h
      · exact (bad _ _ _ n2 h).elim
      · split at h
        · exact (bad _ _ _ n2 h).elim
        · split at h
          · exact (bad _ _ _ n3 h).elim
          · simp only [l1, l2, e1] at h
            split at h
            · cases h
            · cases h
              constructor
              · simp only [e2]
              · intro x
                rw [← byte_at_congr dev2 dev x (l3 _).1, ← e3 x]
                simp only [mutex_unlock, up]
                rw [byte_at_set_region _ _ _ _ (by rfl), byte_at_set_region _ _ _ _ (by rfl)]

/-- The same on the concatenation of the region buffers. -/
theorem write_commit_flat_splice (dev : vblock_device) (env : Env) (p : ParseResult)
    (d : List Nat) (w : WriteResult) (h : write_commit dev env p d = .ret w) (hacc : 0 ≤ w.ret) :
    w.ret = ((min (cstr d).length (TOTAL_SIZE - p.offset.toNat) : Nat) : Int) ∧
      device_bytes w.dev = splice (device_bytes dev) p.offset.toNat
        ((cstr d).take (min (cstr d).length (TOTAL_SIZE - p.offset.toNat))) ∧
      ∀ x, x < p.offset.toNat ∨
          p.offset.toNat + min (cstr d).length (TOTAL_SIZE - p.offset.toNat) ≤ x →
        byte_at w.dev x = byte_at dev x := by
  obtain ⟨a1, a2, _, _, _⟩ := write_commit_accepted dev env p d w h hacc
  have ho : p.offset.toNat < TOTAL_SIZE := by
    have : ((p.offset.toNat : Nat) : Int) = p.offset := Int.toNat_of_nonneg a1
    omega
  obtain ⟨b1, b2⟩ := write_commit_bytes dev env p d w h hacc
  have hlen : ((cstr d).take (min (cstr d).length (TOTAL_SIZE - p.offset.toNat))).length =
      min (strlen d) (TOTAL_SIZE - p.offset.toNat) := by
    simp [strlen]
  refine ⟨b1, ?_, ?_⟩
  · rw [device_bytes_eq, device_bytes_eq]
    apply splice_of_pointwise
    · rw [hlen]
      omega
    · intro x _
      rw [b2 x, hlen]
      split
      · rename_i hx
        have hx1 : x - p.offset.toNat < min (cstr d).length (TOTAL_SIZE - p.offset.toNat) := by
          simp only [strlen] at hx
          omega
        have hx2 : x - p.offset.toNat < strlen d := by
          simp only [strlen]
          omega
        rw [← cstr_getD d _ hx2]
        simp [List.getD, List.getElem?_take_of_lt hx1]
      · rfl
  · intro x hx
    rw [b2 x]
    have : ¬ (p.offset.toNat ≤ x ∧
        x < p.offset.toNat + min (strlen d) (TOTAL_SIZE - p.offset.toNat)) := by
      simp only [strlen]
      omega
    simp only [this, if_false]

/-- An accepted write went through the commit part with the result of the
parser and a data pointer that is not `NULL`. -/
theorem block_dev_write_accepted_commit (dev : vblock_device) (env : Env) (buffer : List Nat)
    (lofft : Int) (w : WriteResult) (h : block_dev_write dev env buffer lofft = .ret w)
    (hacc : 0 ≤ w.ret) :
    ∃ data_ptr,
      write_data_ptr (parse_write_data env (buffer ++ [0]) buffer.length lofft 0).ret
        (buffer ++ [0]) = some data_ptr ∧
      write_commit dev env (parse_write_data env (buffer ++ [0]) buffer.length lofft 0)
        data_ptr = .ret w := by
  obtain ⟨_, _, _, _, n5, n6⟩ := neg_errno_lt_zero
  unfold block_dev_write at h
  simp only at h
  split at h
  · cases h
    simp only at hacc
    omega
  · split at h
    · cases h
      simp only at hacc
      omega
    · split at h
      · rename_i hneg
        cases h
        simp only at hacc
        omega
      · split at h
        · cases h
        · rename_i dp hdp
          exact ⟨dp, hdp, h⟩

/-- Claim C22, its counterexample: the write `7:0:A\\0B` is accepted with the
three data bytes 65, 0, 66 behind the second `:`, at offset 0, but it returns
1 and not 3, and byte 2 of the device is not the third data byte. -/
theorem write_not_always_splice_of_payload_data :
    write_data_ptr 1 ((bytes "7:0:" ++ [65, 0, 66]) ++ [0]) = some ([65, 0, 66] ++ [0]) ∧
      write_ret (block_dev_write scenario_init Env.quiet (bytes "7:0:" ++ [65, 0, 66]) 0) =
        some 1 ∧
      min ([65, 0, 66] : List Nat).length (TOTAL_SIZE - 0) = 3 ∧
      byte_at (after_write scenario_init Env.quiet (bytes "7:0:" ++ [65, 0, 66]) 0) 2 ≠ 66 := by
  decide

/-- Claim C22, amended: for every accepted write, with `d` the data the write
takes (the bytes at the data pointer up to the first zero byte; for a keyed
payload `<key>:<o>:<data>` the bytes of `data` up to its first zero byte), `o`
the resolved offset and `m = min (length d) (4096 - o)`, the write returns `m`,
the concatenation of the region buffers afterwards is the concatenation before
with the bytes `[o, o + m)` replaced by the first `m` bytes of `d`, and every
byte outside `[o, o + m)` is unchanged, across region boundaries too. -/
theorem chunked_write_is_flat_splice (dev : vblock_device) (env : Env) (lofft : Int)
    (w : WriteResult) (hacc : 0 ≤ w.ret) :
    (∀ buffer, block_dev_write dev env buffer lofft = .ret w →
      ∃ (d : List Nat) (o : Nat),
        write_data (parse_write_data env (buffer ++ [0]) buffer.length lofft 0).ret
          (buffer ++ [0]) = some d ∧
        (parse_write_data env (buffer ++ [0]) buffer.length lofft 0).offset = (o : Int) ∧
        o < TOTAL_SIZE ∧
        w.ret = ((min d.length (TOTAL_SIZE - o) : Nat) : Int) ∧
        device_bytes w.dev =
          splice (device_bytes dev) o (d.take (min d.length (TOTAL_SIZE - o))) ∧
        ∀ x, x < o ∨ o + min d.length (TOTAL_SIZE - o) ≤ x →
          byte_at w.dev x = byte_at dev x) ∧
    (∀ (ktok otok data : List Nat) (k : Int) (o : Nat), kstrtoint ktok = some k →
      kstrtoll otok = some (o : Int) →
      block_dev_write dev env (ktok ++ 58 :: (otok ++ 58 :: data)) lofft = .ret w →
      w.ret = ((min (cstr data).length (TOTAL_SIZE - o) : Nat) : Int) ∧
        device_bytes w.dev =
          splice (device_bytes dev) o ((cstr data).take (min (cstr data).length (TOTAL_SIZE - o))) ∧
        ∀ x, x < o ∨ o + min (cstr data).length (TOTAL_SIZE - o) ≤ x →
          byte_at w.dev x = byte_at dev x) := by
  constructor
  · intro buffer h
    obtain ⟨dp, hdp, hc⟩ := block_dev_write_accepted_commit dev env buffer lofft w h hacc
    obtain ⟨a1, a2, _, _, _⟩ := write_commit_accepted dev env _ dp w hc hacc
    obtain ⟨c1, c2, c3⟩ := write_commit_flat_splice dev env _ dp w hc hacc
    have e : (((parse_write_data env (buffer ++ [0]) buffer.length lofft 0).offset.toNat : Nat) :
        Int) = (parse_write_data env (buffer ++ [0]) buffer.length lofft 0).offset :=
      Int.toNat_of_nonneg a1
    refine ⟨cstr dp, (parse_write_data env (buffer ++ [0]) buffer.length lofft 0).offset.toNat,
      ?_, e.symm, ?_, c1, c2, c3⟩
    · simp only [write_data, hdp, Option.map_some']
    · omega
  · intro ktok otok data k o hk ho h
    have hc := block_dev_write_keyed_accepted dev env ktok otok data k o lofft w hk ho h hacc
    have c := write_commit_flat_splice dev env _ (data ++ [0]) w hc hacc
    simp only [cstr_append_nul_cut, Int.toNat_ofNat] at c
    exact c

theorem chunked_write_is_flat_splice_witness :
    (⟨5, after_write scenario_init Env.quiet (bytes "7:510:HELLO") 0, 515⟩ : WriteResult).ret =
        ((min (cstr (bytes "HELLO")).length (TOTAL_SIZE - 510) : Nat) : Int) ∧
      device_bytes
          (⟨5, after_write scenario_init Env.quiet (bytes "7:510:HELLO") 0, 515⟩ :
            WriteResult).dev =
        splice (device_bytes scenario_init) 510
          ((cstr (bytes "HELLO")).take (min (cstr (bytes "HELLO")).length (TOTAL_SIZE - 510))) ∧
      ∀ x, x < 510 ∨ 510 + min (cstr (bytes "HELLO")).length (TOTAL_SIZE - 510) ≤ x →
        byte_at
            (⟨5, after_write scenario_init Env.quiet (bytes "7:510:HELLO") 0, 515⟩ :
              WriteResult).dev x =
          byte_at scenario_init x :=
  (chunked_write_is_flat_splice scenario_init Env.quiet 0
    ⟨5, after_write scenario_init Env.quiet (bytes "7:510:HELLO") 0, 515⟩ (by decide)).2
    (bytes "7") (bytes "510") (bytes "HELLO") 7 510 (by decide) (by decide) rfl

/-! ## The snapshot export -/

theorem region_bytes_getD (dev : vblock_device) (i j : Nat) (hj : j < REGION_SIZE) :
    (region_bytes dev i).getD j 0 = (dev.regions i).data j := by
  simp [region_bytes, List.getD, hj]

/-- With every gate it passes available, the copy loop of the export leaves
the device as it was and fills the staging buffer with the bytes of the
regions `i .. i + n - 1` at their device offsets. -/
theorem backup_loop_spec (benv : BackupEnv) : ∀ (n i : Nat) (dev : vblock_device)
    (buffer : Nat → Nat),
    (∀ j, i ≤ j → j < i + n → (dev.regions j).read_sem ≠ 0) →
    ∃ buffer', backup_loop benv n i dev buffer = .ret (none, dev, buffer') ∧
      ∀ x, buffer' x =
        if i * REGION_SIZE ≤ x ∧ x < (i + n) * REGION_SIZE then byte_at dev x else buffer x := by
  intro n
  induction n with
  | zero =>
    intro i dev buffer _
    refine ⟨buffer, rfl, ?_⟩
    intro x
    have : ¬ (i * REGION_SIZE ≤ x ∧ x < (i + 0) * REGION_SIZE) := by
      simp only [Nat.add_zero]
      omega
    simp only [this, if_false]
  | succ n ih =>
    intro i dev buffer hs
    have hsi := hs i (le_refl _) (by omega)
    have hrb : region_bytes
        (set_region dev i { dev.regions i with read_sem := (dev.regions i).read_sem - 1 }) i =
        region_bytes dev i := by
      simp [region_bytes]
    obtain ⟨b', e1, e2⟩ := ih (i + 1) dev
      (memcpy buffer (i * REGION_SIZE) (region_bytes dev i) 0 REGION_SIZE)
      (fun j h1 h2 => hs j (by omega) (by omega))
    refine ⟨b', ?_, ?_⟩
    · simp only [backup_loop, down_available dev i hsi, up_after_down dev i hsi, hrb, e1]
    · intro x
      rw [e2 x]
      simp only [memcpy]
      have em : (i + 1) * REGION_SIZE = i * REGION_SIZE + REGION_SIZE := by ring
      have en : (i + (n + 1)) * REGION_SIZE = i * REGION_SIZE + REGION_SIZE + n * REGION_SIZE := by
        ring
      have en' : (i + 1 + n) * REGION_SIZE = i * REGION_SIZE + REGION_SIZE + n * REGION_SIZE := by
        ring
      rw [em, en, en']
      by_cases h1 : i * REGION_SIZE + REGION_SIZE ≤ x ∧
          x < i * REGION_SIZE + REGION_SIZE + n * REGION_SIZE
      · have h2 : i * REGION_SIZE ≤ x ∧ x < i * REGION_SIZE + REGION_SIZE + n * REGION_SIZE := by
          omega
        simp only [h1, h2, and_self, if_true]
      · simp only [h1, if_false]
        by_cases h3 : i * REGION_SIZE ≤ x ∧ x < i * REGION_SIZE + REGION_SIZE
        · have h2 : i * REGION_SIZE ≤ x ∧
              x < i * REGION_SIZE + REGION_SIZE + n * REGION_SIZE := by omega
          have hj : x - i * REGION_SIZE < REGION_SIZE := by omega
          have e3 : x / REGION_SIZE = i := by
            simp only [REGION_SIZE] at *
            omega
          have e4 : x % REGION_SIZE = x - i * REGION_SIZE := by
            simp only [REGION_SIZE] at *
            omega
          simp only [h3, h2, and_self, if_true, Nat.zero_add, region_bytes_getD dev i _ hj,
            byte_at, e3, e4]
        · have h2 : ¬ (i * REGION_SIZE ≤ x ∧
              x < i * REGION_SIZE + REGION_SIZE + n * REGION_SIZE) := by omega
          simp only [h3, h2, if_false]

theorem backup_loop_same_content (benv : BackupEnv) : ∀ (n i : Nat) (dev : vblock_device)
    (buffer : Nat → Nat) (e : Option Int) (dev1 : vblock_device) (buffer1 : Nat → Nat),
    backup_loop benv n i dev buffer = .ret (e, dev1, buffer1) → same_content dev dev1 := by
  intro n
  induction n with
  | zero =>
    intro i dev buffer e dev1 buffer1 h
    simp only [backup_loop] at h
    cases h
    exact same_content_refl dev
  | succ n ih =>
    intro i dev buffer e dev1 buffer1 h
    simp only [backup_loop] at h
    cases hd : down dev i with
    | none =>
      simp only [hd] at h
      split at h
      · cases h
        exact same_content_refl dev
      · cases h
    | some d =>
      simp only [hd] at h
      exact same_content_trans _ _ _
        (same_content_trans _ _ _ (same_content_down dev d i hd) (same_content_up d i))
        (ih _ _ _ _ _ _ h)

/-- The export of a constructed device whose gates are available, when the
staging buffer can be allocated and the file opened. -/
theorem backup_stages_device_bytes (dev : vblock_device) (benv : BackupEnv)
    (hs : ∀ i, i < TOTAL_REGIONS → (dev.regions i).read_sem ≠ 0)
    (ha : benv.alloc_fails = false) (ho : benv.open_error = none) :
    vblock_backup_to_file (some dev) benv =
      .ret ⟨benv.write_ret, some dev, some (device_bytes dev)⟩ := by
  obtain ⟨b', e1, e2⟩ := backup_loop_spec benv TOTAL_REGIONS 0 dev benv.fresh
    (fun j _ h => hs j (by omega))
  have hl : (List.range TOTAL_SIZE).map b' = device_bytes dev := by
    rw [device_bytes_eq]
    apply List.map_congr_left
    intro x hx
    have hx' : x < TOTAL_SIZE := List.mem_range.1 hx
    rw [e2 x]
    have : 0 * REGION_SIZE ≤ x ∧ x < (0 + TOTAL_REGIONS) * REGION_SIZE := by
      simp only [TOTAL_SIZE, REGION_SIZE, TOTAL_REGIONS] at *
      omega
    simp only [this, and_self, if_true]
  simp only [vblock_backup_to_file, ha, Bool.false_eq_true, if_false, e1, ho, hl]

/-- Claim C26: without a constructed device the export returns `-ENODEV`.
With one, whose gates are available, and when the staging buffer can be
allocated and the file opened, the bytes handed to `kernel_write` are the
concatenation of the buffers of the regions 0 to 7 in index order, 4096 bytes,
whatever the lock flags are and whatever the fresh staging buffer held, and the
device is handed back as it was; however the export returns, the region bytes,
lock flags and lock keys are what they were. -/
theorem snapshot_export_content (benv : BackupEnv) :
    vblock_backup_to_file none benv = .ret ⟨-ENODEV, none, none⟩ ∧
    (∀ dev, (∀ i, i < TOTAL_REGIONS → (dev.regions i).read_sem ≠ 0) →
      benv.alloc_fails = false → benv.open_error = none →
      vblock_backup_to_file (some dev) benv =
          .ret ⟨benv.write_ret, some dev, some (device_bytes dev)⟩ ∧
        (device_bytes dev).length = TOTAL_REGIONS * REGION_SIZE ∧
        ∀ i j, i < TOTAL_REGIONS → j < REGION_SIZE →
          (device_bytes dev).getD (i * REGION_SIZE + j) 0 = (dev.regions i).data j) ∧
    (∀ dev r, vblock_backup_to_file (some dev) benv = .ret r →
      ∃ dev1, r.dev = some dev1 ∧ same_content dev dev1) := by
  refine ⟨rfl, ?_, ?_⟩
  · intro dev hs ha ho
    refine ⟨backup_stages_device_bytes dev benv hs ha ho, ?_, ?_⟩
    · rw [device_bytes_length]
      rfl
    · intro i j hi hj
      have hx : i * REGION_SIZE + j < TOTAL_SIZE := by
        simp only [TOTAL_SIZE, REGION_SIZE, TOTAL_REGIONS] at *
        omega
      rw [device_bytes_getD dev _ hx]
      have e1 : (i * REGION_SIZE + j) / REGION_SIZE = i := by
        simp only [REGION_SIZE] at *
        omega
      have e2 : (i * REGION_SIZE + j) % REGION_SIZE = j := by
        simp only [REGION_SIZE] at *
        omega
      simp only [byte_at, e1, e2]
  · intro dev r h
    simp only [vblock_backup_to_file] at h
    split at h
    · cases h
      exact ⟨dev, rfl, same_content_refl dev⟩
    · split at h
      · rename_i e dev1 b heq
        cases h
        exact ⟨dev1, rfl, backup_loop_same_content benv _ _ _ _ _ _ _ heq⟩
      · rename_i dev1 b heq
        split at h
        · cases h
          exact ⟨dev1, rfl, backup_loop_same_content benv _ _ _ _ _ _ _ heq⟩
        · cases h
          exact ⟨dev1, rfl, backup_loop_same_content benv _ _ _ _ _ _ _ heq⟩
      · cases h
      · cases h
      · cases h

theorem snapshot_export_content_witness :
    vblock_backup_to_file (some scenario_locked_one) BackupEnv.quiet =
        .ret ⟨BackupEnv.quiet.write_ret, some scenario_locked_one,
          some (device_bytes scenario_locked_one)⟩ ∧
      (device_bytes scenario_locked_one).length = TOTAL_REGIONS * REGION_SIZE ∧
      ∀ i j, i < TOTAL_REGIONS → j < REGION_SIZE →
        (device_bytes scenario_locked_one).getD (i * REGION_SIZE + j) 0 =
          (scenario_locked_one.regions i).data j :=
  (snapshot_export_content BackupEnv.quiet).2.1 scenario_locked_one (by decide) rfl rfl

/-! ## The export scenario -/

/-- The bytes of the device after an accepted keyed write. -/
theorem keyed_write_bytes (dev : vblock_device) (env : Env) (ktok otok data : List Nat)
    (k : Int) (o : Nat) (lofft : Int) (w : WriteResult)
    (hk : kstrtoint ktok = some k) (ho : kstrtoll otok = some (o : Int))
    (h : block_dev_write dev env (ktok ++ 58 :: (otok ++ 58 :: data)) lofft = .ret w)
    (hacc : 0 ≤ w.ret) :
    ∀ x, byte_at w.dev x =
      if o ≤ x ∧ x < o + min (strlen (data ++ [0])) (TOTAL_SIZE - o) then
        (data ++ [0]).getD (x - o) 0
      else byte_at dev x := by
  have hc := block_dev_write_keyed_accepted dev env ktok otok data k o lofft w hk ho h hacc
  have c := (write_commit_bytes dev env _ (data ++ [0]) w hc hacc).2
  simp only [Int.toNat_ofNat] at c
  exact c

/-- A lock or an unlock request changes no region byte. -/
theorem after_ioctl_lock_unlock_bytes (dev : vblock_device) (env : Env) (cmd : Cmd) (arg : Int)
    (hcmd : cmd = .VBLOCK_LOCK_REGION ∨ cmd = .VBLOCK_UNLOCK_REGION) (x : Nat) :
    byte_at (after_ioctl dev env cmd arg) x = byte_at dev x := by
  unfold after_ioctl
  cases h : block_dev_ioctl dev env cmd arg with
  | ret r =>
    simp only
    exact byte_at_congr _ _ x ((ioctl_lock_unlock_frame dev env cmd arg r hcmd h).2.1 _)
  | blocked => rfl
  | undefined => rfl
  | diverged => rfl

/-- A write that returns an error, or does not return, changes no region byte. -/
theorem after_write_rejected_bytes (dev : vblock_device) (env : Env) (buffer : List Nat)
    (lofft : Int) (h : ∀ w, block_dev_write dev env buffer lofft = .ret w → w.ret < 0) (x : Nat) :
    byte_at (after_write dev env buffer lofft) x = byte_at dev x := by
  unfold after_write
  cases hw : block_dev_write dev env buffer lofft with
  | ret w =>
    simp only
    exact (byte_at_congr _ _ x
      (((block_dev_write_frame dev env buffer lofft w hw).2.1 (h w hw)).1 _).1).symm
  | blocked => rfl
  | undefined => rfl
  | diverged => rfl

theorem write_zero_hello (dev : vblock_device) :
    block_dev_write dev Env.quiet (bytes "0:HELLO") 0 = .ret ⟨-EINVAL, dev, 0⟩ :=
  block_dev_write_bad_offset dev Env.quiet (bytes "0") (bytes "HELLO") 0 0 rfl rfl rfl
    (by decide) (by decide)

theorem write_zero_world (dev : vblock_device) :
    block_dev_write dev Env.quiet (bytes "0:WORLD") 0 = .ret ⟨-EINVAL, dev, 0⟩ :=
  block_dev_write_bad_offset dev Env.quiet (bytes "0") (bytes "WORLD") 0 0 rfl rfl rfl
    (by decide) (by decide)

theorem scenario_locked_bytes (x : Nat) : byte_at scenario_locked x = 0 := by
  unfold scenario_locked
  rw [after_ioctl_lock_unlock_bytes _ _ _ _ (Or.inl rfl)]
  rfl

/-- The bytes of the scenario device before its last write: `HELLO` at the
start of region 0 and zero elsewhere. -/
theorem scenario_before_last_write_bytes (x : Nat) :
    byte_at
      (after_ioctl
        (after_write (after_write scenario_locked Env.quiet (bytes "1000:0:HELLO") 0) Env.quiet
          (bytes "0:HELLO") 0)
        Env.quiet .VBLOCK_UNLOCK_REGION 0) x = (bytes "HELLO").getD x 0 := by
  rw [after_ioctl_lock_unlock_bytes _ _ _ _ (Or.inr rfl)]
  rw [after_write_rejected_bytes _ _ _ _ (fun w hw => by
    rw [write_zero_hello] at hw
    cases hw
    decide)]
  have hw : block_dev_write scenario_locked Env.quiet
      (bytes "1000" ++ 58 :: (bytes "0" ++ 58 :: bytes "HELLO")) 0 =
      .ret ⟨5, after_write scenario_locked Env.quiet (bytes "1000:0:HELLO") 0, 5⟩ := rfl
  have hb := keyed_write_bytes scenario_locked Env.quiet (bytes "1000") (bytes "0")
    (bytes "HELLO") 1000 0 0 _ (by decide) (by decide) hw (by decide) x
  have hlen : min (strlen (bytes "HELLO" ++ [0])) (TOTAL_SIZE - 0) = 5 := by decide
  simp only [hlen, scenario_locked_bytes] at hb
  rw [hb]
  by_cases hx : x < 5
  · have h1 : 0 ≤ x ∧ x < 0 + 5 := by omega
    simp only [h1, and_self, if_true, Nat.sub_zero]
    exact getD_append_nul _ _
  · have h1 : ¬ (0 ≤ x ∧ x < 0 + 5) := by omega
    simp only [h1, if_false]
    rw [List.getD_eq_default]
    have : (bytes "HELLO").length = 5 := by decide
    omega

theorem scenario_export_bytes (x : Nat) :
    byte_at scenario_export x = (bytes "HELLO").getD x 0 := by
  unfold scenario_export
  rw [after_write_rejected_bytes _ _ _ _ (fun w hw => by
    rw [write_zero_world] at hw
    cases hw
    decide)]
  exact scenario_before_last_write_bytes x

theorem scenario_export_keyed_bytes (x : Nat) :
    byte_at scenario_export_keyed x = (bytes "WORLD").getD x 0 := by
  have hw : block_dev_write
      (after_ioctl
        (after_write (after_write scenario_locked Env.quiet (bytes "1000:0:HELLO") 0) Env.quiet
          (bytes "0:HELLO") 0)
        Env.quiet .VBLOCK_UNLOCK_REGION 0) Env.quiet
      (bytes "0" ++ 58 :: (bytes "0" ++ 58 :: bytes "WORLD")) 0 =
      .ret ⟨5, scenario_export_keyed, 5⟩ := rfl
  have hb := keyed_write_bytes _ Env.quiet (bytes "0") (bytes "0")
    (bytes "WORLD") 0 0 0 _ (by decide) (by decide) hw (by decide) x
  have hlen : min (strlen (bytes "WORLD" ++ [0])) (TOTAL_SIZE - 0) = 5 := by decide
  simp only [hlen, scenario_before_last_write_bytes] at hb
  rw [hb]
  by_cases hx : x < 5
  · have h1 : 0 ≤ x ∧ x < 0 + 5 := by omega
    simp only [h1, and_self, if_true, Nat.sub_zero]
    exact getD_append_nul _ _
  · have h1 : ¬ (0 ≤ x ∧ x < 0 + 5) := by omega
    simp only [h1, if_false]
    have l1 : (bytes "HELLO").length = 5 := by decide
    have l2 : (bytes "WORLD").length = 5 := by decide
    rw [List.getD_eq_default _ _ (by omega), List.getD_eq_default _ _ (by omega)]

/-- A stream of `TOTAL_SIZE` bytes that starts with the five bytes `d` and is
zero behind them. -/
theorem stream_of_five (f : Nat → Nat) (d : List Nat) (hd : d.length = 5)
    (h : ∀ x, f x = d.getD x 0) :
    (List.range TOTAL_SIZE).map f = d ++ List.replicate 4091 0 := by
  have e := splice_of_pointwise (fun _ => 0) f TOTAL_SIZE 0 d
    (by
      rw [hd]
      decide)
    (fun x _ => by
      rw [h x]
      by_cases hx : x < 5
      · have h1 : 0 ≤ x ∧ x < 0 + d.length := by omega
        simp only [h1, and_self, if_true, Nat.sub_zero]
      · have h1 : ¬ (0 ≤ x ∧ x < 0 + d.length) := by omega
        simp only [h1, if_false]
        rw [List.getD_eq_default _ _ (by omega)])
  rw [e]
  simp only [splice, List.take_zero, List.nil_append, Nat.zero_add, hd]
  apply congrArg (fun l => d ++ l)
  rw [List.map_const', List.length_range, List.drop_replicate]
  rfl

/-- Claim C27, its counterexample: after the sequence of the scenario (lock
region 0, write `1000:0:HELLO`, write `0:HELLO`, unlock region 0, write
`0:WORLD`) the exported stream starts with `H` (72), not with `W` (87): the
last write is rejected with `-EINVAL`. -/
theorem export_scenario_holds_hello :
    backup_staged (vblock_backup_to_file (some scenario_export) BackupEnv.quiet) =
        some (bytes "HELLO" ++ List.replicate 4091 0) ∧
      (bytes "HELLO" ++ List.replicate 4091 0).getD 0 0 = 72 ∧
      (bytes "WORLD" ++ List.replicate 4091 0).getD 0 0 = 87 ∧
      write_ret (block_dev_write
        (after_ioctl
          (after_write (after_write scenario_locked Env.quiet (bytes "1000:0:HELLO") 0)
            Env.quiet (bytes "0:HELLO") 0)
          Env.quiet .VBLOCK_UNLOCK_REGION 0) Env.quiet (bytes "0:WORLD") 0) =
        some (-EINVAL) := by
  refine ⟨?_, by decide, by decide, ?_⟩
  · rw [backup_stages_device_bytes scenario_export BackupEnv.quiet (by decide) rfl rfl]
    simp only [backup_staged]
    rw [device_bytes_eq, stream_of_five _ (bytes "HELLO") (by decide) scenario_export_bytes]
  · rw [write_zero_world]
    rfl

/-- Claim C27, amended: from a freshly constructed device with
`allowed_keys = {1000}`, after lock region 0, write `1000:0:HELLO`, write
`0:HELLO` (rejected), unlock region 0 and the keyed write `0:0:WORLD`, the
export stages and writes exactly 4096 bytes: `WORLD` followed by 4091 zero
bytes. -/
theorem export_scenario_keyed (benv : BackupEnv) (ha : benv.alloc_fails = false)
    (ho : benv.open_error = none) :
    vblock_backup_to_file (some scenario_export_keyed) benv =
        .ret ⟨benv.write_ret, some scenario_export_keyed,
          some (bytes "WORLD" ++ List.replicate 4091 0)⟩ ∧
      (bytes "WORLD" ++ List.replicate 4091 0).length = TOTAL_REGIONS * REGION_SIZE := by
  constructor
  · rw [backup_stages_device_bytes scenario_export_keyed benv (by decide) ha ho]
    rw [device_bytes_eq, stream_of_five _ (bytes "WORLD") (by decide) scenario_export_keyed_bytes]
  · rw [List.length_append, List.length_replicate]
    decide

theorem export_scenario_keyed_witness :
    vblock_backup_to_file (some scenario_export_keyed) BackupEnv.quiet =
        .ret ⟨BackupEnv.quiet.write_ret, some scenario_export_keyed,
          some (bytes "WORLD" ++ List.replicate 4091 0)⟩ ∧
      (bytes "WORLD" ++ List.replicate 4091 0).length = TOTAL_REGIONS * REGION_SIZE :=
  export_scenario_keyed BackupEnv.quiet rfl rfl

/-! ## The balance of mutexes and gates -/

theorem read_loop_dev (env : Env) : ∀ (fuel : Nat) (s s1 : ReadLoop) (e : Option Int),
    (∀ i, i < TOTAL_REGIONS → (s.dev.regions i).read_sem ≠ 0) →
    read_loop env fuel s = .ret (e, s1) → s1.dev = s.dev := by
  intro fuel
  induction fuel with
  | zero =>
    intro s s1 e _ h
    simp only [read_loop] at h
    split at h
    · cases h
    · cases h
      rfl
  | succ fuel ih =>
    intro s s1 e hs h
    simp only [read_loop] at h
    split at h
    · rename_i hc
      have hsi := hs s.region_num hc.2
      simp only [read_chunk, down_available s.dev s.region_num hsi,
        up_after_down s.dev s.region_num hsi] at h
      split at h
      · rename_i s2 heq
        have hd : s2.dev = s.dev := by
          split at heq
          · cases heq
          · cases heq
            rfl
        rw [ih s2 s1 e (by rw [hd]; exact hs) h, hd]
      · split at h
        · cases h
          rfl
        · cases h
          rfl
    · cases h
      rfl

/-- A read that starts with every gate available hands the device back as it
was, whether it succeeds or fails. -/
theorem block_dev_read_dev (dev : vblock_device) (env : Env) (count : Nat) (lofft : Int)
    (r : ReadResult) (hs : ∀ i, i < TOTAL_REGIONS → (dev.regions i).read_sem ≠ 0)
    (h : block_dev_read dev env count lofft = .ret r) : r.dev = dev := by
  unfold block_dev_read at h
  split at h
  · cases h
    rfl
  · split at h
    · split at h
      · cases h
        rfl
      · cases h
    · simp only at h
      split at h
      · rename_i e s heq
        cases h
        exact read_loop_dev env _ _ _ _ hs heq
      · rename_i s heq
        cases h
        exact read_loop_dev env _ _ _ _ hs heq
      · cases h
      · cases h
      · cases h

theorem locks_free_gates (dev : vblock_device) (h : locks_free dev) :
    ∀ i, i < TOTAL_REGIONS → (dev.regions i).read_sem ≠ 0 := by
  intro i hi
  rw [(h i hi).2]
  decide

/-- A control request that starts with every mutex free and every gate
available returns with every mutex free and every gate available. -/
theorem block_dev_ioctl_locks_free (dev : vblock_device) (env : Env) (cmd : Cmd) (arg : Int)
    (r : IoctlResult) (hf : locks_free dev) (h : block_dev_ioctl dev env cmd arg = .ret r) :
    locks_free r.dev := by
  have key : ∀ n : Nat, n < TOTAL_REGIONS → ∀ d : vblock_device,
      (∀ i, i ≠ n → (d.regions i).region_mutex = (dev.regions i).region_mutex ∧
        (d.regions i).read_sem = (dev.regions i).read_sem) →
      (d.regions n).region_mutex = false → (d.regions n).read_sem = 1 → locks_free d := by
    intro n _ d h1 h2 h3 i hi
    by_cases hin : i = n
    · subst hin
      exact ⟨h2, h3⟩
    · rw [(h1 i hin).1, (h1 i hin).2]
      exact hf i hi
  have hn : ∀ a : Int, ¬ (a < 0 ∨ (TOTAL_REGIONS : Int) ≤ a) → a.toNat < TOTAL_REGIONS := by
    intro a ha
    simp only [TOTAL_REGIONS] at *
    omega
  cases cmd with
  | VBLOCK_LOCK_REGION =>
    by_cases hc : env.copy_from_user_fails = true
    · simp only [block_dev_ioctl, hc, if_true] at h
      cases h
      exact hf
    · by_cases hr : arg < 0 ∨ (TOTAL_REGIONS : Int) ≤ arg
      · simp only [block_dev_ioctl, hc, if_false, hr, if_true] at h
        cases h
        exact hf
      · have hm := (hf _ (hn arg hr)).1
        have ea : arg = ((arg.toNat : Nat) : Int) := (Int.toNat_of_nonneg (by omega)).symm
        have hc' : env.copy_from_user_fails = false := by simpa using hc
        rw [ea] at h
        by_cases hl : (dev.regions arg.toNat).locked = 0
        · rw [lock_request_on_unlocked dev env _ (hn arg hr) hc' hm hl] at h
          cases h
          apply key arg.toNat (hn arg hr)
          · intro i hi
            simp [hi]
          · simp [hm]
          · simp [(hf _ (hn arg hr)).2]
        · rw [lock_request_on_locked dev env _ (hn arg hr) hc' hm hl] at h
          cases h
          exact hf
  | VBLOCK_UNLOCK_REGION =>
    by_cases hc : env.copy_from_user_fails = true
    · simp only [block_dev_ioctl, hc, if_true] at h
      cases h
      exact hf
    · by_cases hr : arg < 0 ∨ (TOTAL_REGIONS : Int) ≤ arg
      · simp only [block_dev_ioctl, hc, if_false, hr, if_true] at h
        cases h
        exact hf
      · have hm := (hf _ (hn arg hr)).1
        have ea : arg = ((arg.toNat : Nat) : Int) := (Int.toNat_of_nonneg (by omega)).symm
        have hc' : env.copy_from_user_fails = false := by simpa using hc
        rw [ea] at h
        obtain ⟨d, c, _, _, _, _, u1, u2, u3, _⟩ :=
          unlock_request_effect dev env _ (hn arg hr) hc' hm
        rw [c] at h
        cases h
        apply key arg.toNat (hn arg hr)
        · intro i hi
          rw [u3 i hi]
          exact ⟨rfl, rfl⟩
        · exact u1
        · rw [u2]
          exact (hf _ (hn arg hr)).2
  | VBLOCK_READ_REGION =>
    simp only [block_dev_ioctl] at h
    split at h
    · cases h
      exact hf
    · split at h
      · cases h
        exact hf
      · rename_i hr
        have hs := locks_free_gates dev hf _ (hn arg hr)
        rw [down_available dev _ hs] at h
        simp only [up_after_down dev _ hs] at h
        split at h
        · cases h
          exact hf
        · cases h
          exact hf
  | VBLOCK_GET_INFO =>
    simp only [block_dev_ioctl] at h
    split at h
    · cases h
      exact hf
    · cases h
      exact hf
  | VBLOCK_ERASE_REGION =>
    simp only [block_dev_ioctl] at h
    split at h
    · cases h
      exact hf
    · split at h
      · cases h
        exact hf
      · rename_i hr
        have hm := (hf _ (hn arg hr)).1
        have hs := (hf _ (hn arg hr)).2
        rw [mutex_lock_free dev _ hm] at h
        simp only at h
        split at h
        · cases h
          rw [mutex_unlock_after_lock dev _ hm]
          exact hf
        · have hd : ((set_region dev arg.toNat
              { dev.regions arg.toNat with region_mutex := true }).regions arg.toNat).read_sem ≠
                0 := by
            simp [hs]
          rw [down_available _ _ hd] at h
          simp only at h
          cases h
          apply key arg.toNat (hn arg hr)
          · intro i hi
            simp [mutex_unlock, up, hi]
          · simp [mutex_unlock]
          · simp [mutex_unlock, up, hs]
  | other =>
    simp only [block_dev_ioctl] at h
    cases h
    exact hf

/-- An export that starts with every gate available hands the device back as
it was, however it returns. -/
theorem vblock_backup_to_file_dev (dev : vblock_device) (benv : BackupEnv) (r : BackupResult)
    (hs : ∀ i, i < TOTAL_REGIONS → (dev.regions i).read_sem ≠ 0)
    (h : vblock_backup_to_file (some dev) benv = .ret r) : r.dev = some dev := by
  obtain ⟨b', e1, _⟩ := backup_loop_spec benv TOTAL_REGIONS 0 dev benv.fresh
    (fun j _ hj => hs j (by omega))
  simp only [vblock_backup_to_file, e1] at h
  split at h
  · cases h
    rfl
  · split at h
    · cases h
      rfl
    · cases h
      rfl

/-- A write that starts with every mutex free and every gate available and
returns an error hands the device back as it was. -/
theorem block_dev_write_error_dev (dev : vblock_device) (env : Env) (buffer : List Nat)
    (lofft : Int) (w : WriteResult) (hf : locks_free dev)
    (h : block_dev_write dev env buffer lofft = .ret w) (hneg : w.ret < 0) : w.dev = dev := by
  unfold block_dev_write at h
  simp only at h
  split at h
  · cases h
    rfl
  · split at h
    · cases h
      rfl
    · split at h
      · cases h
        rfl
      · split at h
        · cases h
        · rename_i dp _
          unfold write_commit at h
          simp only at h
          split at h
          · cases h
            rfl
          · rename_i hrange
            split at h
            · cases h
              rfl
            · rename_i hrn
              split at h
              · cases h
                rfl
              · split at h
                · cases h
                  rfl
                · split at h
                  · cases h
                    rfl
                  · have hi : (parse_write_data env (buffer ++ [0]) buffer.length lofft 0).offset.toNat /
                        REGION_SIZE < TOTAL_REGIONS := Nat.lt_of_not_le hrn
                    obtain ⟨dev1, dev2, l1, l2, _⟩ := lock_then_down dev _ (hf _ hi).1
                      (locks_free_gates dev hf _ hi)
                    simp only [l1, l2] at h
                    split at h
                    · cases h
                    · split at h
                      · cases h
                      · cases h
                        simp only at hneg
                        omega

/-- A write of non-empty data that lies within its first region returns with
the mutex and the gate of every region as they were. -/
theorem write_commit_single_locks (dev : vblock_device) (env : Env) (k : Int) (o : Nat)
    (data_ptr : List Nat) (ho : o < TOTAL_SIZE)
    (hkey : (dev.regions (o / REGION_SIZE)).locked ≠ 0 →
      is_valid_key dev k = true ∧ k = (dev.regions (o / REGION_SIZE)).lock_key)
    (hm : (dev.regions (o / REGION_SIZE)).region_mutex = false)
    (hs : (dev.regions (o / REGION_SIZE)).read_sem ≠ 0)
    (hlen : 0 < strlen data_ptr) (hfit : o % REGION_SIZE + strlen data_ptr ≤ REGION_SIZE) :
    ∀ w, write_commit dev env ⟨1, (o : Int), k⟩ data_ptr = .ret w →
      ∀ i, (w.dev.regions i).region_mutex = (dev.regions i).region_mutex ∧
        (w.dev.regions i).read_sem = (dev.regions i).read_sem := by
  obtain ⟨hr1, hr2⟩ := offset_in_range o ho
  have hc1 : ¬ ((dev.regions (o / REGION_SIZE)).locked ≠ 0 ∧ (1 : Int) ≠ 1) := by simp
  have hc2 : ¬ ((dev.regions (o / REGION_SIZE)).locked ≠ 0 ∧ is_valid_key dev k = false) := by
    rintro ⟨h1, h2⟩
    rw [(hkey h1).1] at h2
    cases h2
  have hc3 : ¬ ((dev.regions (o / REGION_SIZE)).locked ≠ 0 ∧
      k ≠ (dev.regions (o / REGION_SIZE)).lock_key) := by
    rintro ⟨h1, h2⟩
    exact h2 (hkey h1).2
  obtain ⟨dev1, dev2, l1, l2, _, l4, l5, l6, _, _, _, _⟩ := lock_then_down dev _ hm hs
  have e1 : write_loop data_ptr TOTAL_REGIONS
      ⟨dev2, o / REGION_SIZE, o % REGION_SIZE, strlen data_ptr, 0⟩ =
      some (write_chunk data_ptr ⟨dev2, o / REGION_SIZE, o % REGION_SIZE, strlen data_ptr, 0⟩) :=
    write_loop_single data_ptr 7 _ hlen (by simp only; omega) (Nat.lt_of_not_le hr2)
  have hrn : (write_chunk data_ptr
      ⟨dev2, o / REGION_SIZE, o % REGION_SIZE, strlen data_ptr, 0⟩).region_num ≠ 0 := by
    simp [write_chunk]
  have hsem : (dev.regions (o / REGION_SIZE)).read_sem - 1 + 1 =
      (dev.regions (o / REGION_SIZE)).read_sem := by omega
  intro w h i
  simp only [write_commit, hr1, hr2, hc1, hc2, hc3, if_false, Int.toNat_ofNat, l1, l2, e1, hrn] at h
  cases h
  by_cases hi : i = o / REGION_SIZE
  · subst hi
    constructor
    · simp [mutex_unlock, up, write_chunk, hm]
    · simp [mutex_unlock, up, write_chunk, l5, hsem]
  · have := l6 i hi
    constructor
    · simp [mutex_unlock, up, write_chunk, hi, this]
    · simp [mutex_unlock, up, write_chunk, hi, this]

theorem scenario_init_locks_free : locks_free scenario_init :=
  fun _ _ => ⟨rfl, rfl⟩

/-- Where the balance holds: from a state with every mutex free and every gate
available, a read, a control request, an export, a write that returns an error
and a keyed write of non-empty data that lies within one region all return
with every mutex free and every gate available. -/
theorem lock_release_balance_holds (dev : vblock_device) (env : Env) (hf : locks_free dev) :
    (∀ count lofft r, block_dev_read dev env count lofft = .ret r → locks_free r.dev) ∧
    (∀ cmd arg r, block_dev_ioctl dev env cmd arg = .ret r → locks_free r.dev) ∧
    (∀ benv r, vblock_backup_to_file (some dev) benv = .ret r → r.dev = some dev) ∧
    (∀ buffer lofft w, block_dev_write dev env buffer lofft = .ret w → w.ret < 0 →
      locks_free w.dev) ∧
    (∀ (ktok otok data : List Nat) (k : Int) (o : Nat) (lofft : Int) (w : WriteResult),
      kstrtoint ktok = some k → kstrtoll otok = some (o : Int) →
      0 < strlen (data ++ [0]) → o % REGION_SIZE + strlen (data ++ [0]) ≤ REGION_SIZE →
      block_dev_write dev env (ktok ++ 58 :: (otok ++ 58 :: data)) lofft = .ret w →
      0 ≤ w.ret → locks_free w.dev) := by
  refine ⟨?_, ?_, ?_, ?_, ?_⟩
  · intro count lofft r h
    rw [block_dev_read_dev dev env count lofft r (locks_free_gates dev hf) h]
    exact hf
  · intro cmd arg r h
    exact block_dev_ioctl_locks_free dev env cmd arg r hf h
  · intro benv r h
    exact vblock_backup_to_file_dev dev benv r (locks_free_gates dev hf) h
  · intro buffer lofft w h hneg
    rw [block_dev_write_error_dev dev env buffer lofft w hf h hneg]
    exact hf
  · intro ktok otok data k o lofft w hk ho hlen hfit h hacc
    have hc := block_dev_write_keyed_accepted dev env ktok otok data k (o : Int) lofft w hk ho h hacc
    obtain ⟨a1, a2, a3, a4, a5⟩ := write_commit_accepted dev env _ _ w hc hacc
    simp only [Int.toNat_ofNat] at a2 a3 a4 a5
    have ho' : o < TOTAL_SIZE := by omega
    intro i hi
    have := write_commit_single_locks dev env k o (data ++ [0]) ho' a3 a4 a5 hlen hfit w hc i
    rw [this.1, this.2]
    exact hf i hi

/-- Claim C29, evaluated on the code: on the fresh device, where every mutex
is free and every gate has its slot, the write `7:510:HELLO`, which spans
from region 0 into region 1, returns 5 and leaves the mutex of region 0 held
and its gate without a slot, and the gate of region 1 with two slots: after
the loop the write releases `regions[region_num - 1]`, the last region it
copied into, not the region it acquired. With empty data (`7:512:`, region 1)
the loop does not run and the release goes to region 0, leaving region 1 held;
with empty data at region 0 (`7:0:`) the release addresses the region in front
of the array. -/
theorem write_release_unbalanced :
    locks_free scenario_init ∧
      write_ret (block_dev_write scenario_init Env.quiet (bytes "7:510:HELLO") 0) = some 5 ∧
      ((after_write scenario_init Env.quiet (bytes "7:510:HELLO") 0).regions 0).region_mutex =
        true ∧
      ((after_write scenario_init Env.quiet (bytes "7:510:HELLO") 0).regions 0).read_sem = 0 ∧
      ((after_write scenario_init Env.quiet (bytes "7:510:HELLO") 0).regions 1).read_sem = 2 ∧
      ¬ locks_free (after_write scenario_init Env.quiet (bytes "7:510:HELLO") 0) ∧
      write_ret (block_dev_write scenario_init Env.quiet (bytes "7:512:") 0) = some 0 ∧
      ((after_write scenario_init Env.quiet (bytes "7:512:") 0).regions 1).region_mutex = true ∧
      ((after_write scenario_init Env.quiet (bytes "7:512:") 0).regions 1).read_sem = 0 ∧
      ((after_write scenario_init Env.quiet (bytes "7:512:") 0).regions 0).read_sem = 2 ∧
      block_dev_write scenario_init Env.quiet (bytes "7:0:") 0 = .undefined :=
  ⟨scenario_init_locks_free, by decide, by decide, by decide, by decide,
    fun h => absurd (h 0 (by decide)).1 (by decide), by decide, by decide, by decide, by decide,
    rfl⟩

/-! ## Concurrent writers -/

/-- The chunk loop of `block_dev_write` is the writer stepping through
`in_loop` until it leaves the loop. -/
theorem writer_iter_loop (d : List Nat) : ∀ (fuel : Nat) (s s1 : WriteLoop),
    write_loop d fuel s = some s1 →
    ∃ n, writer_iter n s.dev ⟨d, .in_loop, s.region_num, s.region_offset, s.data_len, s.ret⟩ =
      some (s1.dev, ⟨d, .at_up, s1.region_num, s1.region_offset, s1.data_len, s1.ret⟩) := by
  intro fuel
  induction fuel with
  | zero =>
    intro s s1 h
    simp only [write_loop] at h
    split at h
    · cases h
    · rename_i hc
      cases h
      exact ⟨1, by simp [writer_iter, writer_step, hc]⟩
  | succ fuel ih =>
    intro s s1 h
    simp only [write_loop] at h
    split at h
    · rename_i hc
      obtain ⟨n, hn⟩ := ih _ _ h
      refine ⟨n + 1, ?_⟩
      simp only [writer_iter, writer_step, hc, and_self, if_true]
      exact hn
    · rename_i hc
      cases h
      exact ⟨1, by simp [writer_iter, writer_step, hc]⟩

theorem writer_iter_add : ∀ (n m : Nat) (dev dev1 : vblock_device) (t t1 : WriterThread),
    writer_iter n dev t = some (dev1, t1) →
    writer_iter (n + m) dev t = writer_iter m dev1 t1 := by
  intro n
  induction n with
  | zero =>
    intro m dev dev1 t t1 h
    simp only [writer_iter] at h
    cases h
    simp
  | succ n ih =>
    intro m dev dev1 t t1 h
    have e : n + 1 + m = (n + m) + 1 := by omega
    rw [e]
    simp only [writer_iter] at h ⊢
    cases hs : writer_step dev t with
    | none => simp [hs] at h
    | some p =>
      obtain ⟨d2, t2⟩ := p
      simp only [hs] at h ⊢
      exact ih m d2 dev1 t2 t1 h

/-- An accepted write is a run of the writer alone, from `mutex_lock` to the
return, and leaves the same device and the same count. -/
theorem writer_refines_write_commit (dev : vblock_device) (env : Env) (p : ParseResult)
    (d : List Nat) (w : WriteResult) (h : write_commit dev env p d = .ret w) (hacc : 0 ≤ w.ret) :
    ∃ n t, writer_iter n dev (writer_start d p.offset.toNat) = some (w.dev, t) ∧
      has_returned t = true ∧ ((t.ret : Nat) : Int) = w.ret := by
  obtain ⟨a1, a2, _, hm, hs⟩ := write_commit_accepted dev env p d w h hacc
  obtain ⟨n1, n2, n3, n4, _, _⟩ := neg_errno_lt_zero
  have bad : ∀ (e : Int) (dv : vblock_device) (l : Int), e < 0 →
      (Outcome.ret (⟨e, dv, l⟩ : WriteResult)) = .ret w → False := by
    intro e dv l he hw
    cases hw
    simp only at hacc
    omega
  obtain ⟨dev1, dev2, l1, l2, _⟩ := lock_then_down dev _ hm hs
  unfold write_commit at h
  simp only at h
  split at h
  · exact (bad _ _ _ n1 h).elim
  · split at h
    · exact (bad _ _ _ n1 h).elim
    · split at h
      · exact (bad _ _ _ n2 h).elim
      · split at h
        · exact (bad _ _ _ n2 h).elim
        · split at h
          · exact (bad _ _ _ n3 h).elim
          · simp only [l1, l2] at h
            split at h
            · cases h
            · rename_i s hloop
              split at h
              · cases h
              · rename_i hrn
                cases h
                obtain ⟨n, hn⟩ := writer_iter_loop d _ _ _ hloop
                simp only at hn
                refine ⟨2 + (n + 2), ⟨d, .returned, s.region_num, s.region_offset, s.data_len,
                  s.ret⟩, ?_, rfl, rfl⟩
                have e0 : writer_iter 2 dev (writer_start d p.offset.toNat) =
                    some (dev2, ⟨d, .in_loop, p.offset.toNat / REGION_SIZE,
                      p.offset.toNat % REGION_SIZE, strlen d, 0⟩) := by
                  simp only [writer_iter, writer_step, writer_start, l1, l2]
                rw [writer_iter_add 2 (n + 2) _ _ _ _ e0, writer_iter_add n 2 _ _ _ _ hn]
                simp only [writer_iter, writer_step, hrn, if_false]

theorem writer_position (t : WriterThread) :
    (at_mutex_lock t = true ∧ in_critical_section t = false ∧ has_returned t = false) ∨
    (at_mutex_lock t = false ∧ in_critical_section t = true ∧ has_returned t = false) ∨
    (at_mutex_lock t = false ∧ in_critical_section t = false ∧ has_returned t = true) := by
  obtain ⟨dp, pc, rn, ro, dl, rt⟩ := t
  cases pc <;> simp [at_mutex_lock, in_critical_section, has_returned]

theorem writer_step_returned (dev : vblock_device) (t : WriterThread)
    (h : has_returned t = true) : writer_step dev t = none := by
  obtain ⟨dp, pc, rn, ro, dl, rt⟩ := t
  cases pc <;> simp [has_returned] at h
  rfl

/-- A writer at `mutex_lock` sleeps while the mutex of its region is held. -/
theorem writer_step_blocked (r ro len : Nat) (dev : vblock_device) (t : WriterThread)
    (hpc : at_mutex_lock t = true)
    (hinv : writer_inv r ro len (dev.regions r).region_mutex (dev.regions r).read_sem t)
    (hm : (dev.regions r).region_mutex = true) : writer_step dev t = none := by
  obtain ⟨dp, pc, rn, ro1, dl, rt⟩ := t
  cases pc <;> simp [at_mutex_lock] at hpc
  simp only [writer_inv] at hinv
  obtain ⟨h1, _⟩ := hinv
  subst h1
  simp [writer_step, mutex_lock, hm]

/-- A writer at `mutex_lock` whose region is free takes the mutex. -/
theorem writer_step_enter (r ro len : Nat) (dev : vblock_device) (t : WriterThread)
    (hpc : at_mutex_lock t = true)
    (hinv : writer_inv r ro len (dev.regions r).region_mutex (dev.regions r).read_sem t)
    (hm : (dev.regions r).region_mutex = false) (hc : (dev.regions r).read_sem = 1) :
    ∃ d1 t1, writer_step dev t = some (d1, t1) ∧ in_critical_section t1 = true ∧
      writer_inv r ro len (d1.regions r).region_mutex (d1.regions r).read_sem t1 ∧
      (∀ i, i ≠ r → (d1.regions i).region_mutex = (dev.regions i).region_mutex ∧
        (d1.regions i).read_sem = (dev.regions i).read_sem) ∧
      steps_left t1 + 1 = steps_left t := by
  obtain ⟨dp, pc, rn, ro1, dl, rt⟩ := t
  cases pc <;> simp [at_mutex_lock] at hpc
  simp only [writer_inv] at hinv
  obtain ⟨h1, h2, h3, h4⟩ := hinv
  subst h1
  refine ⟨set_region dev rn { dev.regions rn with region_mutex := true },
    ⟨dp, .at_down, rn, ro1, dl, rt⟩,
    by simp only [writer_step, mutex_lock_free dev _ hm], rfl, ?_, ?_, rfl⟩
  · simp [writer_inv, h2, h3, h4, hc]
  · intro i hi
    simp [hi]

/-- A writer inside its critical section can always make its next step; the
step touches the mutex and the gate of its own region only, and the writer
leaves the section with the mutex free and the gate available. -/
theorem writer_step_inside (r ro len : Nat) (hr : r < TOTAL_REGIONS) (hlen : 0 < len)
    (hfit : ro + len ≤ REGION_SIZE) (dev : vblock_device) (t : WriterThread)
    (hcs : in_critical_section t = true)
    (hinv : writer_inv r ro len (dev.regions r).region_mutex (dev.regions r).read_sem t) :
    ∃ d1 t1, writer_step dev t = some (d1, t1) ∧
      writer_inv r ro len (d1.regions r).region_mutex (d1.regions r).read_sem t1 ∧
      (∀ i, i ≠ r → (d1.regions i).region_mutex = (dev.regions i).region_mutex ∧
        (d1.regions i).read_sem = (dev.regions i).read_sem) ∧
      (in_critical_section t1 = true ∨
        (has_returned t1 = true ∧ (d1.regions r).region_mutex = false ∧
          (d1.regions r).read_sem = 1)) ∧
      steps_left t1 + 1 = steps_left t := by
  obtain ⟨dp, pc, rn, ro1, dl, rt⟩ := t
  cases pc with
  | at_mutex_lock => simp [in_critical_section] at hcs
  | returned => simp [in_critical_section] at hcs
  | at_down =>
    simp only [writer_inv] at hinv
    obtain ⟨h1, h2, h3, h4, h5, h6⟩ := hinv
    subst h1
    have hs : (dev.regions rn).read_sem ≠ 0 := by omega
    refine ⟨set_region dev rn
        { dev.regions rn with read_sem := (dev.regions rn).read_sem - 1 },
      ⟨dp, .in_loop, rn, ro1, dl, rt⟩,
      by simp only [writer_step, down_available dev _ hs], ?_, ?_, Or.inl rfl, ?_⟩
    · simp [writer_inv, h2, h3, h4, h5, h6]
    · intro i hi
      simp [hi]
    · simp [steps_left, h3, hlen]
  | in_loop =>
    simp only [writer_inv] at hinv
    obtain ⟨h5, h6, h⟩ := hinv
    rcases h with ⟨h1, h2, h3, h4⟩ | ⟨h1, h3, h4⟩
    · subst h1
      have hcond : 0 < dl ∧ rn < TOTAL_REGIONS := ⟨by omega, hr⟩
      have hmin : min (REGION_SIZE - ro1) dl = dl := by omega
      refine ⟨(write_chunk dp ⟨dev, rn, ro1, dl, rt⟩).dev,
        ⟨dp, .in_loop, rn + 1, 0, dl - min (REGION_SIZE - ro1) dl,
          rt + min (REGION_SIZE - ro1) dl⟩,
        by simp only [writer_step, hcond, and_self, if_true], ?_, ?_, Or.inl rfl, ?_⟩
      · simp only [writer_inv, write_chunk_regions]
        refine ⟨by simp [h5], by simp [h6], Or.inr ⟨trivial, ?_, ?_⟩⟩
        · simp only [hmin]
          omega
        · simp only [hmin]
          omega
      · intro i hi
        simp only [write_chunk_regions]
        simp [hi]
      · have h0 : dl - min (REGION_SIZE - ro1) dl = 0 := by omega
        simp [steps_left, h0, hcond.1]
    · have hcond : ¬ (0 < dl ∧ rn < TOTAL_REGIONS) := by omega
      refine ⟨dev, ⟨dp, .at_up, rn, ro1, dl, rt⟩,
        by simp only [writer_step, hcond, if_false], ?_, ?_, Or.inl rfl, ?_⟩
      · simp [writer_inv, h1, h4, h5, h6]
      · intro i _
        exact ⟨rfl, rfl⟩
      · simp [steps_left, h3]
  | at_up =>
    simp only [writer_inv] at hinv
    obtain ⟨h5, h6, h1, h4⟩ := hinv
    have hne : rn ≠ 0 := by omega
    have hrn : rn - 1 = r := by omega
    refine ⟨up dev (rn - 1), ⟨dp, .at_mutex_unlock, rn, ro1, dl, rt⟩,
      by simp only [writer_step, hne, if_false], ?_, ?_, Or.inl rfl, rfl⟩
    · simp [writer_inv, up, hrn, h1, h4, h5, h6]
    · intro i hi
      simp [up, hrn, hi]
  | at_mutex_unlock =>
    simp only [writer_inv] at hinv
    obtain ⟨h5, h6, h1, h4⟩ := hinv
    have hrn : rn - 1 = r := by omega
    refine ⟨mutex_unlock dev (rn - 1), ⟨dp, .returned, rn, ro1, dl, rt⟩,
      by simp only [writer_step], ?_, ?_, Or.inr ⟨rfl, ?_, ?_⟩, rfl⟩
    · simp [writer_inv, h4]
    · intro i hi
      simp [mutex_unlock, hrn, hi]
    · simp [mutex_unlock, hrn]
    · simp [mutex_unlock, hrn, h6]

theorem steps_left_returned (t : WriterThread) : steps_left t = 0 ↔ has_returned t = true := by
  obtain ⟨dp, pc, rn, ro, dl, rt⟩ := t
  cases pc <;> simp [steps_left, has_returned]
  split <;> omega

theorem writer_inv_outside (r ro len : Nat) (m m1 : Bool) (c c1 : Nat) (t : WriterThread)
    (h : in_critical_section t = false) (hinv : writer_inv r ro len m c t) :
    writer_inv r ro len m1 c1 t := by
  obtain ⟨dp, pc, rn, ro1, dl, rt⟩ := t
  cases pc <;> simp [in_critical_section] at h <;> exact hinv

theorem writer_inv_inside_mutex (r ro len : Nat) (m : Bool) (c : Nat) (t : WriterThread)
    (h : in_critical_section t = true) (hinv : writer_inv r ro len m c t) : m = true := by
  obtain ⟨dp, pc, rn, ro1, dl, rt⟩ := t
  cases pc <;> simp [in_critical_section] at h <;> simp only [writer_inv] at hinv
  · exact hinv.2.2.2.2.1
  · exact hinv.1
  · exact hinv.1
  · exact hinv.1

theorem writer_inv_returned (r ro len : Nat) (m : Bool) (c : Nat) (t : WriterThread)
    (h : has_returned t = true) (hinv : writer_inv r ro len m c t) : t.ret = len := by
  obtain ⟨dp, pc, rn, ro1, dl, rt⟩ := t
  cases pc <;> simp [has_returned] at h
  exact hinv

/-- One step of a writer whose region no other writer uses: it is never
asleep, and the step keeps the state of both writers. -/
theorem apart_step (rx rox lenx ry roy leny : Nat) (hne : rx ≠ ry)
    (hrx : rx < TOTAL_REGIONS) (hlenx : 0 < lenx) (hfitx : rox + lenx ≤ REGION_SIZE)
    (dev : vblock_device) (x y : WriterThread)
    (hinv : pair_inv_apart rx rox lenx ry roy leny dev x y) :
    (has_returned x = true ∧ writer_step dev x = none) ∨
    (∃ d1 x1, writer_step dev x = some (d1, x1) ∧
      pair_inv_apart rx rox lenx ry roy leny d1 x1 y ∧ steps_left x1 + 1 = steps_left x) := by
  obtain ⟨ix, fx, iy, fy⟩ := hinv
  have frame : ∀ d1 : vblock_device,
      (∀ i, i ≠ rx → (d1.regions i).region_mutex = (dev.regions i).region_mutex ∧
        (d1.regions i).read_sem = (dev.regions i).read_sem) →
      writer_inv ry roy leny (d1.regions ry).region_mutex (d1.regions ry).read_sem y ∧
      (in_critical_section y = false →
        (d1.regions ry).region_mutex = false ∧ (d1.regions ry).read_sem = 1) := by
    intro d1 h
    rw [(h ry (Ne.symm hne)).1, (h ry (Ne.symm hne)).2]
    exact ⟨iy, fy⟩
  rcases writer_position x with ⟨p1, p2, _⟩ | ⟨_, p2, _⟩ | ⟨_, _, p3⟩
  · right
    obtain ⟨hm, hc⟩ := fx p2
    obtain ⟨d1, x1, e, cs1, i1, fr, st⟩ := writer_step_enter rx rox lenx dev x p1 ix hm hc
    refine ⟨d1, x1, e, ⟨i1, ?_, (frame d1 fr).1, (frame d1 fr).2⟩, st⟩
    intro hcs
    rw [cs1] at hcs
    cases hcs
  · right
    obtain ⟨d1, x1, e, i1, fr, ex, st⟩ :=
      writer_step_inside rx rox lenx hrx hlenx hfitx dev x p2 ix
    refine ⟨d1, x1, e, ⟨i1, ?_, (frame d1 fr).1, (frame d1 fr).2⟩, st⟩
    intro hcs
    rcases ex with ex | ⟨_, e1, e2⟩
    · rw [ex] at hcs
      cases hcs
    · exact ⟨e1, e2⟩
  · left
    exact ⟨p3, writer_step_returned dev x p3⟩

theorem pair_inv_apart_symm (rx rox lenx ry roy leny : Nat) (dev : vblock_device)
    (x y : WriterThread) (h : pair_inv_apart rx rox lenx ry roy leny dev x y) :
    pair_inv_apart ry roy leny rx rox lenx dev y x :=
  ⟨h.2.2.1, h.2.2.2, h.1, h.2.1⟩

theorem count_cons_true (c : Bool) (l : List Bool) :
    (c :: l).count true = l.count true + (if c then 1 else 0) := by
  cases c <;> simp

theorem count_cons_false (c : Bool) (l : List Bool) :
    (c :: l).count false = l.count false + (if c then 0 else 1) := by
  cases c <;> simp

/-- Two writers to different regions under any schedule: the state is kept,
and each writer has made as many of its steps as the schedule gave it. -/
theorem apart_run (ra roa lena rb rob lenb : Nat) (hne : ra ≠ rb)
    (hra : ra < TOTAL_REGIONS) (hlena : 0 < lena) (hfita : roa + lena ≤ REGION_SIZE)
    (hrb : rb < TOTAL_REGIONS) (hlenb : 0 < lenb) (hfitb : rob + lenb ≤ REGION_SIZE) :
    ∀ (sched : List Bool) (s : WriterPair),
    pair_inv_apart ra roa lena rb rob lenb s.dev s.a s.b →
    pair_inv_apart ra roa lena rb rob lenb (pair_run s sched).dev (pair_run s sched).a
        (pair_run s sched).b ∧
      steps_left (pair_run s sched).a = steps_left s.a - sched.count true ∧
      steps_left (pair_run s sched).b = steps_left s.b - sched.count false := by
  intro sched
  induction sched with
  | nil =>
    intro s h
    exact ⟨h, by simp [pair_run], by simp [pair_run]⟩
  | cons c rest ih =>
    intro s h
    have hstep : pair_inv_apart ra roa lena rb rob lenb (pair_step s c).dev (pair_step s c).a
          (pair_step s c).b ∧
        steps_left (pair_step s c).a = steps_left s.a - (if c then 1 else 0) ∧
        steps_left (pair_step s c).b = steps_left s.b - (if c then 0 else 1) := by
      cases c with
      | true =>
        rcases apart_step ra roa lena rb rob lenb hne hra hlena hfita s.dev s.a s.b h with
          ⟨p, e⟩ | ⟨d1, x1, e, i1, st⟩
        · have h0 := (steps_left_returned s.a).2 p
          simp only [pair_step, if_true, e]
          exact ⟨h, by simp [h0], by simp⟩
        · simp only [pair_step, if_true, e]
          exact ⟨i1, by omega, by simp⟩
      | false =>
        rcases apart_step rb rob lenb ra roa lena (Ne.symm hne) hrb hlenb hfitb s.dev s.b s.a
          (pair_inv_apart_symm _ _ _ _ _ _ _ _ _ h) with ⟨p, e⟩ | ⟨d1, x1, e, i1, st⟩
        · have h0 := (steps_left_returned s.b).2 p
          simp only [pair_step, Bool.false_eq_true, if_false, e]
          exact ⟨h, by simp, by simp [h0]⟩
        · simp only [pair_step, Bool.false_eq_true, if_false, e]
          exact ⟨pair_inv_apart_symm _ _ _ _ _ _ _ _ _ i1, by simp, by omega⟩
    obtain ⟨i1, s1, s2⟩ := hstep
    obtain ⟨i2, t1, t2⟩ := ih (pair_step s c) i1
    refine ⟨i2, ?_, ?_⟩
    · show steps_left (pair_run (pair_step s c) rest).a = _
      rw [t1, s1, count_cons_true]
      omega
    · show steps_left (pair_run (pair_step s c) rest).b = _
      rw [t2, s2, count_cons_false]
      omega

/-- Writers to two different regions: overview. Each writes non-empty data
that ends within its region, on a device whose mutexes are free and whose
gates are available. Under every schedule a writer that has not returned can
make its next step, so neither ever waits for the other, and a writer that
was given six steps has returned with all its bytes written. -/
theorem writers_to_different_regions (dev : vblock_device) (hf : locks_free dev)
    (da db : List Nat) (oa ob : Nat) (hoa : oa < TOTAL_SIZE) (hob : ob < TOTAL_SIZE)
    (hne : oa / REGION_SIZE ≠ ob / REGION_SIZE)
    (hlena : 0 < strlen da) (hfita : oa % REGION_SIZE + strlen da ≤ REGION_SIZE)
    (hlenb : 0 < strlen db) (hfitb : ob % REGION_SIZE + strlen db ≤ REGION_SIZE)
    (sched : List Bool) :
    (has_returned (pair_run ⟨dev, writer_start da oa, writer_start db ob⟩ sched).a = false →
      (writer_step (pair_run ⟨dev, writer_start da oa, writer_start db ob⟩ sched).dev
        (pair_run ⟨dev, writer_start da oa, writer_start db ob⟩ sched).a).isSome = true) ∧
    (has_returned (pair_run ⟨dev, writer_start da oa, writer_start db ob⟩ sched).b = false →
      (writer_step (pair_run ⟨dev, writer_start da oa, writer_start db ob⟩ sched).dev
        (pair_run ⟨dev, writer_start da oa, writer_start db ob⟩ sched).b).isSome = true) ∧
    (6 ≤ sched.count true →
      has_returned (pair_run ⟨dev, writer_start da oa, writer_start db ob⟩ sched).a = true ∧
      (pair_run ⟨dev, writer_start da oa, writer_start db ob⟩ sched).a.ret = strlen da) ∧
    (6 ≤ sched.count false →
      has_returned (pair_run ⟨dev, writer_start da oa, writer_start db ob⟩ sched).b = true ∧
      (pair_run ⟨dev, writer_start da oa, writer_start db ob⟩ sched).b.ret = strlen db) := by
  have hra : oa / REGION_SIZE < TOTAL_REGIONS := Nat.lt_of_not_le (offset_in_range oa hoa).2
  have hrb : ob / REGION_SIZE < TOTAL_REGIONS := Nat.lt_of_not_le (offset_in_range ob hob).2
  have h0 : pair_inv_apart (oa / REGION_SIZE) (oa % REGION_SIZE) (strlen da)
      (ob / REGION_SIZE) (ob % REGION_SIZE) (strlen db) dev (writer_start da oa)
      (writer_start db ob) :=
    ⟨⟨rfl, rfl, rfl, rfl⟩, fun _ => hf _ hra, ⟨rfl, rfl, rfl, rfl⟩, fun _ => hf _ hrb⟩
  obtain ⟨inv, s1, s2⟩ := apart_run _ _ _ _ _ _ hne hra hlena hfita hrb hlenb hfitb sched
    ⟨dev, writer_start da oa, writer_start db ob⟩ h0
  refine ⟨?_, ?_, ?_, ?_⟩
  · intro hnr
    rcases apart_step _ _ _ _ _ _ hne hra hlena hfita _ _ _ inv with ⟨p, _⟩ | ⟨d1, x1, e, _⟩
    · rw [p] at hnr
      cases hnr
    · rw [e]
      rfl
  · intro hnr
    rcases apart_step _ _ _ _ _ _ (Ne.symm hne) hrb hlenb hfitb _ _ _
      (pair_inv_apart_symm _ _ _ _ _ _ _ _ _ inv) with ⟨p, _⟩ | ⟨d1, x1, e, _⟩
    · rw [p] at hnr
      cases hnr
    · rw [e]
      rfl
  · intro hc
    have hz : steps_left (pair_run ⟨dev, writer_start da oa, writer_start db ob⟩ sched).a = 0 := by
      rw [s1]
      show steps_left (writer_start da oa) - _ = 0
      simp only [steps_left, writer_start]
      omega
    have hret := (steps_left_returned _).1 hz
    exact ⟨hret, writer_inv_returned _ _ _ _ _ _ hret inv.1⟩
  · intro hc
    have hz : steps_left (pair_run ⟨dev, writer_start da oa, writer_start db ob⟩ sched).b = 0 := by
      rw [s2]
      show steps_left (writer_start db ob) - _ = 0
      simp only [steps_left, writer_start]
      omega
    have hret := (steps_left_returned _).1 hz
    exact ⟨hret, writer_inv_returned _ _ _ _ _ _ hret inv.2.2.1⟩

/-- One step of a writer that shares its region with another writer: it
either cannot move, because it has returned or because the other writer is
inside its critical section, or it moves and the state of the two is kept. -/
theorem same_step (r rox lenx roy leny : Nat)
    (hr : r < TOTAL_REGIONS) (hlenx : 0 < lenx) (hfitx : rox + lenx ≤ REGION_SIZE)
    (dev : vblock_device) (x y : WriterThread)
    (hinv : pair_inv_same r rox lenx roy leny dev x y) :
    (writer_step dev x = none ∧
      (has_returned x = true ∨
        (at_mutex_lock x = true ∧ in_critical_section y = true))) ∨
    (∃ d1 x1, writer_step dev x = some (d1, x1) ∧ pair_inv_same r rox lenx roy leny d1 x1 y) := by
  obtain ⟨ix, iy, hex, hidle⟩ := hinv
  rcases writer_position x with ⟨p1, p2, _⟩ | ⟨_, p2, _⟩ | ⟨_, _, p3⟩
  · cases hy : in_critical_section y with
    | true =>
      left
      have hm := writer_inv_inside_mutex _ _ _ _ _ _ hy iy
      exact ⟨writer_step_blocked r rox lenx dev x p1 ix hm, Or.inr ⟨p1, rfl⟩⟩
    | false =>
      right
      obtain ⟨hm, hc⟩ := hidle p2 hy
      obtain ⟨d1, x1, e, cs1, i1, _, _⟩ := writer_step_enter r rox lenx dev x p1 ix hm hc
      refine ⟨d1, x1, e, i1, writer_inv_outside _ _ _ _ _ _ _ _ hy iy, ?_, ?_⟩
      · rintro ⟨_, h2⟩
        rw [hy] at h2
        cases h2
      · intro h1 _
        rw [cs1] at h1
        cases h1
  · right
    have hy : in_critical_section y = false := by
      cases hy : in_critical_section y with
      | true => exact absurd ⟨p2, hy⟩ hex
      | false => rfl
    obtain ⟨d1, x1, e, i1, _, ex, _⟩ := writer_step_inside r rox lenx hr hlenx hfitx dev x p2 ix
    refine ⟨d1, x1, e, i1, writer_inv_outside _ _ _ _ _ _ _ _ hy iy, ?_, ?_⟩
    · rintro ⟨_, h2⟩
      rw [hy] at h2
      cases h2
    · intro h1 _
      rcases ex with ex | ⟨_, e1, e2⟩
      · rw [ex] at h1
        cases h1
      · exact ⟨e1, e2⟩
  · left
    exact ⟨writer_step_returned dev x p3, Or.inl p3⟩

theorem pair_inv_same_symm (r rox lenx roy leny : Nat) (dev : vblock_device)
    (x y : WriterThread) (h : pair_inv_same r rox lenx roy leny dev x y) :
    pair_inv_same r roy leny rox lenx dev y x :=
  ⟨h.2.1, h.1, fun hc => h.2.2.1 ⟨hc.2, hc.1⟩, fun h1 h2 => h.2.2.2 h2 h1⟩

theorem same_run (r roa lena rob lenb : Nat) (hr : r < TOTAL_REGIONS)
    (hlena : 0 < lena) (hfita : roa + lena ≤ REGION_SIZE)
    (hlenb : 0 < lenb) (hfitb : rob + lenb ≤ REGION_SIZE) :
    ∀ (sched : List Bool) (s : WriterPair),
    pair_inv_same r roa lena rob lenb s.dev s.a s.b →
    pair_inv_same r roa lena rob lenb (pair_run s sched).dev (pair_run s sched).a
      (pair_run s sched).b := by
  intro sched
  induction sched with
  | nil =>
    intro s h
    exact h
  | cons c rest ih =>
    intro s h
    apply ih
    cases c with
    | true =>
      rcases same_step r roa lena rob lenb hr hlena hfita s.dev s.a s.b h with
        ⟨e, _⟩ | ⟨d1, x1, e, i1⟩
      · simp only [pair_step, if_true, e]
        exact h
      · simp only [pair_step, if_true, e]
        exact i1
    | false =>
      rcases same_step r rob lenb roa lena hr hlenb hfitb s.dev s.b s.a
        (pair_inv_same_symm _ _ _ _ _ _ _ _ h) with ⟨e, _⟩ | ⟨d1, x1, e, i1⟩
      · simp only [pair_step, Bool.false_eq_true, if_false, e]
        exact h
      · simp only [pair_step, Bool.false_eq_true, if_false, e]
        exact pair_inv_same_symm _ _ _ _ _ _ _ _ i1

/-- Writers to one region: overview. Each writes non-empty data that ends
within the region, on a device whose mutexes are free and whose gates are
available. Under every schedule the two are never both between `mutex_lock`
and `mutex_unlock`, so the chunks of one are never copied between the chunks
of the other; and a writer that cannot move has either returned or waits at
`mutex_lock` while the other is inside and can move. -/
theorem writers_to_same_region (dev : vblock_device) (hf : locks_free dev)
    (da db : List Nat) (oa ob : Nat) (hoa : oa < TOTAL_SIZE)
    (hsame : ob / REGION_SIZE = oa / REGION_SIZE)
    (hlena : 0 < strlen da) (hfita : oa % REGION_SIZE + strlen da ≤ REGION_SIZE)
    (hlenb : 0 < strlen db) (hfitb : ob % REGION_SIZE + strlen db ≤ REGION_SIZE)
    (sched : List Bool) :
    ¬ (in_critical_section (pair_run ⟨dev, writer_start da oa, writer_start db ob⟩ sched).a =
          true ∧
        in_critical_section (pair_run ⟨dev, writer_start da oa, writer_start db ob⟩ sched).b =
          true) ∧
    (writer_step (pair_run ⟨dev, writer_start da oa, writer_start db ob⟩ sched).dev
        (pair_run ⟨dev, writer_start da oa, writer_start db ob⟩ sched).a = none →
      has_returned (pair_run ⟨dev, writer_start da oa, writer_start db ob⟩ sched).a = true ∨
      (at_mutex_lock (pair_run ⟨dev, writer_start da oa, writer_start db ob⟩ sched).a = true ∧
        (writer_step (pair_run ⟨dev, writer_start da oa, writer_start db ob⟩ sched).dev
          (pair_run ⟨dev, writer_start da oa, writer_start db ob⟩ sched).b).isSome = true)) ∧
    (writer_step (pair_run ⟨dev, writer_start da oa, writer_start db ob⟩ sched).dev
        (pair_run ⟨dev, writer_start da oa, writer_start db ob⟩ sched).b = none →
      has_returned (pair_run ⟨dev, writer_start da oa, writer_start db ob⟩ sched).b = true ∨
      (at_mutex_lock (pair_run ⟨dev, writer_start da oa, writer_start db ob⟩ sched).b = true ∧
        (writer_step (pair_run ⟨dev, writer_start da oa, writer_start db ob⟩ sched).dev
          (pair_run ⟨dev, writer_start da oa, writer_start db ob⟩ sched).a).isSome = true)) := by
  have hr : oa / REGION_SIZE < TOTAL_REGIONS := Nat.lt_of_not_le (offset_in_range oa hoa).2
  have h0 : pair_inv_same (oa / REGION_SIZE) (oa % REGION_SIZE) (strlen da)
      (ob % REGION_SIZE) (strlen db) dev (writer_start da oa) (writer_start db ob) := by
    refine ⟨?_, ?_, ?_, ?_⟩
    · exact ⟨rfl, rfl, rfl, rfl⟩
    · exact ⟨hsame, rfl, rfl, rfl⟩
    · rintro ⟨h, _⟩
      simp [in_critical_section, writer_start] at h
    · intro _ _
      exact hf _ hr
  have inv := same_run _ _ _ _ _ hr hlena hfita hlenb hfitb sched
    ⟨dev, writer_start da oa, writer_start db ob⟩ h0
  have inside_moves : ∀ (rox lenx roy leny : Nat) (d : vblock_device) (x y : WriterThread),
      0 < leny → roy + leny ≤ REGION_SIZE →
      pair_inv_same (oa / REGION_SIZE) rox lenx roy leny d x y →
      in_critical_section y = true → (writer_step d y).isSome = true := by
    intro rox lenx roy leny d x y h1 h2 hi hy
    obtain ⟨_, _, e, _⟩ := writer_step_inside _ roy leny hr h1 h2 d y hy hi.2.1
    rw [e]
    rfl
  refine ⟨inv.2.2.1, ?_, ?_⟩
  · intro hnone
    rcases same_step _ _ _ _ _ hr hlena hfita _ _ _ inv with ⟨_, h | ⟨h1, h2⟩⟩ | ⟨d1, x1, e, _⟩
    · exact Or.inl h
    · exact Or.inr ⟨h1, inside_moves _ _ _ _ _ _ _ hlenb hfitb inv h2⟩
    · rw [e] at hnone
      cases hnone
  · intro hnone
    rcases same_step _ _ _ _ _ hr hlenb hfitb _ _ _ (pair_inv_same_symm _ _ _ _ _ _ _ _ inv) with
      ⟨_, h | ⟨h1, h2⟩⟩ | ⟨d1, x1, e, _⟩
    · exact Or.inl h
    · exact Or.inr ⟨h1, inside_moves _ _ _ _ _ _ _ hlena hfita
        (pair_inv_same_symm _ _ _ _ _ _ _ _ inv) h2⟩
    · rw [e] at hnone
      cases hnone

theorem pair_run_append : ∀ (l1 l2 : List Bool) (s : WriterPair),
    pair_run s (l1 ++ l2) = pair_run (pair_run s l1) l2 := by
  intro l1
  induction l1 with
  | nil =>
    intro l2 s
    rfl
  | cons c rest ih =>
    intro l2 s
    exact ih l2 (pair_step s c)

/-- When neither writer can move, no schedule changes anything. -/
theorem pair_run_stuck (s : WriterPair) (ha : writer_step s.dev s.a = none)
    (hb : writer_step s.dev s.b = none) : ∀ sched, pair_run s sched = s := by
  intro sched
  induction sched with
  | nil => rfl
  | cons c rest ih =>
    have e : pair_step s c = s := by
      cases c
      · simp only [pair_step, Bool.false_eq_true, if_false, hb]
      · simp only [pair_step, if_true, ha]
    simp only [pair_run, e, ih]

/-- Claim C28, evaluated on the code: two writers to region 0 of the fresh
device, `HELLO` at offset 510 and `X` at offset 0. The first writer is given
its seven steps and returns 5: its data spans into region 1 and it releases
the gate and the mutex of region 1, so the mutex of region 0 stays held. From
then on the second writer sleeps at `mutex_lock` under every schedule: the two
writes are never serialized, the second one never takes place. In the
call-by-call model the same shows as the second call not returning. -/
theorem spanning_writer_blocks_same_region_writer :
    has_returned
        (pair_run scenario_writers [true, true, true, true, true, true, true]).a = true ∧
      (pair_run scenario_writers [true, true, true, true, true, true, true]).a.ret = 5 ∧
      ((pair_run scenario_writers
        [true, true, true, true, true, true, true]).dev.regions 0).region_mutex = true ∧
      (∀ sched : List Bool,
        at_mutex_lock (pair_run scenario_writers
            ([true, true, true, true, true, true, true] ++ sched)).b = true ∧
          (writer_step
            (pair_run scenario_writers
              ([true, true, true, true, true, true, true] ++ sched)).dev
            (pair_run scenario_writers
              ([true, true, true, true, true, true, true] ++ sched)).b).isSome = false) ∧
      block_dev_write (after_write scenario_init Env.quiet (bytes "7:510:HELLO") 0) Env.quiet
        (bytes "7:0:X") 0 = .blocked := by
  have ha : writer_step
      (pair_run scenario_writers [true, true, true, true, true, true, true]).dev
      (pair_run scenario_writers [true, true, true, true, true, true, true]).a = none :=
    Option.isNone_iff_eq_none.1 (by decide)
  have hb : writer_step
      (pair_run scenario_writers [true, true, true, true, true, true, true]).dev
      (pair_run scenario_writers [true, true, true, true, true, true, true]).b = none :=
    Option.isNone_iff_eq_none.1 (by decide)
  refine ⟨by decide, by decide, by decide, ?_, rfl⟩
  intro sched
  rw [pair_run_append, pair_run_stuck _ ha hb sched]
  exact ⟨by decide, by decide⟩

theorem writers_to_different_regions_example :
    has_returned
        (pair_run ⟨scenario_init, writer_start (bytes "HELLO" ++ [0]) 0,
            writer_start (bytes "WORLD" ++ [0]) 512⟩
          [true, false, false, true, true, false, true, false, false, true, true, false]).a =
        true ∧
      has_returned
        (pair_run ⟨scenario_init, writer_start (bytes "HELLO" ++ [0]) 0,
            writer_start (bytes "WORLD" ++ [0]) 512⟩
          [true, false, false, true, true, false, true, false, false, true, true, false]).b =
        true :=
  ⟨((writers_to_different_regions scenario_init scenario_init_locks_free (bytes "HELLO" ++ [0])
      (bytes "WORLD" ++ [0]) 0 512 (by decide) (by decide) (by decide) (by decide) (by decide)
      (by decide) (by decide)
      [true, false, false, true, true, false, true, false, false, true, true, false]).2.2.1
      (by decide)).1,
    ((writers_to_different_regions scenario_init scenario_init_locks_free (bytes "HELLO" ++ [0])
      (bytes "WORLD" ++ [0]) 0 512 (by decide) (by decide) (by decide) (by decide) (by decide)
      (by decide) (by decide)
      [true, false, false, true, true, false, true, false, false, true, true, false]).2.2.2
      (by decide)).1⟩

theorem writers_to_same_region_example :
    ¬ (in_critical_section
          (pair_run ⟨scenario_init, writer_start (bytes "HELLO" ++ [0]) 0,
              writer_start (bytes "WORLD" ++ [0]) 100⟩ [true, false, false, true, true]).a =
          true ∧
        in_critical_section
          (pair_run ⟨scenario_init, writer_start (bytes "HELLO" ++ [0]) 0,
              writer_start (bytes "WORLD" ++ [0]) 100⟩ [true, false, false, true, true]).b =
          true) :=
  (writers_to_same_region scenario_init scenario_init_locks_free (bytes "HELLO" ++ [0])
    (bytes "WORLD" ++ [0]) 0 100 (by decide) (by decide) (by decide) (by decide) (by decide)
    (by decide) [true, false, false, true, true]).1

/-! ## Addressing -/

/-- With the offset inside the device the commit part never returns
`-EINVAL`: neither the offset check nor the check of the region index that
follows it fails. -/
theorem write_commit_in_range_not_einval (dev : vblock_device) (env : Env) (p : ParseResult)
    (d : List Nat) (w : WriteResult) (h0 : 0 ≤ p.offset) (h1 : p.offset < (TOTAL_SIZE : Int))
    (h : write_commit dev env p d = .ret w) : w.ret ≠ -EINVAL := by
  have ho : p.offset.toNat < TOTAL_SIZE := by
    have : ((p.offset.toNat : Nat) : Int) = p.offset := Int.toNat_of_nonneg h0
    omega
  have hr2 := (offset_in_range p.offset.toNat ho).2
  have hne : -EACCES ≠ -EINVAL ∧ -EPERM ≠ -EINVAL ∧ -ERESTARTSYS ≠ -EINVAL := by decide
  have hr1 : ¬ (p.offset < 0 ∨ (TOTAL_SIZE : Int) ≤ p.offset) := by omega
  simp only [write_commit, hr1, hr2, if_false] at h
  split at h
  · cases h
    exact hne.1
  · split at h
    · cases h
      exact hne.1
    · split at h
      · cases h
        exact hne.2.1
      · split at h
        · cases h
        · split at h
          · split at h
            · cases h
              exact hne.2.2
            · cases h
          · split at h
            · cases h
            · split at h
              · cases h
              · cases h
                simp only [EINVAL]
                omega

/-- Claim C31: for every logical offset `o` in `[0, TOTAL_REGIONS * REGION_SIZE)`
the region index `o / REGION_SIZE` is below `TOTAL_REGIONS`, the in-region
offset `o % REGION_SIZE` is below `REGION_SIZE`, and the two give `o` back; so
the condition of the region-index failure of `block_dev_write` is false, and a
write whose offset passed the offset check never returns `-EINVAL`. -/
theorem addressing_in_range (o : Nat) (ho : o < TOTAL_REGIONS * REGION_SIZE) :
    o / REGION_SIZE < TOTAL_REGIONS ∧ o % REGION_SIZE < REGION_SIZE ∧
      o / REGION_SIZE * REGION_SIZE + o % REGION_SIZE = o ∧
      ¬ ((o : Int) < 0 ∨ (TOTAL_SIZE : Int) ≤ (o : Int)) ∧
      ¬ TOTAL_REGIONS ≤ ((o : Int)).toNat / REGION_SIZE ∧
      ∀ (dev : vblock_device) (env : Env) (p : ParseResult) (d : List Nat) (w : WriteResult),
        p.offset = (o : Int) → write_commit dev env p d = .ret w → w.ret ≠ -EINVAL := by
  have ho' : o < TOTAL_SIZE := by
    have e : TOTAL_SIZE = TOTAL_REGIONS * REGION_SIZE := by decide
    omega
  refine ⟨Nat.lt_of_not_le (offset_in_range o ho').2, Nat.mod_lt _ (by decide), ?_,
    (offset_in_range o ho').1, ?_, ?_⟩
  · simp only [REGION_SIZE]
    omega
  · rw [Int.toNat_ofNat]
    exact (offset_in_range o ho').2
  · intro dev env p d w hp h
    apply write_commit_in_range_not_einval dev env p d w _ _ h
    · rw [hp]
      omega
    · rw [hp]
      exact_mod_cast ho'

theorem addressing_in_range_witness :
    4095 / REGION_SIZE < TOTAL_REGIONS ∧ 4095 % REGION_SIZE < REGION_SIZE ∧
      4095 / REGION_SIZE * REGION_SIZE + 4095 % REGION_SIZE = 4095 ∧
      ¬ (((4095 : Nat) : Int) < 0 ∨ (TOTAL_SIZE : Int) ≤ ((4095 : Nat) : Int)) ∧
      ¬ TOTAL_REGIONS ≤ (((4095 : Nat) : Int)).toNat / REGION_SIZE ∧
      ∀ (dev : vblock_device) (env : Env) (p : ParseResult) (d : List Nat) (w : WriteResult),
        p.offset = ((4095 : Nat) : Int) → write_commit dev env p d = .ret w → w.ret ≠ -EINVAL :=
  addressing_in_range 4095 (by decide)

/-! ## What the parser accepts -/

/-- The values `parse_write_data` returns, and what it has read when it
reports the offset-only form. -/
theorem parse_write_data_ret (env : Env) (buffer : List Nat) (lofft key : Int) :
    (parse_write_data env (buffer ++ [0]) buffer.length lofft key).ret = -ENOMEM ∨
    (parse_write_data env (buffer ++ [0]) buffer.length lofft key).ret = -EINVAL ∨
    (parse_write_data env (buffer ++ [0]) buffer.length lofft key).ret = 1 ∨
    ((parse_write_data env (buffer ++ [0]) buffer.length lofft key).ret = 0 ∧
      kstrtoint (first_token buffer) = none ∧
      kstrtoll (first_token buffer) =
        some (parse_write_data env (buffer ++ [0]) buffer.length lofft key).offset) := by
  unfold first_token
  simp only [parse_write_data, take_append_nul]
  split
  · exact Or.inl rfl
  · cases hk : kstrtoint ((strsep (some (buffer ++ [0]))).1.getD []) with
    | some k =>
      simp only
      split
      · exact Or.inr (Or.inl rfl)
      · split
        · exact Or.inr (Or.inl rfl)
        · exact Or.inr (Or.inr (Or.inl rfl))
    | none =>
      simp only
      cases hl : kstrtoll ((strsep (some (buffer ++ [0]))).1.getD []) with
      | none => exact Or.inr (Or.inl rfl)
      | some v =>
        refine Or.inr (Or.inr (Or.inr ?_))
        simp

theorem kstrtoint_none_not_int (s : List Nat) (v : Int) (hk : kstrtoint s = none)
    (hl : kstrtoll s = some v) : ¬ (-(2 ^ 31) ≤ v ∧ v < 2 ^ 31) := by
  unfold kstrtoint at hk
  simp only [hl] at hk
  split at hk
  · cases hk
  · assumption

/-- Claim C33: whenever `parse_write_data` returns 0 (offset-only form) the
offset it stored does not fit a 32-bit signed `int` and so lies outside
`[0, TOTAL_SIZE)`; `block_dev_write` returns `-EINVAL` for every such payload;
and for every write that returns a non-negative count `parse_write_data` had
returned 1 (keyed form). -/
theorem offset_only_branch_never_in_range (dev : vblock_device) (env : Env) (buffer : List Nat)
    (lofft : Int) :
    ((parse_write_data env (buffer ++ [0]) buffer.length lofft 0).ret = 0 →
      ¬ (-(2 ^ 31) ≤ (parse_write_data env (buffer ++ [0]) buffer.length lofft 0).offset ∧
        (parse_write_data env (buffer ++ [0]) buffer.length lofft 0).offset < 2 ^ 31) ∧
      ¬ (0 ≤ (parse_write_data env (buffer ++ [0]) buffer.length lofft 0).offset ∧
        (parse_write_data env (buffer ++ [0]) buffer.length lofft 0).offset <
          (TOTAL_SIZE : Int)) ∧
      (env.write_alloc_fails = false → env.copy_from_user_fails = false →
        block_dev_write dev env buffer lofft =
          .ret ⟨-EINVAL, dev,
            (parse_write_data env (buffer ++ [0]) buffer.length lofft 0).offset⟩)) ∧
    (∀ w, block_dev_write dev env buffer lofft = .ret w → 0 ≤ w.ret →
      (parse_write_data env (buffer ++ [0]) buffer.length lofft 0).ret = 1) := by
  have hneg : -ENOMEM < 0 ∧ -EINVAL < 0 ∧ -ENOMEM ≠ 0 ∧ -EINVAL ≠ 0 ∧ (1 : Int) ≠ 0 := by decide
  constructor
  · intro h0
    rcases parse_write_data_ret env buffer lofft 0 with h | h | h | ⟨_, hk, hl⟩
    · rw [h] at h0
      exact absurd h0 hneg.2.2.1
    · rw [h] at h0
      exact absurd h0 hneg.2.2.2.1
    · rw [h] at h0
      exact absurd h0 hneg.2.2.2.2
    · refine ⟨kstrtoint_none_not_int _ _ hk hl, ?_, ?_⟩
      · have := kstrtoint_none_range _ _ hk hl
        omega
      · intro h1 h2
        exact offset_only_parse_rejected dev env buffer lofft h1 h2 h0
  · intro w h hacc
    obtain ⟨dp, _, hc⟩ := block_dev_write_accepted_commit dev env buffer lofft w h hacc
    obtain ⟨a1, a2, _⟩ := write_commit_accepted dev env _ dp w hc hacc
    rcases parse_write_data_ret env buffer lofft 0 with h' | h' | h' | ⟨_, hk, hl⟩
    · exfalso
      unfold block_dev_write at h
      simp only [h', hneg.1, if_true] at h
      split at h
      · cases h
        simp only at hacc
        have := hneg.1
        omega
      · split at h
        · cases h
          simp only at hacc
          have : -EFAULT < 0 := by decide
          omega
        · cases h
          simp only at hacc
          have := hneg.1
          omega
    · exfalso
      unfold block_dev_write at h
      simp only [h', hneg.2.1, if_true] at h
      split at h
      · cases h
        simp only at hacc
        have := hneg.1
        omega
      · split at h
        · cases h
          simp only at hacc
          have : -EFAULT < 0 := by decide
          omega
        · cases h
          simp only at hacc
          have := hneg.2.1
          omega
    · exact h'
    · exfalso
      have := kstrtoint_none_range _ _ hk hl
      omega

theorem offset_only_branch_never_in_range_witness :
    ¬ (-(2 ^ 31) ≤
          (parse_write_data Env.quiet (bytes "3000000000" ++ [0]) (bytes "3000000000").length
            0 0).offset ∧
        (parse_write_data Env.quiet (bytes "3000000000" ++ [0]) (bytes "3000000000").length
            0 0).offset < 2 ^ 31) ∧
      ¬ (0 ≤
          (parse_write_data Env.quiet (bytes "3000000000" ++ [0]) (bytes "3000000000").length
            0 0).offset ∧
        (parse_write_data Env.quiet (bytes "3000000000" ++ [0]) (bytes "3000000000").length
            0 0).offset < (TOTAL_SIZE : Int)) ∧
      (Env.quiet.write_alloc_fails = false → Env.quiet.copy_from_user_fails = false →
        block_dev_write scenario_init Env.quiet (bytes "3000000000") 0 =
          .ret ⟨-EINVAL, scenario_init,
            (parse_write_data Env.quiet (bytes "3000000000" ++ [0]) (bytes "3000000000").length
              0 0).offset⟩) :=
  (offset_only_branch_never_in_range scenario_init Env.quiet (bytes "3000000000") 0).1 rfl

/-- Claim C34, evaluated on the code: a payload with a key, one `:` and an
offset, and no second `:`, is accepted by `parse_write_data` as keyed form (it
returns 1 with that key and offset), but skipping the key and the offset token
in `block_dev_write` leaves the data pointer `NULL`, and the write goes on to
take `strlen` of it: its behaviour is undefined. -/
theorem keyed_payload_without_data_is_undefined (dev : vblock_device) (env : Env)
    (ktok otok : List Nat) (k o lofft : Int)
    (h1 : env.write_alloc_fails = false) (h2 : env.copy_from_user_fails = false)
    (h3 : env.parse_alloc_fails = false)
    (hk : kstrtoint ktok = some k) (ho : kstrtoll otok = some o) :
    parse_write_data env ((ktok ++ 58 :: otok) ++ [0]) (ktok ++ 58 :: otok).length lofft 0 =
        ⟨1, o, k⟩ ∧
      write_data_ptr 1 ((ktok ++ 58 :: otok) ++ [0]) = none ∧
      block_dev_write dev env (ktok ++ 58 :: otok) lofft = .undefined := by
  have hkb := kstrtoll_bytes ktok k (kstrtoint_kstrtoll ktok k hk)
  have hob := kstrtoll_bytes otok o ho
  have e : (ktok ++ 58 :: otok) ++ [0] = ktok ++ 58 :: (otok ++ 0 :: []) := by simp
  have hp : parse_write_data env ((ktok ++ 58 :: otok) ++ [0]) (ktok ++ 58 :: otok).length
      lofft 0 = ⟨1, o, k⟩ := by
    simp only [parse_write_data, h3, Bool.false_eq_true, if_false, take_append_nul]
    rw [e]
    simp only [strsep, strsep_scan_colon ktok _ hkb, Option.getD_some, hk,
      strsep_scan_nul otok [] hob, ho]
  have hd : write_data_ptr 1 ((ktok ++ 58 :: otok) ++ [0]) = none := by
    rw [e]
    simp only [write_data_ptr, if_true, strsep, strsep_scan_colon ktok _ hkb,
      strsep_scan_nul otok [] hob]
  refine ⟨hp, hd, ?_⟩
  simp only [block_dev_write, h1, h2, Bool.false_eq_true, if_false, hp, hd]
  simp

theorem keyed_payload_without_data_is_undefined_witness :
    parse_write_data Env.quiet (bytes "5:0" ++ [0]) (bytes "5:0").length 0 0 = ⟨1, 0, 5⟩ ∧
      write_data_ptr 1 (bytes "5:0" ++ [0]) = none ∧
      block_dev_write scenario_init Env.quiet (bytes "5:0") 0 = .undefined :=
  keyed_payload_without_data_is_undefined scenario_init Env.quiet (bytes "5") (bytes "0") 5 0 0
    rfl rfl rfl (by decide) (by decide)

/-! ## The data of a keyed write -/

theorem takeWhile_all (data : List Nat) (h : ∀ c ∈ data, c ≠ 0) :
    data.takeWhile (fun c => c != 0) = data := by
  induction data with
  | nil => rfl
  | cons c cs ih =>
    have hc := h c (List.mem_cons_self c cs)
    have hb : (c != 0) = true := by simpa using hc
    simp [List.takeWhile, hb, ih (fun x hx => h x (List.mem_cons_of_mem c hx))]

theorem takeWhile_cut (pre post : List Nat) (h : ∀ c ∈ pre, c ≠ 0) :
    (pre ++ 0 :: post).takeWhile (fun c => c != 0) = pre := by
  induction pre with
  | nil => simp [List.takeWhile]
  | cons c cs ih =>
    have hc := h c (List.mem_cons_self c cs)
    have hb : (c != 0) = true := by simpa using hc
    simp [List.takeWhile, hb, ih (fun x hx => h x (List.mem_cons_of_mem c hx))]

/-- Claim C35: for every accepted keyed write `<key>:<o>:<data>` the bytes
stored and counted are the bytes of `data` in front of its first zero byte
(all of `data` when it holds none), cut at the end of the device: the write
returns their number `m`, they lie at the offsets `o .. o + m - 1`, and no
other byte of the device changes; so data free of zero bytes is stored whole,
and of data `pre ++ 0 :: post` only `pre` is stored. -/
theorem data_ends_at_first_zero_byte (dev : vblock_device) (env : Env)
    (ktok otok data : List Nat) (k : Int) (o : Nat) (lofft : Int) (w : WriteResult)
    (hk : kstrtoint ktok = some k) (ho : kstrtoll otok = some (o : Int))
    (h : block_dev_write dev env (ktok ++ 58 :: (otok ++ 58 :: data)) lofft = .ret w)
    (hacc : 0 ≤ w.ret) :
    w.ret = ((min (data.takeWhile (fun c => c != 0)).length (TOTAL_SIZE - o) : Nat) : Int) ∧
      (∀ i, i < min (data.takeWhile (fun c => c != 0)).length (TOTAL_SIZE - o) →
        byte_at w.dev (o + i) = (data.takeWhile (fun c => c != 0)).getD i 0) ∧
      (∀ x, x < o ∨ o + min (data.takeWhile (fun c => c != 0)).length (TOTAL_SIZE - o) ≤ x →
        byte_at w.dev x = byte_at dev x) ∧
      ((∀ c ∈ data, c ≠ 0) → data.takeWhile (fun c => c != 0) = data) ∧
      (∀ pre post, data = pre ++ 0 :: post → (∀ c ∈ pre, c ≠ 0) →
        data.takeWhile (fun c => c != 0) = pre) := by
  have hc := block_dev_write_keyed_accepted dev env ktok otok data k o lofft w hk ho h hacc
  obtain ⟨b1, b2⟩ := write_commit_bytes dev env _ (data ++ [0]) w hc hacc
  have hlen : strlen (data ++ [0]) = (data.takeWhile (fun c => c != 0)).length := by
    simp only [strlen, cstr_append_nul_cut]
    rfl
  simp only [Int.toNat_ofNat, hlen] at b1 b2
  refine ⟨b1, ?_, ?_, takeWhile_all data, ?_⟩
  · intro i hi
    rw [b2 (o + i)]
    have hx : o ≤ o + i ∧
        o + i < o + min (data.takeWhile (fun c => c != 0)).length (TOTAL_SIZE - o) := by omega
    have hi' : i < strlen (data ++ [0]) := by
      rw [hlen]
      omega
    have e : o + i - o = i := by omega
    simp only [hx, and_self, if_true, e]
    rw [← cstr_getD (data ++ [0]) i hi', cstr_append_nul_cut]
    rfl
  · intro x hx
    rw [b2 x]
    have : ¬ (o ≤ x ∧
        x < o + min (data.takeWhile (fun c => c != 0)).length (TOTAL_SIZE - o)) := by omega
    simp only [this, if_false]
  · intro pre post hd hpre
    rw [hd]
    exact takeWhile_cut pre post hpre

theorem write_with_zero_byte :
    block_dev_write scenario_init Env.quiet
        (bytes "7" ++ 58 :: (bytes "0" ++ 58 :: [65, 0, 66])) 0 =
      .ret ⟨1, after_write scenario_init Env.quiet (bytes "7:0:" ++ [65, 0, 66]) 0, 1⟩ :=
  rfl

theorem data_ends_at_first_zero_byte_witness :
    (⟨1, after_write scenario_init Env.quiet (bytes "7:0:" ++ [65, 0, 66]) 0, 1⟩ :
        WriteResult).ret =
      ((min (([65, 0, 66] : List Nat).takeWhile (fun c => c != 0)).length (TOTAL_SIZE - 0) :
        Nat) : Int) ∧
    ([65, 0, 66] : List Nat).takeWhile (fun c => c != 0) = [65] :=
  ⟨(data_ends_at_first_zero_byte scenario_init Env.quiet (bytes "7") (bytes "0") [65, 0, 66] 7 0
      0 ⟨1, after_write scenario_init Env.quiet (bytes "7:0:" ++ [65, 0, 66]) 0, 1⟩
      (by decide) (by decide) write_with_zero_byte (by decide)).1,
    (data_ends_at_first_zero_byte scenario_init Env.quiet (bytes "7") (bytes "0") [65, 0, 66] 7 0
      0 ⟨1, after_write scenario_init Env.quiet (bytes "7:0:" ++ [65, 0, 66]) 0, 1⟩
      (by decide) (by decide) write_with_zero_byte (by decide)).2.2.2.2 [65] [66] rfl
      (by decide)⟩

/-! ## Locked regions whose key is not in the allow-list -/

/-- The commit part of a write into a locked region whose lock key is not in
the allow-list returns an error and leaves the device as it was. -/
theorem write_commit_locked_unlisted (dev : vblock_device) (env : Env) (p : ParseResult)
    (d : List Nat) (h0 : 0 ≤ p.offset)
    (hr : p.offset.toNat / REGION_SIZE < TOTAL_REGIONS)
    (hl : (dev.regions (p.offset.toNat / REGION_SIZE)).locked ≠ 0)
    (hv : is_valid_key dev (dev.regions (p.offset.toNat / REGION_SIZE)).lock_key = false) :
    ∃ e, e < 0 ∧ write_commit dev env p d = .ret ⟨e, dev, p.offset⟩ := by
  have hlt : p.offset.toNat < TOTAL_SIZE := by
    simp only [TOTAL_SIZE, REGION_SIZE, TOTAL_REGIONS] at *
    omega
  have hr1 : ¬ (p.offset < 0 ∨ (TOTAL_SIZE : Int) ≤ p.offset) := by
    have : ((p.offset.toNat : Nat) : Int) = p.offset := Int.toNat_of_nonneg h0
    omega
  have hr2 : ¬ TOTAL_REGIONS ≤ p.offset.toNat / REGION_SIZE := by omega
  obtain ⟨_, n2, n3, _, _, _⟩ := neg_errno_lt_zero
  by_cases h1 : p.ret ≠ 1
  · exact ⟨-EACCES, n2, by simp only [write_commit, hr1, hr2, if_false, hl, h1, ne_eq,
      not_false_eq_true, and_self, if_true]⟩
  · cases hkv : is_valid_key dev p.key with
    | false =>
      refine ⟨-EACCES, n2, ?_⟩
      simp only [write_commit, hr1, hr2, if_false, hl, h1, hkv, ne_eq, not_false_eq_true,
        and_false, and_self, if_true]
    | true =>
      have hne : p.key ≠ (dev.regions (p.offset.toNat / REGION_SIZE)).lock_key := by
        intro e
        rw [e, hv] at hkv
        cases hkv
      refine ⟨-EPERM, n3, ?_⟩
      simp only [write_commit, hr1, hr2, if_false, hl, h1, hkv, hne, ne_eq, not_false_eq_true,
        and_false, and_self, if_true, Bool.true_eq_false]

/-- Claim C36, evaluated on the code. In every state reached from construction
by a sequence of requests, for a locked region `r`: when `r + 1000` is not in
the allow-list, a write whose resolved offset lies in `r` returns an error and
changes nothing, whatever its key and data, with one exception: a payload
with a key and an offset but no second `:` has a `NULL` data pointer, and the
write runs into `strlen` of it before any check is made, so it does not fail
with an error, its behaviour is undefined. And a write that starts in `r` and
returns a count carried the key `r + 1000`, and `r + 1000` is in the
allow-list. -/
theorem unlisted_locked_region_rejects_writes (mirror_enable : Int) (user_keys : Nat → Int)
    (key_count : Int) (reqs : List (Env × Request)) (dev : vblock_device)
    (hrun : run_requests (block_dev_init mirror_enable user_keys key_count) reqs = some dev)
    (r : Nat) (hr : r < TOTAL_REGIONS) (hl : (dev.regions r).locked ≠ 0) (env : Env)
    (buffer : List Nat) (lofft : Int)
    (hp : 0 ≤ (parse_write_data env (buffer ++ [0]) buffer.length lofft 0).offset)
    (hreg : (parse_write_data env (buffer ++ [0]) buffer.length lofft 0).offset.toNat /
      REGION_SIZE = r) :
    (is_valid_key dev ((r : Int) + 1000) = false →
      (block_dev_write dev env buffer lofft = .undefined ∧
        (parse_write_data env (buffer ++ [0]) buffer.length lofft 0).ret = 1 ∧
        write_data_ptr 1 (buffer ++ [0]) = none) ∨
      ∃ w, block_dev_write dev env buffer lofft = .ret w ∧ w.ret < 0 ∧ w.dev = dev) ∧
    (∀ w, block_dev_write dev env buffer lofft = .ret w → 0 ≤ w.ret →
      (parse_write_data env (buffer ++ [0]) buffer.length lofft 0).key = (r : Int) + 1000 ∧
        is_valid_key dev ((r : Int) + 1000) = true) := by
  have hwf := reachable_lock_keys_wf mirror_enable user_keys key_count reqs dev hrun r
  have hkey : (dev.regions r).lock_key = (r : Int) + 1000 := hwf.2 hl
  obtain ⟨_, _, _, _, n5, n6⟩ := neg_errno_lt_zero
  constructor
  · intro hv
    cases h1 : env.write_alloc_fails with
    | true =>
      right
      exact ⟨⟨-ENOMEM, dev, lofft⟩, by simp only [block_dev_write, h1, if_true], n5, rfl⟩
    | false =>
    cases h2 : env.copy_from_user_fails with
    | true =>
      right
      exact ⟨⟨-EFAULT, dev, lofft⟩,
        by simp only [block_dev_write, h1, h2, if_true, Bool.false_eq_true, if_false], n6, rfl⟩
    | false =>
      by_cases h3 : (parse_write_data env (buffer ++ [0]) buffer.length lofft 0).ret < 0
      · right
        exact ⟨⟨(parse_write_data env (buffer ++ [0]) buffer.length lofft 0).ret, dev,
            (parse_write_data env (buffer ++ [0]) buffer.length lofft 0).offset⟩,
          by simp only [block_dev_write, h1, h2, h3, if_true, Bool.false_eq_true, if_false], h3,
          rfl⟩
      · cases hd : write_data_ptr
          (parse_write_data env (buffer ++ [0]) buffer.length lofft 0).ret (buffer ++ [0]) with
        | none =>
          left
          have hret : (parse_write_data env (buffer ++ [0]) buffer.length lofft 0).ret = 1 := by
            by_contra hne
            simp [write_data_ptr, hne] at hd
          refine ⟨by simp only [block_dev_write, h1, h2, h3, Bool.false_eq_true, if_false, hd],
            hret, ?_⟩
          rw [hret] at hd
          exact hd
        | some dp =>
          right
          obtain ⟨e, he, hc⟩ := write_commit_locked_unlisted dev env _ dp hp
            (by rw [hreg]; exact hr) (by rw [hreg]; exact hl)
            (by rw [hreg, hkey]; exact hv)
          exact ⟨⟨e, dev, (parse_write_data env (buffer ++ [0]) buffer.length lofft 0).offset⟩,
            by simp only [block_dev_write, h1, h2, h3, Bool.false_eq_true, if_false, hd, hc], he,
            rfl⟩
  · intro w h hacc
    obtain ⟨dp, _, hc⟩ := block_dev_write_accepted_commit dev env buffer lofft w h hacc
    obtain ⟨_, _, a3, _, _⟩ := write_commit_accepted dev env _ dp w hc hacc
    rw [hreg] at a3
    obtain ⟨v1, v2⟩ := a3 hl
    rw [hkey] at v2
    rw [v2] at v1
    exact ⟨v2, v1⟩

theorem unlisted_locked_region_rejects_writes_witness :
    ((block_dev_write scenario_locked_one Env.quiet (bytes "1001:512") 0 = .undefined ∧
        (parse_write_data Env.quiet (bytes "1001:512" ++ [0]) (bytes "1001:512").length 0
          0).ret = 1 ∧
        write_data_ptr 1 (bytes "1001:512" ++ [0]) = none) ∨
      ∃ w, block_dev_write scenario_locked_one Env.quiet (bytes "1001:512") 0 = .ret w ∧
        w.ret < 0 ∧ w.dev = scenario_locked_one) ∧
    block_dev_write scenario_locked_one Env.quiet (bytes "1001:512") 0 = .undefined ∧
    block_dev_write scenario_locked_one Env.quiet (bytes "1001:512:HELLO") 0 =
      .ret ⟨-EACCES, scenario_locked_one, 512⟩ :=
  ⟨(unlisted_locked_region_rejects_writes 0 (fun i => if i = 0 then 1000 else 0) 1
      [(Env.quiet, .ioctl .VBLOCK_LOCK_REGION 1)] scenario_locked_one rfl 1 (by decide)
      (by decide) Env.quiet (bytes "1001:512") 0 (by decide) (by decide)).1 (by decide),
    rfl, rfl⟩

/-! ## The chunk loops stay in bounds and end -/

theorem chunks_in_bounds_cons (c : Chunk) (l : List Chunk)
    (h1 : 1 ≤ c.chunk) (h2 : c.region_offset + c.chunk ≤ REGION_SIZE)
    (h3 : c.region_num < TOTAL_REGIONS)
    (h : chunks_in_bounds (c.region_num + 1) l)
    (hlen : l.length + (c.region_num + 1) ≤ TOTAL_REGIONS) :
    chunks_in_bounds c.region_num (c :: l) ∧
      (c :: l).length + c.region_num ≤ TOTAL_REGIONS := by
  obtain ⟨a1, a2, a3⟩ := h
  refine ⟨⟨?_, ?_, ?_⟩, ?_⟩
  · intro x hx
    rcases List.mem_cons.1 hx with hx | hx
    · subst hx
      exact ⟨h1, h2, h3⟩
    · exact a1 x hx
  · simp only [List.map_cons, List.length_cons, a2, List.range'_succ]
  · simp only [List.length_cons]
    omega
  · simp only [List.length_cons]
    omega

theorem chunks_in_bounds_nil (start : Nat) : chunks_in_bounds start [] := by
  unfold chunks_in_bounds
  refine ⟨?_, rfl, Nat.zero_le _⟩
  intro c h
  cases h

/-- The chunk loop of the write ends within the passes it is given, the
passes stay in bounds, and `ret` grows by the bytes of the passes. -/
theorem write_loop_chunks_spec (d : List Nat) : ∀ (fuel : Nat) (s : WriteLoop),
    s.region_offset < REGION_SIZE → TOTAL_REGIONS ≤ fuel + s.region_num →
    ∃ s1, write_loop d fuel s = some s1 ∧
      s1.ret = s.ret + chunks_total (write_loop_chunks d fuel s) ∧
      chunks_in_bounds s.region_num (write_loop_chunks d fuel s) ∧
      ((write_loop_chunks d fuel s).length + s.region_num ≤ TOTAL_REGIONS ∨
        write_loop_chunks d fuel s = []) := by
  intro fuel
  induction fuel with
  | zero =>
    intro s _ hf
    have hc : ¬ (0 < s.data_len ∧ s.region_num < TOTAL_REGIONS) := by omega
    exact ⟨s, by simp only [write_loop, hc, if_false], by simp [write_loop_chunks, chunks_total],
      chunks_in_bounds_nil _, Or.inr rfl⟩
  | succ fuel ih =>
    intro s hro hf
    by_cases hc : 0 < s.data_len ∧ s.region_num < TOTAL_REGIONS
    · obtain ⟨f1, f2, f3, f4⟩ := write_chunk_fields d s
      obtain ⟨s1, e1, e2, e3, e4⟩ := ih (write_chunk d s)
        (by rw [f2]; decide) (by rw [f1]; omega)
      rw [f1] at e3 e4
      rw [f4] at e2
      have hlen : (write_loop_chunks d fuel (write_chunk d s)).length + (s.region_num + 1) ≤
          TOTAL_REGIONS := by
        rcases e4 with e4 | e4
        · exact e4
        · rw [e4]
          simp only [List.length_nil]
          omega
      have hb := chunks_in_bounds_cons
        ⟨s.region_num, s.region_offset, min (REGION_SIZE - s.region_offset) s.data_len⟩
        (write_loop_chunks d fuel (write_chunk d s)) (by simp only; omega) (by simp only; omega)
        hc.2 e3 hlen
      refine ⟨s1, ?_, ?_, ?_, ?_⟩
      · simp only [write_loop, hc, and_self, if_true, e1]
      · simp only [write_loop_chunks, hc, and_self, if_true, chunks_total, List.map_cons,
          List.sum_cons] at e2 ⊢
        omega
      · simp only [write_loop_chunks, hc, and_self, if_true]
        exact hb.1
      · left
        simp only [write_loop_chunks, hc, and_self, if_true]
        exact hb.2
    · exact ⟨s, by simp only [write_loop, hc, if_false],
        by simp [write_loop_chunks, hc, chunks_total],
        by simp only [write_loop_chunks, hc, if_false]; exact chunks_in_bounds_nil _,
        Or.inr (by simp only [write_loop_chunks, hc, if_false])⟩

/-- The passes of the write loop do not depend on the device. -/
theorem write_loop_chunks_dev (d : List Nat) : ∀ (fuel : Nat) (s t : WriteLoop),
    s.region_num = t.region_num → s.region_offset = t.region_offset →
    s.data_len = t.data_len →
    write_loop_chunks d fuel s = write_loop_chunks d fuel t := by
  intro fuel
  induction fuel with
  | zero =>
    intro s t _ _ _
    rfl
  | succ fuel ih =>
    intro s t h1 h2 h3
    obtain ⟨f1, f2, f3, _⟩ := write_chunk_fields d s
    obtain ⟨g1, g2, g3, _⟩ := write_chunk_fields d t
    have := ih (write_chunk d s) (write_chunk d t) (by rw [f1, g1, h1]) (by rw [f2, g2])
      (by rw [f3, g3, h2, h3])
    simp only [write_loop_chunks, h1, h2, h3, this]

theorem read_chunk_next (env : Env) (s s1 : ReadLoop)
    (h : read_chunk env s = .ret (none, s1)) :
    s1.region_num = s.region_num + 1 ∧ s1.region_offset = 0 ∧
      s1.ret = s.ret + min (REGION_SIZE - s.region_offset) s.to_read := by
  unfold read_chunk at h
  simp only at h
  split at h
  · split at h
    · cases h
    · cases h
  · split at h
    · cases h
    · cases h
      exact ⟨rfl, rfl, rfl⟩

theorem read_chunk_error (env : Env) (s s1 : ReadLoop) (e : Int)
    (h : read_chunk env s = .ret (some e, s1)) : e < 0 := by
  unfold read_chunk at h
  simp only at h
  split at h
  · split at h
    · cases h
      decide
    · cases h
  · split at h
    · cases h
      decide
    · cases h

theorem read_chunk_not_diverged (env : Env) (s : ReadLoop) :
    read_chunk env s ≠ .diverged := by
  unfold read_chunk
  simp only
  split
  · split <;> simp
  · split <;> simp

/-- The chunk loop of the read ends within the passes it is given (it may
sleep on a gate, it does not go on for ever), the passes stay in bounds, an
error it returns with is negative, and when it runs to its end `ret` has grown
by the bytes of the passes. -/
theorem read_loop_chunks_spec (env : Env) : ∀ (fuel : Nat) (s : ReadLoop),
    s.region_offset < REGION_SIZE → TOTAL_REGIONS ≤ fuel + s.region_num →
    read_loop env fuel s ≠ .diverged ∧
      chunks_in_bounds s.region_num (read_loop_chunks env fuel s) ∧
      ((read_loop_chunks env fuel s).length + s.region_num ≤ TOTAL_REGIONS ∨
        read_loop_chunks env fuel s = []) ∧
      (∀ s1, read_loop env fuel s = .ret (none, s1) →
        s1.ret = s.ret + chunks_total (read_loop_chunks env fuel s)) ∧
      (∀ e s1, read_loop env fuel s = .ret (some e, s1) → e < 0) := by
  intro fuel
  induction fuel with
  | zero =>
    intro s _ hf
    have hc : ¬ (0 < s.to_read ∧ s.region_num < TOTAL_REGIONS) := by omega
    refine ⟨by simp [read_loop, hc], chunks_in_bounds_nil _, Or.inr rfl, ?_, ?_⟩
    · intro s1 h
      simp only [read_loop, hc, if_false] at h
      cases h
      simp [read_loop_chunks, chunks_total]
    · intro e s1 h
      simp only [read_loop, hc, if_false] at h
      cases h
  | succ fuel ih =>
    intro s hro hf
    by_cases hc : 0 < s.to_read ∧ s.region_num < TOTAL_REGIONS
    · have hb0 : ∀ l : List Chunk, chunks_in_bounds (s.region_num + 1) l →
          l.length + (s.region_num + 1) ≤ TOTAL_REGIONS →
          chunks_in_bounds s.region_num
            (⟨s.region_num, s.region_offset, min (REGION_SIZE - s.region_offset) s.to_read⟩ ::
              l) ∧
          (⟨s.region_num, s.region_offset, min (REGION_SIZE - s.region_offset) s.to_read⟩ ::
              l : List Chunk).length + s.region_num ≤ TOTAL_REGIONS := by
        intro l h1 h2
        exact chunks_in_bounds_cons
          ⟨s.region_num, s.region_offset, min (REGION_SIZE - s.region_offset) s.to_read⟩ l
          (by simp only; omega) (by simp only; omega) hc.2 h1 h2
      cases hrc : read_chunk env s with
      | ret r =>
        obtain ⟨e, s2⟩ := r
        cases e with
        | none =>
          obtain ⟨n1, n2, n3⟩ := read_chunk_next env s s2 hrc
          obtain ⟨i1, i2, i3, i4, i5⟩ := ih s2 (by rw [n2]; decide) (by rw [n1]; omega)
          rw [n1] at i2 i3
          have hlen : (read_loop_chunks env fuel s2).length + (s.region_num + 1) ≤
              TOTAL_REGIONS := by
            rcases i3 with i3 | i3
            · exact i3
            · rw [i3]
              simp only [List.length_nil]
              omega
          have hb := hb0 _ i2 hlen
          simp only [read_loop, read_loop_chunks, hc, and_self, if_true, hrc]
          refine ⟨i1, hb.1, Or.inl hb.2, ?_, i5⟩
          intro s1 h
          have := i4 s1 h
          simp only [chunks_total, List.map_cons, List.sum_cons] at this ⊢
          omega
        | some e =>
          have hb := hb0 [] (chunks_in_bounds_nil _) (by simp only [List.length_nil]; omega)
          simp only [read_loop, read_loop_chunks, hc, and_self, if_true, hrc]
          refine ⟨by simp, hb.1, Or.inl hb.2, ?_, ?_⟩
          · intro s1 h
            cases h
          · intro e1 s1 h
            cases h
            exact read_chunk_error env s _ _ hrc
      | blocked =>
        have hb := hb0 [] (chunks_in_bounds_nil _) (by simp only [List.length_nil]; omega)
        simp only [read_loop, read_loop_chunks, hc, and_self, if_true, hrc]
        refine ⟨by simp, hb.1, Or.inl hb.2, ?_, ?_⟩
        · intro s1 h
          cases h
        · intro e1 s1 h
          cases h
      | undefined =>
        have hb := hb0 [] (chunks_in_bounds_nil _) (by simp only [List.length_nil]; omega)
        simp only [read_loop, read_loop_chunks, hc, and_self, if_true, hrc]
        refine ⟨by simp, hb.1, Or.inl hb.2, ?_, ?_⟩
        · intro s1 h
          cases h
        · intro e1 s1 h
          cases h
      | diverged => exact absurd hrc (read_chunk_not_diverged env s)
    · refine ⟨by simp [read_loop, hc], ?_, Or.inr (by simp only [read_loop_chunks, hc, if_false]),
        ?_, ?_⟩
      · simp only [read_loop_chunks, hc, if_false]
        exact chunks_in_bounds_nil _
      · intro s1 h
        simp only [read_loop, hc, if_false] at h
        cases h
        simp [read_loop_chunks, hc, chunks_total]
      · intro e s1 h
        simp only [read_loop, hc, if_false] at h
        cases h

/-- The count an accepted write returns is the number of bytes of the passes
of its chunk loop. -/
theorem write_commit_ret_chunks (dev : vblock_device) (env : Env) (p : ParseResult)
    (d : List Nat) (w : WriteResult) (h : write_commit dev env p d = .ret w) (hacc : 0 ≤ w.ret) :
    w.ret = ((chunks_total (write_loop_chunks d TOTAL_REGIONS
      ⟨dev, p.offset.toNat / REGION_SIZE, p.offset.toNat % REGION_SIZE, strlen d, 0⟩) : Nat) :
      Int) := by
  obtain ⟨a1, a2, _, hm, hs⟩ := write_commit_accepted dev env p d w h hacc
  obtain ⟨n1, n2, n3, n4, _, _⟩ := neg_errno_lt_zero
  have bad : ∀ (e : Int) (dv : vblock_device) (l : Int), e < 0 →
      (Outcome.ret (⟨e, dv, l⟩ : WriteResult)) = .ret w → False := by
    intro e dv l he hw
    cases hw
    simp only at hacc
    omega
  obtain ⟨dev1, dev2, l1, l2, _⟩ := lock_then_down dev _ hm hs
  obtain ⟨s1, e1, e2, _, _⟩ := write_loop_chunks_spec d TOTAL_REGIONS
    ⟨dev2, p.offset.toNat / REGION_SIZE, p.offset.toNat % REGION_SIZE, strlen d, 0⟩
    (Nat.mod_lt _ (by decide)) (Nat.le_add_right _ _)
  rw [write_loop_chunks_dev d TOTAL_REGIONS
    ⟨dev2, p.offset.toNat / REGION_SIZE, p.offset.toNat % REGION_SIZE, strlen d, 0⟩
    ⟨dev, p.offset.toNat / REGION_SIZE, p.offset.toNat % REGION_SIZE, strlen d, 0⟩ rfl rfl rfl]
    at e2
  simp only [Nat.zero_add] at e2
  unfold write_commit at h
  simp only at h
  split at h
  · exact (bad _ _ _ n1 h).elim
  · split at h
    · exact (bad _ _ _ n1 h).elim
    · split at h
      · exact (bad _ _ _ n2 h).elim
      · split at h
        · exact (bad _ _ _ n2 h).elim
        · split at h
          · exact (bad _ _ _ n3 h).elim
          · simp only [l1, l2, e1] at h
            split at h
            · cases h
            · cases h
              simp only [e2]

/-- Claim C32: for every starting offset inside the device and every length,
the chunk loops of `block_dev_write` and `block_dev_read` end within
`TOTAL_REGIONS` passes; every pass copies a chunk of at least one byte that
ends within its region, into or out of a region with index below
`TOTAL_REGIONS`; the passes go through consecutive regions; and the count
returned is the sum of the chunk lengths. -/
theorem chunk_loops_in_bounds (o : Nat) (ho : o < TOTAL_SIZE) :
    (∀ (d : List Nat) (dev : vblock_device) (len : Nat),
      ∃ s1, write_loop d TOTAL_REGIONS ⟨dev, o / REGION_SIZE, o % REGION_SIZE, len, 0⟩ =
          some s1 ∧
        s1.ret = chunks_total (write_loop_chunks d TOTAL_REGIONS
          ⟨dev, o / REGION_SIZE, o % REGION_SIZE, len, 0⟩) ∧
        chunks_in_bounds (o / REGION_SIZE) (write_loop_chunks d TOTAL_REGIONS
          ⟨dev, o / REGION_SIZE, o % REGION_SIZE, len, 0⟩)) ∧
    (∀ (dev : vblock_device) (env : Env) (p : ParseResult) (d : List Nat) (w : WriteResult),
      p.offset = (o : Int) → write_commit dev env p d = .ret w → 0 ≤ w.ret →
      w.ret = ((chunks_total (write_loop_chunks d TOTAL_REGIONS
        ⟨dev, o / REGION_SIZE, o % REGION_SIZE, strlen d, 0⟩) : Nat) : Int)) ∧
    (∀ (env : Env) (dev : vblock_device) (to_read : Nat),
      read_loop env TOTAL_REGIONS ⟨dev, o / REGION_SIZE, o % REGION_SIZE, to_read, 0, []⟩ ≠
          .diverged ∧
        chunks_in_bounds (o / REGION_SIZE) (read_loop_chunks env TOTAL_REGIONS
          ⟨dev, o / REGION_SIZE, o % REGION_SIZE, to_read, 0, []⟩)) ∧
    (∀ (dev : vblock_device) (env : Env) (count : Nat) (r : ReadResult),
      block_dev_read dev env count (o : Int) = .ret r → 0 ≤ r.ret →
      r.ret = ((chunks_total (read_loop_chunks env TOTAL_REGIONS
        ⟨dev, o / REGION_SIZE, o % REGION_SIZE, min count (TOTAL_SIZE - o), 0, []⟩) : Nat) :
        Int)) := by
  refine ⟨?_, ?_, ?_, ?_⟩
  · intro d dev len
    obtain ⟨s1, e1, e2, e3, _⟩ := write_loop_chunks_spec d TOTAL_REGIONS
      ⟨dev, o / REGION_SIZE, o % REGION_SIZE, len, 0⟩
      (Nat.mod_lt _ (by decide)) (Nat.le_add_right _ _)
    exact ⟨s1, e1, by simpa using e2, e3⟩
  · intro dev env p d w hp h hacc
    have := write_commit_ret_chunks dev env p d w h hacc
    rw [hp] at this
    simpa using this
  · intro env dev to_read
    obtain ⟨e1, e2, _⟩ := read_loop_chunks_spec env TOTAL_REGIONS
      ⟨dev, o / REGION_SIZE, o % REGION_SIZE, to_read, 0, []⟩
      (Nat.mod_lt _ (by decide)) (Nat.le_add_right _ _)
    exact ⟨e1, e2⟩
  · intro dev env count r h hacc
    obtain ⟨_, _, _, e4, e5⟩ := read_loop_chunks_spec env TOTAL_REGIONS
      ⟨dev, o / REGION_SIZE, o % REGION_SIZE, min count (TOTAL_SIZE - o), 0, []⟩
      (Nat.mod_lt _ (by decide)) (Nat.le_add_right _ _)
    have hr := (offset_in_range o ho).1
    have h1 : ¬ (TOTAL_SIZE : Int) ≤ (o : Int) := by omega
    have h2 : ¬ (o : Int) < 0 := by omega
    simp only [block_dev_read, h1, h2, if_false, Int.toNat_ofNat] at h
    split at h
    · rename_i e s heq
      cases h
      have := e5 e s heq
      simp only at hacc
      omega
    · rename_i s heq
      cases h
      have := e4 s heq
      simp only [Nat.zero_add] at this
      simp only [this]
    · cases h
    · cases h
    · cases h

theorem chunk_loops_in_bounds_witness :
    (∃ s1, write_loop (bytes "HELLO" ++ [0]) TOTAL_REGIONS
          ⟨scenario_init, 510 / REGION_SIZE, 510 % REGION_SIZE, 5, 0⟩ = some s1 ∧
        s1.ret = chunks_total (write_loop_chunks (bytes "HELLO" ++ [0]) TOTAL_REGIONS
          ⟨scenario_init, 510 / REGION_SIZE, 510 % REGION_SIZE, 5, 0⟩) ∧
        chunks_in_bounds (510 / REGION_SIZE) (write_loop_chunks (bytes "HELLO" ++ [0])
          TOTAL_REGIONS ⟨scenario_init, 510 / REGION_SIZE, 510 % REGION_SIZE, 5, 0⟩)) ∧
      (write_loop_chunks (bytes "HELLO" ++ [0]) TOTAL_REGIONS
          ⟨scenario_init, 510 / REGION_SIZE, 510 % REGION_SIZE, 5, 0⟩).map
        (fun c => (c.region_num, c.region_offset, c.chunk)) = [(0, 510, 2), (1, 0, 3)] :=
  ⟨(chunk_loops_in_bounds 510 (by decide)).1 (bytes "HELLO" ++ [0]) scenario_init 5, by decide⟩

/-! ## The mutex of the logger device -/

/-- With the mutex held, every file operation of the logger that takes it
sleeps. -/
theorem logger_mutex_held_blocks (g : logger_device) (h : g.logger_device_mutex = true)
    (cf : Bool) (buffer : List Nat) (count : Nat) :
    logger_device_write g cf buffer = .blocked ∧ logger_device_read g cf count = .blocked ∧
      logger_device_ioctl g .CLEAR_KERNEL_BUFFER cf = .blocked := by
  simp only [logger_device_write, logger_device_read, logger_device_ioctl, h, if_true, and_self]

/-- Claim C37, evaluated on the code: started with the mutex free,
`logger_device_write` and `logger_device_read` return with the mutex free
again exactly when they return a count; on each error return (`-ENOMEM` for
no buffer or a full buffer, `-EFAULT` for a failed copy) they return with the
mutex still held, and every following write, read and clear-buffer request
sleeps on it. -/
theorem logger_error_returns_hold_mutex (g : logger_device)
    (hfree : g.logger_device_mutex = false) (cf : Bool) (r : LoggerResult) :
    (∀ buffer, logger_device_write g cf buffer = .ret r →
      (0 ≤ r.ret → r.dev.logger_device_mutex = false) ∧
      (r.ret < 0 → r.dev.logger_device_mutex = true ∧
        ∀ cf1 buffer1 count1,
          logger_device_write r.dev cf1 buffer1 = .blocked ∧
          logger_device_read r.dev cf1 count1 = .blocked ∧
          logger_device_ioctl r.dev .CLEAR_KERNEL_BUFFER cf1 = .blocked)) ∧
    (∀ count, logger_device_read g cf count = .ret r →
      (0 ≤ r.ret → r.dev.logger_device_mutex = false) ∧
      (r.ret < 0 → r.dev.logger_device_mutex = true ∧
        ∀ cf1 buffer1 count1,
          logger_device_write r.dev cf1 buffer1 = .blocked ∧
          logger_device_read r.dev cf1 count1 = .blocked ∧
          logger_device_ioctl r.dev .CLEAR_KERNEL_BUFFER cf1 = .blocked)) := by
  have hn : ¬ (0 : Int) ≤ -ENOMEM ∧ ¬ (0 : Int) ≤ -EFAULT := by decide
  have held : ∀ (e : Int), e < 0 →
      (0 ≤ (⟨e, { g with logger_device_mutex := true }, []⟩ : LoggerResult).ret →
        (⟨e, { g with logger_device_mutex := true }, []⟩ : LoggerResult).dev.logger_device_mutex =
          false) ∧
      ((⟨e, { g with logger_device_mutex := true }, []⟩ : LoggerResult).ret < 0 →
        (⟨e, { g with logger_device_mutex := true }, []⟩ : LoggerResult).dev.logger_device_mutex =
          true ∧
        ∀ cf1 buffer1 count1,
          logger_device_write
            (⟨e, { g with logger_device_mutex := true }, []⟩ : LoggerResult).dev cf1 buffer1 =
              .blocked ∧
          logger_device_read
            (⟨e, { g with logger_device_mutex := true }, []⟩ : LoggerResult).dev cf1 count1 =
              .blocked ∧
          logger_device_ioctl
            (⟨e, { g with logger_device_mutex := true }, []⟩ : LoggerResult).dev
            .CLEAR_KERNEL_BUFFER cf1 = .blocked) := by
    intro e he
    constructor
    · intro h
      simp only at h
      omega
    · intro _
      exact ⟨rfl, fun cf1 buffer1 count1 => logger_mutex_held_blocks _ rfl cf1 buffer1 count1⟩
  have free : ∀ (n : Nat) (d : logger_device) (o : List Nat), d.logger_device_mutex = false →
      (0 ≤ (⟨(n : Int), d, o⟩ : LoggerResult).ret →
        (⟨(n : Int), d, o⟩ : LoggerResult).dev.logger_device_mutex = false) ∧
      ((⟨(n : Int), d, o⟩ : LoggerResult).ret < 0 →
        (⟨(n : Int), d, o⟩ : LoggerResult).dev.logger_device_mutex = true ∧
        ∀ cf1 buffer1 count1,
          logger_device_write (⟨(n : Int), d, o⟩ : LoggerResult).dev cf1 buffer1 = .blocked ∧
          logger_device_read (⟨(n : Int), d, o⟩ : LoggerResult).dev cf1 count1 = .blocked ∧
          logger_device_ioctl (⟨(n : Int), d, o⟩ : LoggerResult).dev .CLEAR_KERNEL_BUFFER cf1 =
            .blocked) := by
    intro n d o hd
    constructor
    · intro _
      exact hd
    · intro h
      simp only at h
      omega
  have e1 : -ENOMEM < 0 := by decide
  have e2 : -EFAULT < 0 := by decide
  constructor
  · intro buffer h
    simp only [logger_device_write, hfree, Bool.false_eq_true, if_false] at h
    split at h
    · cases h
      exact held _ e1
    · split at h
      · cases h
        exact held _ e1
      · split at h
        · cases h
          exact held _ e1
        · split at h
          · cases h
            exact held _ e2
          · split at h
            · cases h
            · cases h
              exact free _ _ _ rfl
  · intro count h
    simp only [logger_device_read, hfree, Bool.false_eq_true, if_false] at h
    split at h
    · cases h
      exact held _ e1
    · split at h
      · cases h
        exact held _ e1
      · split at h
        · cases h
          exact held _ e2
        · cases h
          exact free _ _ _ rfl

theorem logger_error_returns_hold_mutex_witness :
    logger_device_write logger_full false (bytes "B") =
        .ret ⟨-ENOMEM, { logger_full with logger_device_mutex := true }, []⟩ ∧
      ((⟨-ENOMEM, { logger_full with logger_device_mutex := true }, []⟩ :
          LoggerResult).dev.logger_device_mutex = true ∧
        ∀ cf1 buffer1 count1,
          logger_device_write
              (⟨-ENOMEM, { logger_full with logger_device_mutex := true }, []⟩ :
                LoggerResult).dev cf1 buffer1 = .blocked ∧
            logger_device_read
              (⟨-ENOMEM, { logger_full with logger_device_mutex := true }, []⟩ :
                LoggerResult).dev cf1 count1 = .blocked ∧
            logger_device_ioctl
              (⟨-ENOMEM, { logger_full with logger_device_mutex := true }, []⟩ :
                LoggerResult).dev .CLEAR_KERNEL_BUFFER cf1 = .blocked) ∧
      logger_ret (logger_device_read logger_full true 2) = some (-EFAULT) ∧
      (after_logger logger_full (logger_device_read logger_full true 2)).logger_device_mutex =
        true ∧
      logger_ret (logger_device_read logger_full false 2) = some 2 ∧
      (after_logger logger_full (logger_device_read logger_full false 2)).logger_device_mutex =
        false :=
  ⟨rfl,
    ((logger_error_returns_hold_mutex logger_full rfl false
      ⟨-ENOMEM, { logger_full with logger_device_mutex := true }, []⟩).1 (bytes "B") rfl).2
      (by decide),
    by decide, by decide, by decide, by decide⟩

/-! ## Writes of every payload shape: the key check and the range check -/

/-- A payload with a key, one `:` and an offset is parsed as keyed form, and
the data pointer the write derives from it is `NULL`. -/
theorem keyed_payload_no_data_parse (env : Env) (ktok otok : List Nat) (k o lofft : Int)
    (h3 : env.parse_alloc_fails = false)
    (hk : kstrtoint ktok = some k) (ho : kstrtoll otok = some o) :
    parse_write_data env ((ktok ++ 58 :: otok) ++ [0]) (ktok ++ 58 :: otok).length lofft 0 =
        ⟨1, o, k⟩ ∧
      write_data_ptr 1 ((ktok ++ 58 :: otok) ++ [0]) = none := by
  have hkb := kstrtoll_bytes ktok k (kstrtoint_kstrtoll ktok k hk)
  have hob := kstrtoll_bytes otok o ho
  have e : (ktok ++ 58 :: otok) ++ [0] = ktok ++ 58 :: (otok ++ 0 :: []) := by simp
  constructor
  · simp only [parse_write_data, h3, Bool.false_eq_true, if_false, take_append_nul]
    rw [e]
    simp only [strsep, strsep_scan_colon ktok _ hkb, Option.getD_some, hk,
      strsep_scan_nul otok [] hob, ho]
  · rw [e]
    simp only [write_data_ptr, if_true, strsep, strsep_scan_colon ktok _ hkb,
      strsep_scan_nul otok [] hob]

/-- A payload that `parse_write_data` accepts with an offset inside the device
was parsed in keyed form. -/
theorem parse_accepted_in_range_keyed (env : Env) (buffer : List Nat) (lofft : Int)
    (hret : 0 ≤ (parse_write_data env (buffer ++ [0]) buffer.length lofft 0).ret)
    (h0 : 0 ≤ (parse_write_data env (buffer ++ [0]) buffer.length lofft 0).offset)
    (hlt : (parse_write_data env (buffer ++ [0]) buffer.length lofft 0).offset <
      (TOTAL_SIZE : Int)) :
    (parse_write_data env (buffer ++ [0]) buffer.length lofft 0).ret = 1 := by
  obtain ⟨n1, _, _, _, n5, _⟩ := neg_errno_lt_zero
  rcases parse_write_data_ret env buffer lofft 0 with h | h | h | ⟨_, hk, hl⟩
  · omega
  · omega
  · exact h
  · exfalso
    apply kstrtoint_none_not_int _ _ hk hl
    simp only [TOTAL_SIZE, REGION_SIZE, TOTAL_REGIONS] at hlt
    omega

/-- A write whose payload has passed the parse reaches either `strlen(NULL)`
or the commit part, as the data pointer says. -/
theorem block_dev_write_parsed (dev : vblock_device) (env : Env) (buffer : List Nat)
    (lofft : Int)
    (h1 : env.write_alloc_fails = false) (h2 : env.copy_from_user_fails = false)
    (hret : 0 ≤ (parse_write_data env (buffer ++ [0]) buffer.length lofft 0).ret) :
    (write_data_ptr (parse_write_data env (buffer ++ [0]) buffer.length lofft 0).ret
        (buffer ++ [0]) = none →
      block_dev_write dev env buffer lofft = .undefined) ∧
    (∀ data_ptr,
      write_data_ptr (parse_write_data env (buffer ++ [0]) buffer.length lofft 0).ret
        (buffer ++ [0]) = some data_ptr →
      block_dev_write dev env buffer lofft =
        write_commit dev env (parse_write_data env (buffer ++ [0]) buffer.length lofft 0)
          data_ptr) := by
  have h3 : ¬ (parse_write_data env (buffer ++ [0]) buffer.length lofft 0).ret < 0 := by omega
  constructor
  · intro hd
    simp only [block_dev_write, h1, h2, h3, Bool.false_eq_true, if_false, hd]
  · intro dp hd
    simp only [block_dev_write, h1, h2, h3, Bool.false_eq_true, if_false, hd]

/-- Claim C2, evaluated on the code, for every payload. Let the payload be
accepted by `parse_write_data` with a resolved offset inside a locked region
(the allocations and the copy from the user succeed). Then it was parsed in
keyed form, and: when the data pointer is not `NULL`, the write returns
`-EACCES` if the key is not in the allow-list and `-EPERM` if the key is
allowed but is not the region's lock key, and hands the device back as it was;
when the data pointer is `NULL` the write calls `strlen` on it before the key
check, so it returns no error, its behaviour is undefined. The data pointer is
`NULL` for a payload `<key>:<offset>` and is the data for a payload
`<key>:<offset>:<data>`. -/
theorem locked_region_write_key_check (dev : vblock_device) (env : Env) (buffer : List Nat)
    (lofft : Int)
    (h1 : env.write_alloc_fails = false) (h2 : env.copy_from_user_fails = false)
    (hret : 0 ≤ (parse_write_data env (buffer ++ [0]) buffer.length lofft 0).ret)
    (h0 : 0 ≤ (parse_write_data env (buffer ++ [0]) buffer.length lofft 0).offset)
    (hlt : (parse_write_data env (buffer ++ [0]) buffer.length lofft 0).offset <
      (TOTAL_SIZE : Int))
    (hl : (dev.regions
      ((parse_write_data env (buffer ++ [0]) buffer.length lofft 0).offset.toNat /
        REGION_SIZE)).locked ≠ 0) :
    (parse_write_data env (buffer ++ [0]) buffer.length lofft 0).ret = 1 ∧
    (write_data_ptr 1 (buffer ++ [0]) = none →
      block_dev_write dev env buffer lofft = .undefined) ∧
    (∀ data_ptr, write_data_ptr 1 (buffer ++ [0]) = some data_ptr →
      (is_valid_key dev (parse_write_data env (buffer ++ [0]) buffer.length lofft 0).key =
          false →
        block_dev_write dev env buffer lofft =
          .ret ⟨-EACCES, dev,
            (parse_write_data env (buffer ++ [0]) buffer.length lofft 0).offset⟩) ∧
      (is_valid_key dev (parse_write_data env (buffer ++ [0]) buffer.length lofft 0).key =
          true →
        (parse_write_data env (buffer ++ [0]) buffer.length lofft 0).key ≠
          (dev.regions
            ((parse_write_data env (buffer ++ [0]) buffer.length lofft 0).offset.toNat /
              REGION_SIZE)).lock_key →
        block_dev_write dev env buffer lofft =
          .ret ⟨-EPERM, dev,
            (parse_write_data env (buffer ++ [0]) buffer.length lofft 0).offset⟩)) ∧
    (∀ (ktok otok : List Nat) (k o : Int), buffer = ktok ++ 58 :: otok →
      kstrtoint ktok = some k → kstrtoll otok = some o →
      (parse_write_data env (buffer ++ [0]) buffer.length lofft 0).key = k ∧
        (parse_write_data env (buffer ++ [0]) buffer.length lofft 0).offset = o ∧
        write_data_ptr 1 (buffer ++ [0]) = none) ∧
    (∀ (ktok otok data : List Nat) (k o : Int), buffer = ktok ++ 58 :: (otok ++ 58 :: data) →
      kstrtoint ktok = some k → kstrtoll otok = some o →
      (parse_write_data env (buffer ++ [0]) buffer.length lofft 0).key = k ∧
        (parse_write_data env (buffer ++ [0]) buffer.length lofft 0).offset = o ∧
        write_data_ptr 1 (buffer ++ [0]) = some (data ++ [0])) := by
  have hkeyed := parse_accepted_in_range_keyed env buffer lofft hret h0 hlt
  obtain ⟨w1, w2⟩ := block_dev_write_parsed dev env buffer lofft h1 h2 hret
  rw [hkeyed] at w1 w2
  have h3 : env.parse_alloc_fails = false := by
    cases h : env.parse_alloc_fails with
    | false => rfl
    | true =>
      simp only [parse_write_data, h, if_true] at hkeyed
      revert hkeyed
      decide
  have hr1 : ¬ ((parse_write_data env (buffer ++ [0]) buffer.length lofft 0).offset < 0 ∨
      (TOTAL_SIZE : Int) ≤ (parse_write_data env (buffer ++ [0]) buffer.length lofft 0).offset) := by
    omega
  have hr2 : ¬ TOTAL_REGIONS ≤
      (parse_write_data env (buffer ++ [0]) buffer.length lofft 0).offset.toNat / REGION_SIZE := by
    simp only [TOTAL_SIZE, REGION_SIZE, TOTAL_REGIONS] at *
    omega
  refine ⟨hkeyed, w1, ?_, ?_, ?_⟩
  · intro dp hd
    rw [w2 dp hd]
    constructor
    · intro hv
      simp only [write_commit, hr1, hr2, if_false]
      simp [hl, hv, hkeyed]
    · intro hv hne
      simp only [write_commit, hr1, hr2, if_false]
      simp [hl, hv, hne, hkeyed]
  · intro ktok otok k o hb hk ho
    subst hb
    obtain ⟨p1, p2⟩ := keyed_payload_no_data_parse env ktok otok k o lofft h3 hk ho
    exact ⟨by rw [p1], by rw [p1], p2⟩
  · intro ktok otok data k o hb hk ho
    subst hb
    obtain ⟨p1, p2⟩ := keyed_payload_parse env ktok otok data k o lofft h3 hk ho
    exact ⟨by rw [p1], by rw [p1], p2⟩

theorem locked_region_write_key_check_witness :
    block_dev_write scenario_locked Env.quiet (bytes "999:0") 0 = .undefined ∧
      block_dev_write scenario_locked Env.quiet (bytes "999:0:HELLO") 0 =
        .ret ⟨-EACCES, scenario_locked, 0⟩ ∧
      block_dev_write scenario_locked_one Env.quiet (bytes "1000:512:HELLO") 0 =
        .ret ⟨-EPERM, scenario_locked_one, 512⟩ :=
  ⟨(locked_region_write_key_check scenario_locked Env.quiet (bytes "999:0") 0 rfl rfl
      (by decide) (by decide) (by decide) (by decide)).2.1 rfl,
    ((locked_region_write_key_check scenario_locked Env.quiet (bytes "999:0:HELLO") 0 rfl rfl
      (by decide) (by decide) (by decide) (by decide)).2.2.1 (bytes "HELLO" ++ [0]) (by decide)).1
      (by decide),
    ((locked_region_write_key_check scenario_locked_one Env.quiet (bytes "1000:512:HELLO") 0
      rfl rfl (by decide) (by decide) (by decide) (by decide)).2.2.1 (bytes "HELLO" ++ [0])
      (by decide)).2 (by decide) (by decide)⟩

/-- Claim C14, evaluated on the code, for every payload. Let the payload be
accepted by `parse_write_data` with a resolved offset below 0 or at or above
`TOTAL_SIZE` (the allocations and the copy from the user succeed). When the
data pointer is not `NULL` the write returns `-EINVAL` and hands the device
back as it was, whatever the lock flags are; when the payload was parsed in
keyed form and its data pointer is `NULL` the write calls `strlen` on it
before the range check, so it returns no error, its behaviour is undefined.
The data pointer is `NULL` for a payload `<key>:<offset>` and is the data for
a payload `<key>:<offset>:<data>`. -/
theorem out_of_range_write_outcome (dev : vblock_device) (env : Env) (buffer : List Nat)
    (lofft : Int)
    (h1 : env.write_alloc_fails = false) (h2 : env.copy_from_user_fails = false)
    (hret : 0 ≤ (parse_write_data env (buffer ++ [0]) buffer.length lofft 0).ret)
    (hrange : (parse_write_data env (buffer ++ [0]) buffer.length lofft 0).offset < 0 ∨
      (TOTAL_SIZE : Int) ≤ (parse_write_data env (buffer ++ [0]) buffer.length lofft 0).offset) :
    (write_data_ptr (parse_write_data env (buffer ++ [0]) buffer.length lofft 0).ret
        (buffer ++ [0]) = none →
      (parse_write_data env (buffer ++ [0]) buffer.length lofft 0).ret = 1 ∧
        block_dev_write dev env buffer lofft = .undefined) ∧
    (∀ data_ptr,
      write_data_ptr (parse_write_data env (buffer ++ [0]) buffer.length lofft 0).ret
        (buffer ++ [0]) = some data_ptr →
      block_dev_write dev env buffer lofft =
        .ret ⟨-EINVAL, dev,
          (parse_write_data env (buffer ++ [0]) buffer.length lofft 0).offset⟩) ∧
    (∀ (ktok otok : List Nat) (k o : Int), buffer = ktok ++ 58 :: otok →
      kstrtoint ktok = some k → kstrtoll otok = some o →
      (parse_write_data env (buffer ++ [0]) buffer.length lofft 0).ret = 1 ∧
        (parse_write_data env (buffer ++ [0]) buffer.length lofft 0).offset = o ∧
        write_data_ptr 1 (buffer ++ [0]) = none) ∧
    (∀ (ktok otok data : List Nat) (k o : Int), buffer = ktok ++ 58 :: (otok ++ 58 :: data) →
      kstrtoint ktok = some k → kstrtoll otok = some o →
      (parse_write_data env (buffer ++ [0]) buffer.length lofft 0).ret = 1 ∧
        (parse_write_data env (buffer ++ [0]) buffer.length lofft 0).offset = o ∧
        write_data_ptr 1 (buffer ++ [0]) = some (data ++ [0])) := by
  obtain ⟨w1, w2⟩ := block_dev_write_parsed dev env buffer lofft h1 h2 hret
  have h3 : env.parse_alloc_fails = false := by
    cases h : env.parse_alloc_fails with
    | false => rfl
    | true =>
      simp only [parse_write_data, h, if_true] at hret
      revert hret
      decide
  refine ⟨?_, ?_, ?_, ?_⟩
  · intro hd
    refine ⟨?_, w1 hd⟩
    by_contra hne
    simp [write_data_ptr, hne] at hd
  · intro dp hd
    rw [w2 dp hd]
    simp only [write_commit, hrange, if_true]
  · intro ktok otok k o hb hk ho
    subst hb
    obtain ⟨p1, p2⟩ := keyed_payload_no_data_parse env ktok otok k o lofft h3 hk ho
    exact ⟨by rw [p1], by rw [p1], p2⟩
  · intro ktok otok data k o hb hk ho
    subst hb
    obtain ⟨p1, p2⟩ := keyed_payload_parse env ktok otok data k o lofft h3 hk ho
    exact ⟨by rw [p1], by rw [p1], p2⟩

theorem out_of_range_write_outcome_witness :
    ((parse_write_data Env.quiet (bytes "7:5000" ++ [0]) (bytes "7:5000").length 0 0).ret = 1 ∧
        block_dev_write scenario_init Env.quiet (bytes "7:5000") 0 = .undefined) ∧
      block_dev_write scenario_locked Env.quiet (bytes "1000:4096:HELLO") 0 =
        .ret ⟨-EINVAL, scenario_locked, 4096⟩ ∧
      block_dev_write scenario_init Env.quiet (bytes "7:-1:HELLO") 0 =
        .ret ⟨-EINVAL, scenario_init, -1⟩ :=
  ⟨(out_of_range_write_outcome scenario_init Env.quiet (bytes "7:5000") 0 rfl rfl (by decide)
      (by decide)).1 rfl,
    (out_of_range_write_outcome scenario_locked Env.quiet (bytes "1000:4096:HELLO") 0 rfl rfl
      (by decide) (by decide)).2.1 (bytes "HELLO" ++ [0]) (by decide),
    (out_of_range_write_outcome scenario_init Env.quiet (bytes "7:-1:HELLO") 0 rfl rfl
      (by decide) (by decide)).2.1 (bytes "HELLO" ++ [0]) (by decide)⟩
